import Mathlib

/-! # XMC4xxx flash driver: shallow embedding and verified properties

Sources embedded here:
* `src/src/flash/nor/xmc4xxx.h`  (register map, bit positions, command addresses)
* `src/src/flash/nor/xmc4xxx.c`  (host side driver)
* `src/contrib/loaders/flash/xmc4xxx/write.c` (routine executed on the target CPU)

The debug target is an oracle: every answer it gives may depend on the whole
history of accesses made so far (the trace).  Driver functions thread the trace
explicitly, appending one event per access in chronological order.
-/

namespace XMC4xxx

/-! ## Return codes -/

/-- Return codes of the driver.  The five named codes are the OpenOCD codes the
driver mentions by name (their numeric values live in headers outside the
driver; only their being pairwise distinct matters here).  `ERROR_other n`
stands for any further code the transport can hand back. -/
inductive Retval where
  | ERROR_OK
  | ERROR_FAIL
  | ERROR_TARGET_NOT_HALTED
  | ERROR_TARGET_RESOURCE_NOT_AVAILABLE
  | ERROR_FLASH_OPERATION_FAILED
  | ERROR_other (n : Nat)
  deriving DecidableEq, Repr

open Retval

/-! ## Constants of `xmc4xxx.h` -/

def U32 : Nat := 2 ^ 32

def XMC4XXX_FLASH_WORD_SIZE : Nat := 8
def FLASH_FSR_PBUSY_Msk : Nat := 0x1
def XMC_FLASH_WORDS_PER_PAGE : Nat := 64
def XMC_FLASH_UNCACHED_BASE : Nat := 0x0C000000
def MAX_XMC_SECTORS : Nat := 12
def SCU_REG_BASE : Nat := 0x50004000
def SCU_ID_CHIP : Nat := 0x04
def UCB0_BASE : Nat := 0x00000000
def UCB1_BASE : Nat := 0x00000400
def UCB2_BASE : Nat := 0x00000800
def FLASH_REG_BASE : Nat := 0x58000000
def FLASH_REG_FLASH0_ID : Nat := FLASH_REG_BASE ||| 0x2008
def FLASH_REG_FLASH0_FSR : Nat := FLASH_REG_BASE ||| 0x2010
def FLASH_REG_FLASH0_PROCON0 : Nat := FLASH_REG_BASE ||| 0x2020
def FLASH_REG_FLASH0_PROCON1 : Nat := FLASH_REG_BASE ||| 0x2024
def FLASH_REG_FLASH0_PROCON2 : Nat := FLASH_REG_BASE ||| 0x2028

def FSR_PBUSY : Nat := 0
def FSR_ERASE : Nat := 5
def FSR_SQER : Nat := 10
def FSR_PROER : Nat := 11
def FSR_RPROIN : Nat := 18
def FSR_WPROIN0 : Nat := 21
def FSR_WPROIN1 : Nat := 22
def FSR_WPROIN2 : Nat := 23
def FSR_WPRODIS0 : Nat := 25

def FSR_PBUSY_MASK : Nat := 0x01 <<< FSR_PBUSY
def FSR_ERASE_MASK : Nat := 0x01 <<< FSR_ERASE
def FSR_SQER_MASK : Nat := 0x01 <<< FSR_SQER
def FSR_PROER_MASK : Nat := 0x01 <<< FSR_PROER
def FSR_RPROIN_MASK : Nat := 0x01 <<< FSR_RPROIN
def FSR_WPROIN0_MASK : Nat := 0x01 <<< FSR_WPROIN0
def FSR_WPROIN1_MASK : Nat := 0x01 <<< FSR_WPROIN1
def FSR_WPROIN2_MASK : Nat := 0x01 <<< FSR_WPROIN2

def PROCON_RPRO : Nat := 15
def PROCON_RPRO_MASK : Nat := 0x01 <<< PROCON_RPRO

def FLASH_PROTECT_CONFIRMATION_CODE : Nat := 0x8AFE15C3

def FLASH_ID_XMC4500 : Nat := 0xA2
def FLASH_ID_XMC4300_XMC4700_4800 : Nat := 0x92
def FLASH_ID_XMC4100_4200 : Nat := 0x9C
def FLASH_ID_XMC4400 : Nat := 0x9F

def FLASH_OP_TIMEOUT : Int := 5000

def FLASH_CMD_ERASE_1 : Nat := 0x0C005554
def FLASH_CMD_ERASE_2 : Nat := 0x0C00AAA8
def FLASH_CMD_ERASE_3 : Nat := FLASH_CMD_ERASE_1
def FLASH_CMD_ERASE_4 : Nat := FLASH_CMD_ERASE_1
def FLASH_CMD_ERASE_5 : Nat := FLASH_CMD_ERASE_2
def FLASH_CMD_CLEAR_STATUS : Nat := FLASH_CMD_ERASE_1
def FLASH_CMD_TEMP_UNPROT_1 : Nat := FLASH_CMD_ERASE_1
def FLASH_CMD_TEMP_UNPROT_2 : Nat := FLASH_CMD_ERASE_2
def FLASH_CMD_TEMP_UNPROT_3 : Nat := 0x0C00553C
def FLASH_CMD_TEMP_UNPROT_4 : Nat := FLASH_CMD_ERASE_2
def FLASH_CMD_TEMP_UNPROT_5 : Nat := FLASH_CMD_ERASE_2
def FLASH_CMD_TEMP_UNPROT_6 : Nat := 0x0C005558

def LDR_STACK_SIZE : Nat := 100

/-- Value of `sizeof(struct xmc4xxx_work_area)` under `#pragma pack(1)`: the
stack bytes followed by the two 32-bit fifo cells. -/
def sizeof_xmc4xxx_work_area : Nat := LDR_STACK_SIZE + 4 + 4

/-- Value of `offsetof(struct xmc4xxx_work_area, stack)`. -/
def offsetof_stack : Nat := 0

/-- Value of `offsetof(struct xmc4xxx_work_area, fifo)`; `fifo.wp` sits here and
`fifo.rp` four bytes further. -/
def offsetof_fifo : Nat := LDR_STACK_SIZE

/-! ## The debug target -/

/-- A block of target working memory (`struct working_area`). -/
structure working_area where
  address : Nat
  size : Nat
  deriving DecidableEq, Repr

/-- Arguments of one `target_run_flash_async_algorithm` call, as passed by
`xmc4xxx_write_block`. -/
structure async_call where
  buffer : List Nat
  count : Nat
  block_size : Nat
  r0 : Nat
  r1 : Nat
  r2 : Nat
  r3 : Nat
  sp : Nat
  buffer_start : Nat
  buffer_size : Nat
  entry_point : Nat
  deriving DecidableEq, Repr

/-- One interaction of the driver with the target or the host runtime. -/
inductive Event where
  | read_u32 (addr : Nat)
  | write_u32 (addr val : Nat)
  | alive_sleep (ms : Nat)
  | keep_alive
  | alloc_working_area (size : Nat)
  | alloc_working_area_try (size : Nat)
  | free_working_area (area : working_area)
  | write_buffer (addr size : Nat) (data : List Nat)
  | get_working_area_avail
  | run_flash_async_algorithm (call : async_call)
  deriving DecidableEq, Repr

/-- The target as seen by the driver.  Each capability answers as a function of
the events so far.  `halted` is `target->state == TARGET_HALTED`;
`little_endian` is `target->endianness == TARGET_LITTLE_ENDIAN`. -/
structure Target where
  halted : Bool
  little_endian : Bool
  read_u32 : List Event → Nat → Retval × Nat
  write_u32 : List Event → Nat → Nat → Retval
  alloc_working_area : List Event → Nat → Retval × working_area
  alloc_working_area_try : List Event → Nat → Retval × working_area
  write_buffer : List Event → Nat → Nat → List Nat → Retval
  get_working_area_avail : List Event → Nat
  run_flash_async_algorithm : List Event → async_call → Retval

/-- The call `target_read_u32`: the answer and the extended trace. -/
def target_read_u32 (t : Target) (tr : List Event) (addr : Nat) :
    Retval × Nat × List Event :=
  ((t.read_u32 tr addr).1, (t.read_u32 tr addr).2, tr ++ [Event.read_u32 addr])

/-- The call `target_write_u32`: the answer and the extended trace. -/
def target_write_u32 (t : Target) (tr : List Event) (addr val : Nat) :
    Retval × List Event :=
  (t.write_u32 tr addr val, tr ++ [Event.write_u32 addr val])

/-! ## Bank data model (`struct flash_sector`, `struct flash_bank`,
`struct xmc4xxx_flash_bank`) -/

structure flash_sector where
  offset : Nat
  size : Nat
  is_erased : Int
  is_protected : Int
  deriving DecidableEq, Repr

/-- Driver private data.  `write_prot_otp i` is the byte at index `i` counted
from the start of the array `write_prot_otp[MAX_XMC_SECTORS]`; only indices
below `MAX_XMC_SECTORS` lie inside the declared array.  The array is the last
member of the structure, so a cell at index `MAX_XMC_SECTORS` or above is
memory the driver does not own: an access there is out of bounds in C.  Such
cells are kept here only so that an out-of-bounds access can be exhibited;
a property of the driver is established only where every access stays below
`MAX_XMC_SECTORS`. -/
structure xmc4xxx_flash_bank where
  probed : Bool
  fcon_id : Nat
  pw1 : Nat
  pw2 : Nat
  pw_set : Bool
  read_protected : Bool
  write_prot_otp : Nat → Bool

structure flash_bank where
  base : Nat
  size : Nat
  num_sectors : Nat
  sectors : List flash_sector
  default_padded_value : Nat
  erased_value : Nat
  driver_priv : xmc4xxx_flash_bank

structure xmc4xxx_command_seq where
  address : Nat
  magic : Nat
  deriving DecidableEq, Repr

/-! ## Sector capacities -/

def sector_capacity_8 : List Nat := [16, 16, 16, 16, 16, 16, 16, 128]

def sector_capacity_9 : List Nat := [16, 16, 16, 16, 16, 16, 16, 128, 256]

def sector_capacity_12 : List Nat :=
  [16, 16, 16, 16, 16, 16, 16, 16, 128, 256, 256, 256]

def sector_capacity_16 : List Nat :=
  [16, 16, 16, 16, 16, 16, 16, 16, 128, 256, 256, 256, 256, 256, 256, 256]

/-! ## Small helpers of the driver -/

/-- Embedding of `xmc4xxx_get_sector_start_addr`: `none` stands for the
`ERROR_FAIL` return.  Reading `bank->sectors[sector]` at an index outside the
table yields the zero sector here. -/
def xmc4xxx_get_sector_start_addr (bank : flash_bank) (sector : Nat) : Option Nat :=
  if sector > bank.num_sectors then none
  else some ((bank.base + (bank.sectors.getD sector ⟨0, 0, 0, 0⟩).offset) % U32)

/-- Embedding of `xmc4xxx_clear_flash_status`. -/
def xmc4xxx_clear_flash_status (t : Target) (tr : List Event) : Retval × List Event :=
  let r := target_write_u32 t tr FLASH_CMD_CLEAR_STATUS 0xf5
  if r.1 ≠ ERROR_OK then (r.1, r.2) else (ERROR_OK, r.2)

/-- Embedding of `xmc4xxx_get_flash_status`. -/
def xmc4xxx_get_flash_status (t : Target) (tr : List Event) : Retval × Nat × List Event :=
  target_read_u32 t tr FLASH_REG_FLASH0_FSR

/-- Embedding of `xmc4xxx_write_command_sequence`: the `for` loop over the
entries, leaving at the first failed write. -/
def xmc4xxx_write_command_sequence (t : Target) (tr : List Event) :
    List xmc4xxx_command_seq → Retval × List Event
  | [] => (ERROR_OK, tr)
  | e :: rest =>
    let r := target_write_u32 t tr e.address e.magic
    if r.1 ≠ ERROR_OK then (r.1, r.2)
    else xmc4xxx_write_command_sequence t r.2 rest

/-- The `while (status & FSR_PBUSY_MASK)` loop of `xmc4xxx_wait_status_busy`.
The first argument is the current value of `timeout` when it is positive and
`0` when `timeout <= 0`; the result carries the last status read. -/
def wait_busy_loop (t : Target) : Nat → Nat → List Event → Retval × Nat × List Event
  | timeout, status, tr =>
    if status &&& FSR_PBUSY_MASK = 0 then (ERROR_OK, status, tr)
    else
      let r := xmc4xxx_get_flash_status t tr
      if r.1 ≠ ERROR_OK then (r.1, r.2.1, r.2.2)
      else
        match timeout with
        | 0 => (ERROR_FAIL, r.2.1, r.2.2)
        | n + 1 =>
          wait_busy_loop t n r.2.1 (r.2.2 ++ [Event.alive_sleep 1, Event.keep_alive])

/-- Embedding of `xmc4xxx_wait_status_busy`. -/
def xmc4xxx_wait_status_busy (t : Target) (timeout : Int) (tr : List Event) :
    Retval × List Event :=
  let r := xmc4xxx_get_flash_status t tr
  if r.1 ≠ ERROR_OK then (r.1, r.2.2)
  else
    let l := wait_busy_loop t timeout.toNat r.2.1 r.2.2
    if l.1 ≠ ERROR_OK then (l.1, l.2.2)
    else if l.2.1 &&& FSR_PROER_MASK ≠ 0 then (ERROR_FAIL, l.2.2)
    else (ERROR_OK, l.2.2)

/-! ## Probe -/

/-- The `for` loop of `xmc4xxx_load_bank_layout` filling the sector table, one
entry per capacity; the second argument is `total_offset`. -/
def load_sectors : List Nat → Nat → List flash_sector
  | [], _ => []
  | c :: cs, total_offset =>
    ⟨total_offset, c * 1024 % U32, -1, -1⟩ ::
      load_sectors cs ((total_offset + c * 1024 % U32) % U32)

/-- The accumulation `bank->size += bank->sectors[i].size` of the same loop. -/
def load_size : List Nat → Nat → Nat
  | [], size => size
  | c :: cs, size => load_size cs ((size + c * 1024 % U32) % U32)

/-- Embedding of `xmc4xxx_load_bank_layout`. -/
def xmc4xxx_load_bank_layout (bank : flash_bank) : Retval × flash_bank :=
  let capacity : Option (List Nat) :=
    if bank.num_sectors = 8 then some sector_capacity_8
    else if bank.num_sectors = 9 then some sector_capacity_9
    else if bank.num_sectors = 12 then some sector_capacity_12
    else if bank.num_sectors = 16 then some sector_capacity_16
    else none
  match capacity with
  | none => (ERROR_FAIL, bank)
  | some cap =>
    (ERROR_OK,
      { bank with
        sectors := load_sectors cap 0
        size := load_size cap bank.size
        default_padded_value := 0x00
        erased_value := 0x00 })

/-- The `switch (flash_id)` of `xmc4xxx_probe`: the sector count, or `none` for
the `default` branch. -/
def flash_id_num_sectors (flash_id : Nat) : Option Nat :=
  if flash_id = FLASH_ID_XMC4100_4200 then some 8
  else if flash_id = FLASH_ID_XMC4400 then some 9
  else if flash_id = FLASH_ID_XMC4500 then some 12
  else if flash_id = FLASH_ID_XMC4300_XMC4700_4800 then some 16
  else none

/-- Embedding of `xmc4xxx_probe`. -/
def xmc4xxx_probe (t : Target) (tr : List Event) (bank : flash_bank) :
    Retval × flash_bank × List Event :=
  if bank.driver_priv.probed then (ERROR_OK, bank, tr)
  else if ¬ t.halted then (ERROR_TARGET_NOT_HALTED, bank, tr)
  else
    let d := target_read_u32 t tr (SCU_REG_BASE + SCU_ID_CHIP)
    if d.1 ≠ ERROR_OK then (d.1, bank, d.2.2)
    else
      let devid := d.2.1
      if devid &&& 0xF0000 ≠ 0x40000 ∧ devid ≠ 0 then (ERROR_FAIL, bank, d.2.2)
      else
        let c := target_read_u32 t d.2.2 FLASH_REG_FLASH0_ID
        if c.1 ≠ ERROR_OK then (c.1, bank, c.2.2)
        else
          let config := c.2.1
          let flash_id := ((config &&& 0xff0000) >>> 16) % 256
          match flash_id_num_sectors flash_id with
          | none => (ERROR_FAIL, bank, c.2.2)
          | some n =>
            let l := xmc4xxx_load_bank_layout { bank with num_sectors := n }
            if l.1 = ERROR_OK then
              (ERROR_OK,
                { l.2 with driver_priv := { l.2.driver_priv with probed := true } },
                c.2.2)
            else (ERROR_FAIL, l.2, c.2.2)

/-! ## Info -/

/-- Lower-case hexadecimal rendering, as `%x` prints it. -/
def hex (n : Nat) : String := String.mk (Nat.toDigits 16 n)

/-- The nested `switch (dev_id)`, `switch (rev_id)` of
`xmc4xxx_get_info_command`: device string and optional revision string, or
`none` for the `default` branch. -/
def info_strings (dev_id rev_id : Nat) : Option (String × Option String) :=
  if dev_id = 0x100 then
    some ("XMC4100", if rev_id = 1 then some "AA" else if rev_id = 2 then some "AB" else none)
  else if dev_id = 0x200 then
    some ("XMC4200", if rev_id = 1 then some "AA" else if rev_id = 2 then some "AB" else none)
  else if dev_id = 0x300 then
    some ("XMC4300", if rev_id = 1 then some "AA" else none)
  else if dev_id = 0x400 then
    some ("XMC4400", if rev_id = 1 then some "AA" else if rev_id = 2 then some "AB" else none)
  else if dev_id = 0 then
    some ("XMC4500 EES", some "AA13")
  else if dev_id = 0x500 then
    some ("XMC4500",
      if rev_id = 2 then some "AA" else if rev_id = 3 then some "AB"
      else if rev_id = 4 then some "AC" else none)
  else if dev_id = 0x700 then
    some ("XMC4700", if rev_id = 1 then some "EES-AA" else none)
  else if dev_id = 0x800 then
    some ("XMC4800", if rev_id = 1 then some "EES-AA" else none)
  else none

/-- The protection text `prot_str` assembled by `xmc4xxx_get_info_command`
(512-byte buffer; the bounded `strncat` keeps at most 511 characters). -/
def info_prot_str (bank : flash_bank) : String :=
  let fb := bank.driver_priv
  let s0 : String := if fb.read_protected then "\nFlash is read protected" else ""
  let otp_enabled : Bool := (List.range bank.num_sectors).any fun i => fb.write_prot_otp i
  if otp_enabled then
    let s1 := s0 ++ "\nOTP Protection is enabled for sectors:\n"
    let s2 := (List.range bank.num_sectors).foldl
      (fun acc i =>
        if fb.write_prot_otp i then acc ++ (("- " ++ toString i ++ "\n").take 13) else acc) s1
    s2.take 511
  else s0

/-- Embedding of `xmc4xxx_get_info_command`: return code, text printed (if any)
and trace. -/
def xmc4xxx_get_info_command (t : Target) (tr : List Event) (bank : flash_bank) :
    Retval × Option String × List Event :=
  if ¬ t.halted then (ERROR_TARGET_NOT_HALTED, none, tr)
  else
    let r := target_read_u32 t tr (SCU_REG_BASE + SCU_ID_CHIP)
    if r.1 ≠ ERROR_OK then (r.1, none, r.2.2)
    else
      let scu_idcode := r.2.1
      let rev_id := scu_idcode &&& 0x000f
      let dev_id := (scu_idcode &&& 0xfff0) >>> 4
      match info_strings dev_id rev_id with
      | none =>
        (ERROR_OK,
          some ("Cannot identify target as an XMC4xxx. SCU_ID: " ++ hex scu_idcode ++ "\n"),
          r.2.2)
      | some (dev_str, some rev_str) =>
        (ERROR_OK, some (dev_str ++ " - Rev: " ++ rev_str ++ info_prot_str bank), r.2.2)
      | some (dev_str, none) =>
        (ERROR_OK,
          some (dev_str ++ " - Rev: unknown (0x" ++ hex rev_id ++ ")" ++ info_prot_str bank),
          r.2.2)

/-! ## Erase and unprotect command sequences -/

/-- The array `erase_cmd_seq` of `xmc4xxx_erase_sector` after its last entry
has been filled in. -/
def erase_cmd_seq (bank : flash_bank) (address : Nat) (user_config : Bool) :
    List xmc4xxx_command_seq :=
  [ ⟨FLASH_CMD_ERASE_1, 0xaa⟩,
    ⟨FLASH_CMD_ERASE_2, 0x55⟩,
    ⟨FLASH_CMD_ERASE_3, 0x80⟩,
    ⟨FLASH_CMD_ERASE_4, 0xaa⟩,
    ⟨FLASH_CMD_ERASE_5, 0x55⟩,
    if user_config then ⟨(address + bank.base) % U32, 0xc0⟩ else ⟨address, 0x30⟩ ]

/-- Embedding of `xmc4xxx_erase_sector`. -/
def xmc4xxx_erase_sector (t : Target) (tr : List Event) (bank : flash_bank)
    (address : Nat) (user_config : Bool) : Retval × List Event :=
  let w := xmc4xxx_write_command_sequence t tr (erase_cmd_seq bank address user_config)
  if w.1 ≠ ERROR_OK then (w.1, w.2)
  else
    let s := target_read_u32 t w.2 FLASH_REG_FLASH0_FSR
    if s.1 ≠ ERROR_OK then (s.1, s.2.2)
    else if s.2.1 &&& FSR_SQER_MASK ≠ 0 then (ERROR_FAIL, s.2.2)
    else if s.2.1 &&& FSR_ERASE_MASK = 0 then (ERROR_FAIL, s.2.2)
    else xmc4xxx_wait_status_busy t FLASH_OP_TIMEOUT s.2.2

/-- Embedding of `xmc4xxx_flash_unprotect`. -/
def xmc4xxx_flash_unprotect (t : Target) (tr : List Event) (bank : flash_bank)
    (level : Int) : Retval × List Event :=
  if level = 0 then xmc4xxx_erase_sector t tr bank UCB0_BASE true
  else if level = 1 then xmc4xxx_erase_sector t tr bank UCB1_BASE true
  else (ERROR_FAIL, tr)

/-- The array `temp_unprot_seq` of `xmc4xxx_temp_unprotect` after the user
level and the passwords have been filled in. -/
def temp_unprot_seq (fb : xmc4xxx_flash_bank) (user_level : Int) :
    List xmc4xxx_command_seq :=
  [ ⟨FLASH_CMD_TEMP_UNPROT_1, 0xaa⟩,
    ⟨FLASH_CMD_TEMP_UNPROT_2, 0x55⟩,
    ⟨FLASH_CMD_TEMP_UNPROT_3, user_level.toNat⟩,
    ⟨FLASH_CMD_TEMP_UNPROT_4, fb.pw1⟩,
    ⟨FLASH_CMD_TEMP_UNPROT_5, fb.pw2⟩,
    ⟨FLASH_CMD_TEMP_UNPROT_6, 0x05⟩ ]

/-- Embedding of `xmc4xxx_temp_unprotect`. -/
def xmc4xxx_temp_unprotect (t : Target) (tr : List Event) (bank : flash_bank)
    (user_level : Int) : Retval × List Event :=
  if user_level < 0 ∨ user_level > 2 then (ERROR_FAIL, tr)
  else
    let w := xmc4xxx_write_command_sequence t tr (temp_unprot_seq bank.driver_priv user_level)
    if w.1 ≠ ERROR_OK then (w.1, w.2)
    else
      let s := xmc4xxx_get_flash_status t w.2
      if s.1 ≠ ERROR_OK then (s.1, s.2.2)
      else if s.2.1 &&& FSR_WPRODIS0 ≠ 0 then (ERROR_OK, s.2.2)
      else (ERROR_FAIL, s.2.2)

/-! ## Block write -/

/-- Embedding of `xmc4xxx_write_block`.  `code` is the loader image
`xmc4xxx_flash_write_code` (the bytes of `write.inc`, generated from
`write.c`). -/
def xmc4xxx_write_block (t : Target) (code : List Nat) (tr : List Event)
    (bank : flash_bank) (buffer : List Nat) (offset count : Nat) : Retval × List Event :=
  let a := t.alloc_working_area tr code.length
  let tr1 := tr ++ [Event.alloc_working_area code.length]
  if a.1 ≠ ERROR_OK then (ERROR_TARGET_RESOURCE_NOT_AVAILABLE, tr1)
  else
    let write_algorithm := a.2
    let w := t.write_buffer tr1 write_algorithm.address code.length code
    let tr2 := tr1 ++ [Event.write_buffer write_algorithm.address code.length code]
    if w ≠ ERROR_OK then (w, tr2 ++ [Event.free_working_area write_algorithm])
    else
      let extra_size := sizeof_xmc4xxx_work_area
      let avail := t.get_working_area_avail tr2
      let tr3 := tr2 ++ [Event.get_working_area_avail]
      let buffer_size0 := ((avail + U32 - extra_size % U32) % U32) &&& (U32 - XMC4XXX_FLASH_WORD_SIZE)
      if buffer_size0 < 256 then
        (ERROR_TARGET_RESOURCE_NOT_AVAILABLE, tr3 ++ [Event.free_working_area write_algorithm])
      else
        let buffer_size := if buffer_size0 > 16 * 1024 then 16 * 1024 else buffer_size0
        let s := t.alloc_working_area_try tr3 (buffer_size + extra_size)
        let tr4 := tr3 ++ [Event.alloc_working_area_try (buffer_size + extra_size)]
        if s.1 ≠ ERROR_OK then
          (ERROR_TARGET_RESOURCE_NOT_AVAILABLE, tr4 ++ [Event.free_working_area write_algorithm])
        else
          let source := s.2
          let call : async_call :=
            { buffer := buffer
              count := count
              block_size := XMC4XXX_FLASH_WORD_SIZE
              r0 := source.address % U32
              r1 := (source.address + source.size) % U32
              r2 := (bank.base + offset) % U32
              r3 := count % U32
              sp := (source.address + offsetof_stack + LDR_STACK_SIZE) % U32
              buffer_start := (source.address + offsetof_fifo) % U32
              buffer_size := (source.size + U32 - offsetof_fifo) % U32
              entry_point := write_algorithm.address % U32 }
          let retval0 := t.run_flash_async_algorithm tr4 call
          let tr5 := tr4 ++ [Event.run_flash_async_algorithm call]
          let retval := if retval0 = ERROR_FLASH_OPERATION_FAILED then ERROR_FAIL else retval0
          let tr6 := tr5 ++ [Event.free_working_area source, Event.free_working_area write_algorithm]
          (retval, (xmc4xxx_clear_flash_status t tr6).2)

/-! ## Protection -/

/-- Bytes of a 32-bit value in target byte order (`target_buffer_set_u32`
chooses by `target->endianness`). -/
def u32_bytes (t : Target) (v : Nat) : List Nat :=
  let le := [v % 256, (v / 2 ^ 8) % 256, (v / 2 ^ 16) % 256, (v / 2 ^ 24) % 256]
  if t.little_endian then le else le.reverse

/-- The call `target_buffer_set_u32 (target, &buf[off], v)`. -/
def target_buffer_set_u32 (t : Target) (buf : List Nat) (off v : Nat) : List Nat :=
  buf.take off ++ u32_bytes t v ++ buf.drop (off + 4)

/-- The loop `for (i = first; i <= last; i++) procon |= 1 << i` of
`xmc4xxx_flash_protect`, started from `procon`; in the 32-bit register a
shifted bit at position 32 or above is dropped.  `none` marks
`last = UINT_MAX`, where the loop condition can never fail. -/
def procon_loop (procon first last : Nat) : Option Nat :=
  if last + 1 ≥ U32 then none
  else some ((List.range' first (last + 1 - first)).foldl
    (fun acc i => acc ||| ((1 <<< i) % U32)) procon)

/-- The buffer `ucp0_buf` of `xmc4xxx_flash_protect` after all eight
`target_buffer_set_u32` calls. -/
def ucp0_buf (t : Target) (fb : xmc4xxx_flash_bank) (procon : Nat) : List Nat :=
  let b0 := List.replicate (8 * 4) 0
  let b1 := target_buffer_set_u32 t b0 (0 * 4) procon
  let b2 := target_buffer_set_u32 t b1 (2 * 4) procon
  let b3 := target_buffer_set_u32 t b2 (4 * 4) fb.pw1
  let b4 := target_buffer_set_u32 t b3 (5 * 4) fb.pw2
  let b5 := target_buffer_set_u32 t b4 (6 * 4) fb.pw1
  let b6 := target_buffer_set_u32 t b5 (7 * 4) fb.pw2
  let b7 := target_buffer_set_u32 t b6 (0 * 4) FLASH_PROTECT_CONFIRMATION_CODE
  target_buffer_set_u32 t b7 (2 * 4) FLASH_PROTECT_CONFIRMATION_CODE

/-- The first `switch (level)` of `xmc4xxx_flash_protect`: the flag `proin`. -/
def proin (level : Int) (status : Nat) : Bool :=
  if level = 0 then
    decide (status &&& FSR_RPROIN_MASK ≠ 0 ∨ status &&& FSR_WPROIN0_MASK ≠ 0)
  else if level = 1 then decide (status &&& FSR_WPROIN1_MASK ≠ 0)
  else if level = 2 then decide (status &&& FSR_WPROIN2_MASK ≠ 0)
  else false

/-- The second `switch (level)` of `xmc4xxx_flash_protect`: `ucb_base`. -/
def ucb_base (level : Int) : Nat :=
  if level = 0 then UCB0_BASE
  else if level = 1 then UCB1_BASE
  else if level = 2 then UCB2_BASE
  else 0

/-- The local `procon` of `xmc4xxx_flash_protect` when it is logged (after the
clamp of `last`, the loop and the read-protection bit).  `none`: the loop does
not end (see `procon_loop`). -/
def flash_protect_procon (bank : flash_bank) (read_protect : Bool) (first last : Nat) :
    Option Nat :=
  let last1 := if bank.num_sectors = 12 ∧ last = 12 then last - 1 else last
  match procon_loop 0 first last1 with
  | none => none
  | some procon0 => some (if read_protect then procon0 ||| PROCON_RPRO_MASK else procon0)

/-- Embedding of `xmc4xxx_flash_protect`.  The outer `none` means the call does
not return (see `procon_loop`). -/
def xmc4xxx_flash_protect (t : Target) (code : List Nat) (tr : List Event)
    (bank : flash_bank) (level : Int) (read_protect : Bool) (first last : Nat) :
    Option (Retval × List Event) :=
  if level ≠ 0 ∧ read_protect then some (ERROR_FAIL, tr)
  else
    let s := xmc4xxx_get_flash_status t tr
    if s.1 ≠ ERROR_OK then some (s.1, s.2.2)
    else if proin level s.2.1 then some (ERROR_FAIL, s.2.2)
    else
      match flash_protect_procon bank read_protect first last with
      | none => none
      | some procon =>
        let buf := ucp0_buf t bank.driver_priv procon
        let w := xmc4xxx_write_block t code s.2.2 bank buf (ucb_base level)
          (8 * 4 / XMC4XXX_FLASH_WORD_SIZE)
        if w.1 ≠ ERROR_OK then some (w.1, w.2) else some (ERROR_OK, w.2)

/-- Update of one entry of the sector table, `bank->sectors[i] = f (bank->sectors[i])`. -/
def modify_sector (f : flash_sector → flash_sector) : Nat → List flash_sector → List flash_sector
  | _, [] => []
  | 0, s :: ss => f s :: ss
  | n + 1, s :: ss => s :: modify_sector f n ss

/-- One pass of the loop "Clear the protection status" of
`xmc4xxx_protect_check`. -/
def protect_check_clear_step (b : flash_bank) (i : Nat) : flash_bank :=
  { b with
    sectors := modify_sector (fun s => { s with is_protected := 0 }) i b.sectors
    driver_priv :=
      { b.driver_priv with
        write_prot_otp := Function.update b.driver_priv.write_prot_otp i false } }

/-- The statement `bank->sectors[j].is_protected |= set`. -/
def or_is_protected (set : Int) (j : Nat) (b : flash_bank) : flash_bank :=
  { b with
    sectors := modify_sector (fun s => { s with is_protected := Int.lor s.is_protected set }) j
      b.sectors }

/-- The statement `fb->write_prot_otp[j] = true`. -/
def set_otp (j : Nat) (b : flash_bank) : flash_bank :=
  { b with
    driver_priv :=
      { b.driver_priv with
        write_prot_otp := Function.update b.driver_priv.write_prot_otp j true } }

/-- Body of the inner loop of `xmc4xxx_protect_check` for user level `i`
(register value `protection`) and sector `j`. -/
def protect_check_step (protection i : Nat) (b : flash_bank) (j : Nat) : flash_bank :=
  let set : Int := if protection &&& ((1 <<< j) % U32) ≠ 0 then 1 else 0
  let b1 := or_is_protected set j b
  let b2 := if j = 10 then or_is_protected set (j + 1) b1 else b1
  if i = 2 ∧ set ≠ 0 then
    let b3 := set_otp j b2
    if j = 10 then set_otp (j + 1) b3 else b3
  else b2

/-- First half of `xmc4xxx_protect_check` after the register reads: the loop
"Clear the protection status" and `fb->read_protected = false`. -/
def protect_check_clear (bank : flash_bank) : flash_bank :=
  let b0 := (List.range bank.num_sectors).foldl protect_check_clear_step bank
  { b0 with driver_priv := { b0.driver_priv with read_protected := false } }

/-- Second half: the loop over the three user levels, with `sectors` the inner
loop bound, and the final read-protection test on `protection[0]`. -/
def protect_check_fill (sectors : Nat) (protection : List Nat) (b1 : flash_bank) : flash_bank :=
  let b2 := (List.range 3).foldl
    (fun b i => (List.range sectors).foldl (protect_check_step (protection.getD i 0) i) b) b1
  if protection.getD 0 0 &&& PROCON_RPRO_MASK ≠ 0 then
    { b2 with driver_priv := { b2.driver_priv with read_protected := true } }
  else b2

/-- Everything `xmc4xxx_protect_check` does after its three register reads
succeeded, as a function of the three values read. -/
def protect_check_decode (bank : flash_bank) (protection : List Nat) : flash_bank :=
  let sectors := if bank.num_sectors = 12 then bank.num_sectors - 1 else bank.num_sectors
  protect_check_fill sectors protection (protect_check_clear bank)

/-- Embedding of `xmc4xxx_protect_check`. -/
def xmc4xxx_protect_check (t : Target) (tr : List Event) (bank : flash_bank) :
    Retval × flash_bank × List Event :=
  let r0 := target_read_u32 t tr FLASH_REG_FLASH0_PROCON0
  if r0.1 ≠ ERROR_OK then (r0.1, bank, r0.2.2)
  else
    let r1 := target_read_u32 t r0.2.2 FLASH_REG_FLASH0_PROCON1
    if r1.1 ≠ ERROR_OK then (r1.1, bank, r1.2.2)
    else
      let r2 := target_read_u32 t r1.2.2 FLASH_REG_FLASH0_PROCON2
      if r2.1 ≠ ERROR_OK then (r2.1, bank, r2.2.2)
      else (ERROR_OK, protect_check_decode bank [r0.2.1, r1.2.1, r2.2.1], r2.2.2)

/-! ## Erase, write, protect -/

/-- The sector loop of `xmc4xxx_erase`, with `n` sectors `i, i+1, ...` still to
visit.  `some res` is the direct `return res` on an invalid sector; `none`
means control reached the label `clear_status_and_exit`.  (The counter `i`
cannot wrap: the loop returns at the first `i > num_sectors`.) -/
def erase_loop (t : Target) (bank : flash_bank) : Nat → Nat → List Event →
    Option Retval × List Event
  | 0, _, tr => (none, tr)
  | n + 1, i, tr =>
    match xmc4xxx_get_sector_start_addr bank i with
    | none => (some ERROR_FAIL, tr)
    | some tmp_addr =>
      let e := xmc4xxx_erase_sector t tr bank tmp_addr false
      if e.1 ≠ ERROR_OK then (none, e.2)
      else
        let w := xmc4xxx_wait_status_busy t FLASH_OP_TIMEOUT e.2
        if w.1 ≠ ERROR_OK then (none, w.2)
        else erase_loop t bank n (i + 1) w.2

/-- Embedding of `xmc4xxx_erase`. -/
def xmc4xxx_erase (t : Target) (tr : List Event) (bank : flash_bank) (first last : Nat) :
    Retval × flash_bank × List Event :=
  if ¬ t.halted then (ERROR_TARGET_NOT_HALTED, bank, tr)
  else
    let p : Retval × flash_bank × List Event :=
      if ¬ bank.driver_priv.probed then xmc4xxx_probe t tr bank else (ERROR_OK, bank, tr)
    if p.1 ≠ ERROR_OK then p
    else
      let l := erase_loop t p.2.1 (last + 1 - first) first p.2.2
      match l.1 with
      | some res => (res, p.2.1, l.2)
      | none =>
        let c := xmc4xxx_clear_flash_status t l.2
        (c.1, p.2.1, c.2)

/-- Embedding of `xmc4xxx_write`. -/
def xmc4xxx_write (t : Target) (code : List Nat) (tr : List Event) (bank : flash_bank)
    (buffer : List Nat) (offset count : Nat) : Retval × flash_bank × List Event :=
  if ¬ t.halted then (ERROR_TARGET_NOT_HALTED, bank, tr)
  else
    let p : Retval × flash_bank × List Event :=
      if ¬ bank.driver_priv.probed then xmc4xxx_probe t tr bank else (ERROR_OK, bank, tr)
    if p.1 ≠ ERROR_OK then p
    else if (offset + count) % U32 > p.2.1.size then (ERROR_FAIL, p.2.1, p.2.2)
    else
      let w := xmc4xxx_write_block t code p.2.2 p.2.1 buffer offset
        (count / XMC4XXX_FLASH_WORD_SIZE)
      (w.1, p.2.1, w.2)

/-- Embedding of `xmc4xxx_protect`. -/
def xmc4xxx_protect (t : Target) (code : List Nat) (tr : List Event) (bank : flash_bank)
    (set : Int) (first last : Nat) : Option (Retval × List Event) :=
  if ¬ bank.driver_priv.pw_set then some (ERROR_FAIL, tr)
  else if set = 0 then some (xmc4xxx_temp_unprotect t tr bank 0)
  else xmc4xxx_flash_protect t code tr bank 0 false first last

/-! ## The routine run on the target (`contrib/loaders/flash/xmc4xxx/write.c`) -/

/-- What the target CPU sees when it loads a 32-bit word.  The answer may depend
on everything the routine has done so far: this is how the host, which fills
the fifo and moves the write pointer while the routine runs, and the flash
controller enter the picture. -/
structure Bus where
  load : List Event → Nat → Nat

/-- Reinterpretation of a 32-bit pattern as `int32_t`. -/
def to_int32 (x : Nat) : Int :=
  if x % U32 < 2 ^ 31 then (x % U32 : Nat) else (x % U32 : Nat) - (U32 : Int)

/-- Local variables of `write` together with the accesses made so far. -/
structure loader_state where
  rp_cache : Nat
  target_address : Nat
  idx : Nat
  count : Nat
  trace : List Event
  deriving DecidableEq, Repr

/-- Stores of `XMC_FLASH_lClearStatusCommand`. -/
def XMC_FLASH_lClearStatusCommand : List Event :=
  [Event.write_u32 (XMC_FLASH_UNCACHED_BASE + 0x5554) 0xf5]

/-- Stores of `XMC_FLASH_lEnterPageModeCommand`. -/
def XMC_FLASH_lEnterPageModeCommand : List Event :=
  [Event.write_u32 (XMC_FLASH_UNCACHED_BASE + 0x5554) 0x50]

/-- Stores of `XMC_FLASH_lWritePageCommand`. -/
def XMC_FLASH_lWritePageCommand (page_start_address : Nat) : List Event :=
  [Event.write_u32 (XMC_FLASH_UNCACHED_BASE + 0x5554) 0xaa,
   Event.write_u32 (XMC_FLASH_UNCACHED_BASE + 0xaaa8) 0x55,
   Event.write_u32 (XMC_FLASH_UNCACHED_BASE + 0x5554) 0xa0,
   Event.write_u32 page_start_address 0xaa]

/-- Stores of `XMC_FLASH_lLoadPageCommand`. -/
def XMC_FLASH_lLoadPageCommand (low_word high_word : Nat) : List Event :=
  [Event.write_u32 (XMC_FLASH_UNCACHED_BASE + 0x55f0) low_word,
   Event.write_u32 (XMC_FLASH_UNCACHED_BASE + 0x55f4) high_word]

/-- The busy wait `while ((FLASH0->FSR & FLASH_FSR_PBUSY_Msk) != 0);`.
`none`: the fuel ran out before the controller reported idle. -/
def spin_busy (bus : Bus) : Nat → List Event → Option (List Event)
  | 0, _ => none
  | fuel + 1, tr =>
    if bus.load tr FLASH_REG_FLASH0_FSR &&& FLASH_FSR_PBUSY_Msk ≠ 0 then
      spin_busy bus fuel (tr ++ [Event.read_u32 FLASH_REG_FLASH0_FSR])
    else some (tr ++ [Event.read_u32 FLASH_REG_FLASH0_FSR])

/-- Body of the inner loop of `write`: one flash-word unit is taken from the
fifo.  `work_area` is the address of the work area, so that `fifo.wp` is the
word at `work_area + 100` and `fifo.rp` the word at `work_area + 104`; `fuel`
bounds the busy wait after a write-page command. -/
def consume_unit (bus : Bus) (work_area fifo_start fifo_end : Nat) (fuel : Nat)
    (s : loader_state) : Option loader_state :=
  let tr1 :=
    if s.idx = 0 then s.trace ++ XMC_FLASH_lClearStatusCommand ++ XMC_FLASH_lEnterPageModeCommand
    else s.trace
  let low_word := bus.load tr1 s.rp_cache
  let high_word := bus.load (tr1 ++ [Event.read_u32 s.rp_cache]) ((s.rp_cache + 4) % U32)
  let tr2 := tr1 ++ [Event.read_u32 s.rp_cache, Event.read_u32 ((s.rp_cache + 4) % U32)] ++
    XMC_FLASH_lLoadPageCommand low_word high_word
  let idx1 := (s.idx + 2) % U32
  let page : Option (Nat × Nat × List Event) :=
    if idx1 = XMC_FLASH_WORDS_PER_PAGE then
      match spin_busy bus fuel (tr2 ++ XMC_FLASH_lWritePageCommand s.target_address) with
      | none => none
      | some tr3 => some ((s.target_address + 4 * idx1) % U32, 0, tr3)
    else some (s.target_address, idx1, tr2)
  match page with
  | none => none
  | some (target_address, idx2, tr3) =>
    let rp1 := (s.rp_cache + XMC4XXX_FLASH_WORD_SIZE) % U32
    let rp2 := if rp1 ≥ fifo_end then fifo_start else rp1
    some
      { rp_cache := rp2
        target_address := target_address
        idx := idx2
        count := (s.count + U32 - 1) % U32
        trace := tr3 ++ [Event.write_u32 (work_area + offsetof_fifo + 4) rp2] }

/-- The inner loop `while (fifo_size >= XMC4XXX_FLASH_WORD_SIZE)` of `write`:
one drain pass over the bytes found available. -/
def write_inner (bus : Bus) (work_area fifo_start fifo_end : Nat) :
    Nat → Int → loader_state → Option loader_state
  | 0, _, _ => none
  | fuel + 1, fifo_size, s =>
    if fifo_size ≥ (XMC4XXX_FLASH_WORD_SIZE : Int) then
      match consume_unit bus work_area fifo_start fifo_end fuel s with
      | none => none
      | some s1 =>
        write_inner bus work_area fifo_start fifo_end fuel (fifo_size - XMC4XXX_FLASH_WORD_SIZE)
          s1
    else some s

/-- The outer loop `while (count)` of `write`. -/
def write_outer (bus : Bus) (work_area fifo_start fifo_end : Nat) :
    Nat → loader_state → Option loader_state
  | 0, _ => none
  | fuel + 1, s =>
    if s.count = 0 then some s
    else
      let wp_cache := bus.load s.trace (work_area + offsetof_fifo)
      let s1 := { s with trace := s.trace ++ [Event.read_u32 (work_area + offsetof_fifo)] }
      if wp_cache = 0 then some s1
      else
        let fifo_size0 := to_int32 (wp_cache + U32 - s.rp_cache % U32)
        let fifo_size :=
          if fifo_size0 < 0 then to_int32 (fifo_end + U32 - s.rp_cache % U32) else fifo_size0
        match write_inner bus work_area fifo_start fifo_end fuel fifo_size s1 with
        | none => none
        | some s2 => write_outer bus work_area fifo_start fifo_end fuel s2

/-- Embedding of the loader entry point `write` (named `loader_write` because
the driver has its own write operation).  The state returned is the one in
which `bkpt 0` is reached; `none`: the fuel ran out first. -/
def loader_write (bus : Bus) (fuel : Nat) (work_area fifo_end target_address count : Nat) :
    Option loader_state :=
  let rp_cache := bus.load [] (work_area + offsetof_fifo + 4)
  write_outer bus work_area rp_cache fifo_end fuel
    { rp_cache := rp_cache
      target_address := target_address
      idx := 0
      count := count
      trace := [Event.read_u32 (work_area + offsetof_fifo + 4)] }

/-! ## Concrete targets and banks used to exercise the model -/

/-- Embedding of `xmc4xxx_flash_bank_command` applied to a bank at `base`:
zeroed private data, no sector table yet. -/
def fresh_bank (base : Nat) : flash_bank :=
  { base := base
    size := 0
    num_sectors := 0
    sectors := []
    default_padded_value := 0
    erased_value := 0
    driver_priv :=
      { probed := false
        fcon_id := 0
        pw1 := 0
        pw2 := 0
        pw_set := false
        read_protected := false
        write_prot_otp := fun _ => false } }

/-- A target whose memory reads and writes always succeed and whose registers
hold fixed values `regs addr`; working memory starts at `0x20000000` and
`avail` bytes are reported free. -/
def static_target (halted : Bool) (regs : Nat → Nat) (avail : Nat) : Target :=
  { halted := halted
    little_endian := true
    read_u32 := fun _ addr => (ERROR_OK, regs addr)
    write_u32 := fun _ _ _ => ERROR_OK
    alloc_working_area := fun _ size => (ERROR_OK, ⟨0x20000000, size⟩)
    alloc_working_area_try := fun _ size => (ERROR_OK, ⟨0x20001000, size⟩)
    write_buffer := fun _ _ _ _ => ERROR_OK
    get_working_area_avail := fun _ => avail
    run_flash_async_algorithm := fun _ _ => ERROR_OK }

/-- Register file of an XMC4500: chip id `0x45002`, flash id `0xA2`, idle
status, and the given PROCON values. -/
def xmc4500_regs (p0 p1 p2 : Nat) (addr : Nat) : Nat :=
  if addr = SCU_REG_BASE + SCU_ID_CHIP then 0x45002
  else if addr = FLASH_REG_FLASH0_ID then 0xA20000
  else if addr = FLASH_REG_FLASH0_PROCON0 then p0
  else if addr = FLASH_REG_FLASH0_PROCON1 then p1
  else if addr = FLASH_REG_FLASH0_PROCON2 then p2
  else 0

/-- A target whose status register answers from a fixed list, one entry per
read made so far (the last entry repeats); everything else as in
`static_target`. -/
def scripted_status_target (script : List Nat) : Target :=
  { static_target true (fun _ => 0) 0 with
    read_u32 := fun tr addr =>
      if addr = FLASH_REG_FLASH0_FSR then
        let k := (tr.filter fun e => decide (e = Event.read_u32 FLASH_REG_FLASH0_FSR)).length
        (ERROR_OK, script.getD k (script.getLastD 0))
      else (ERROR_OK, 0) }

/-- A probed 12-sector bank: the result of probing a fresh bank on an
XMC4500. -/
def xmc4500_bank : flash_bank :=
  (xmc4xxx_probe (static_target true (xmc4500_regs 0 0 0) 0) [] (fresh_bank 0x0C000000)).2.1

/-- The same bank after `xmc4xxx_handle_flash_password_command` stored the
passwords `pw1`, `pw2`. -/
def xmc4500_bank_pw (pw1 pw2 : Nat) : flash_bank :=
  { xmc4500_bank with
    driver_priv := { xmc4500_bank.driver_priv with pw1 := pw1, pw2 := pw2, pw_set := true } }

/-- What the loader sees when the host has already put `n` flash-word units
into the fifo starting at `fifo_start` (so `fifo.rp = fifo_start` and
`fifo.wp = fifo_start + 8 * n`), the flash controller is idle, and every other
word of memory reads as `data addr`. -/
def filled_fifo_bus (work_area fifo_start n : Nat) (data : Nat → Nat) : Bus :=
  { load := fun _ addr =>
      if addr = work_area + offsetof_fifo + 4 then fifo_start
      else if addr = work_area + offsetof_fifo then fifo_start + 8 * n
      else if addr = FLASH_REG_FLASH0_FSR then 0
      else data addr }

/-- Proof device for `xmc4xxx_protect_check`: the bank with everything the
check recomputes blanked out, that is every `is_protected` set to 0, the OTP
flags below `n` cleared and the read-protect flag cleared. -/
def protection_blank (n : Nat) (b : flash_bank) : flash_bank :=
  { b with
    sectors := b.sectors.map fun s => { s with is_protected := 0 }
    driver_priv :=
      { b.driver_priv with
        read_protected := false
        write_prot_otp := fun k => if k < n then false else b.driver_priv.write_prot_otp k } }

/-- The target writes a command sequence stands for, one per entry, in order. -/
def command_events (seq : List xmc4xxx_command_seq) : List Event :=
  seq.map fun e => Event.write_u32 e.address e.magic

/-- A target on which the write issued after exactly `k` earlier writes fails
with `err`; every other access succeeds as in `static_target`, with registers
`regs`. -/
def failing_write_target (k : Nat) (err : Retval) (regs : Nat → Nat) : Target :=
  { static_target true regs 0 with
    write_u32 := fun tr _ _ =>
      if (tr.filter fun e =>
          match e with
          | Event.write_u32 _ _ => true
          | _ => false).length = k then err
      else ERROR_OK }

/-- Register file in which the flash status register holds `fsr` and every
other register reads 0. -/
def status_regs (fsr : Nat) (addr : Nat) : Nat :=
  if addr = FLASH_REG_FLASH0_FSR then fsr else 0

/-- Register file of an XMC4700: chip id `0x47001`, flash id `0x92`, idle
status, and the given PROCON values. -/
def xmc4700_regs (p0 p1 p2 : Nat) (addr : Nat) : Nat :=
  if addr = SCU_REG_BASE + SCU_ID_CHIP then 0x47001
  else if addr = FLASH_REG_FLASH0_ID then 0x920000
  else if addr = FLASH_REG_FLASH0_PROCON0 then p0
  else if addr = FLASH_REG_FLASH0_PROCON1 then p1
  else if addr = FLASH_REG_FLASH0_PROCON2 then p2
  else 0

/-- A probed 16-sector bank: the result of probing a fresh bank on an
XMC4700. -/
def xmc4700_bank : flash_bank :=
  (xmc4xxx_probe (static_target true (xmc4700_regs 0 0 0) 0) [] (fresh_bank 0x0C000000)).2.1

/-- What the loader sees when the host has put `n` units into the fifo before
the first look at the write pointer and has zeroed the write pointer (abort)
by the time of the second look; otherwise as `filled_fifo_bus`. -/
def abort_after_first_pass_bus (work_area fifo_start n : Nat) (data : Nat → Nat) : Bus :=
  { load := fun tr addr =>
      if addr = work_area + offsetof_fifo + 4 then fifo_start
      else if addr = work_area + offsetof_fifo then
        if Event.read_u32 (work_area + offsetof_fifo) ∈ tr then 0 else fifo_start + 8 * n
      else if addr = FLASH_REG_FLASH0_FSR then 0
      else data addr }

/-! # Properties -/

/-! ## Bit-field helpers -/

theorem flash_id_field (config : Nat) :
    ((config &&& 0xff0000) >>> 16) % 256 = config / 2 ^ 16 % 2 ^ 8 := by
  have h : (0xff0000 : Nat) = (2 ^ 8 - 1) <<< 16 := by decide
  have e256 : (256 : Nat) = 2 ^ 8 := by norm_num
  apply Nat.eq_of_testBit_eq
  intro i
  rw [h, ← Nat.shiftRight_eq_div_pow, e256]
  simp only [Nat.testBit_mod_two_pow, Nat.testBit_shiftRight, Nat.testBit_and,
    Nat.testBit_shiftLeft, Nat.testBit_two_pow_sub_one]
  by_cases hi : i < 8 <;> simp [hi]

/-! ## Probe -/

/-- C1: for each recognised controller id in bits 16..23 of the flash ID
register, probing an unprobed bank of size 0 on a halted target with a family
chip id succeeds, sets the probed flag, and produces the documented table:
8, 9, 12 or 16 sectors, each size its capacity entry times 1024, first offset 0,
every later offset the previous offset plus the previous size (offsets strictly
increasing), and a bank size equal to the sum of the sector sizes, that is
240, 496, 1024 or 2048 KiB. -/
theorem probe_layout (t : Target) (tr : List Event) (bank : flash_bank)
    (devid config id n kib : Nat) (cap : List Nat)
    (hhalted : t.halted = true) (hunprobed : bank.driver_priv.probed = false)
    (hsize : bank.size = 0)
    (hdev : t.read_u32 tr (SCU_REG_BASE + SCU_ID_CHIP) = (ERROR_OK, devid))
    (hfamily : devid &&& 0xF0000 = 0x40000 ∨ devid = 0)
    (hcfg : t.read_u32 (tr ++ [Event.read_u32 (SCU_REG_BASE + SCU_ID_CHIP)])
      FLASH_REG_FLASH0_ID = (ERROR_OK, config))
    (hid : config / 2 ^ 16 % 2 ^ 8 = id)
    (hrow : (id, n, kib, cap) ∈
      [(0x9C, 8, 240, sector_capacity_8), (0x9F, 9, 496, sector_capacity_9),
       (0xA2, 12, 1024, sector_capacity_12), (0x92, 16, 2048, sector_capacity_16)]) :
    (xmc4xxx_probe t tr bank).1 = ERROR_OK ∧
    (xmc4xxx_probe t tr bank).2.1.driver_priv.probed = true ∧
    (xmc4xxx_probe t tr bank).2.1.num_sectors = n ∧
    (xmc4xxx_probe t tr bank).2.1.sectors.length = n ∧
    (xmc4xxx_probe t tr bank).2.1.sectors.map (fun s => s.size) = cap.map (fun c => c * 1024) ∧
    ((xmc4xxx_probe t tr bank).2.1.sectors.map (fun s => s.offset)).head? = some 0 ∧
    (∀ i, i + 1 < n →
      ((xmc4xxx_probe t tr bank).2.1.sectors.map (fun s => s.offset)).getD (i + 1) 0 =
        ((xmc4xxx_probe t tr bank).2.1.sectors.map (fun s => s.offset)).getD i 0 +
        ((xmc4xxx_probe t tr bank).2.1.sectors.map (fun s => s.size)).getD i 0) ∧
    ((xmc4xxx_probe t tr bank).2.1.sectors.map (fun s => s.offset)).Pairwise (fun a b => a < b) ∧
    (xmc4xxx_probe t tr bank).2.1.size =
      ((xmc4xxx_probe t tr bank).2.1.sectors.map (fun s => s.size)).sum ∧
    (xmc4xxx_probe t tr bank).2.1.size = kib * 1024 := by
  have hfam : ¬ (devid &&& 0xF0000 ≠ 0x40000 ∧ devid ≠ 0) := by
    rintro ⟨h1, h2⟩
    rcases hfamily with h | h
    · exact h1 h
    · exact h2 h
  have hprobe : ∀ m c, flash_id_num_sectors id = some m →
      xmc4xxx_load_bank_layout { bank with num_sectors := m } =
        (ERROR_OK, { bank with num_sectors := m, sectors := load_sectors c 0,
                               size := load_size c 0, default_padded_value := 0,
                               erased_value := 0 }) →
      xmc4xxx_probe t tr bank =
        (ERROR_OK, { bank with num_sectors := m, sectors := load_sectors c 0,
                               size := load_size c 0, default_padded_value := 0,
                               erased_value := 0,
                               driver_priv := { bank.driver_priv with probed := true } },
          tr ++ [Event.read_u32 (SCU_REG_BASE + SCU_ID_CHIP), Event.read_u32 FLASH_REG_FLASH0_ID]) := by
    intro m c hm hl
    unfold xmc4xxx_probe
    simp only [target_read_u32, hdev, hcfg, hunprobed, hhalted, flash_id_field, hid, hm, hl]
    simp [hfam]
  simp only [List.mem_cons, Prod.mk.injEq, List.mem_singleton, List.not_mem_nil, or_false] at hrow
  rcases hrow with ⟨h1, h2, h3, h4⟩ | ⟨h1, h2, h3, h4⟩ | ⟨h1, h2, h3, h4⟩ | ⟨h1, h2, h3, h4⟩
  · subst h1 h2 h3 h4
    rw [hprobe 8 sector_capacity_8 (by decide) (by simp [xmc4xxx_load_bank_layout, hsize])]
    dsimp only
    refine ⟨rfl, rfl, rfl, by decide, by decide, by decide, ?_, by decide, by decide, by decide⟩
    intro i hi
    have hi2 : i < 7 := by omega
    interval_cases i <;> rfl
  · subst h1 h2 h3 h4
    rw [hprobe 9 sector_capacity_9 (by decide) (by simp [xmc4xxx_load_bank_layout, hsize])]
    dsimp only
    refine ⟨rfl, rfl, rfl, by decide, by decide, by decide, ?_, by decide, by decide, by decide⟩
    intro i hi
    have hi2 : i < 8 := by omega
    interval_cases i <;> rfl
  · subst h1 h2 h3 h4
    rw [hprobe 12 sector_capacity_12 (by decide) (by simp [xmc4xxx_load_bank_layout, hsize])]
    dsimp only
    refine ⟨rfl, rfl, rfl, by decide, by decide, by decide, ?_, by decide, by decide, by decide⟩
    intro i hi
    have hi2 : i < 11 := by omega
    interval_cases i <;> rfl
  · subst h1 h2 h3 h4
    rw [hprobe 16 sector_capacity_16 (by decide) (by simp [xmc4xxx_load_bank_layout, hsize])]
    dsimp only
    refine ⟨rfl, rfl, rfl, by decide, by decide, by decide, ?_, by decide, by decide, by decide⟩
    intro i hi
    have hi2 : i < 15 := by omega
    interval_cases i <;> rfl

/-- Witness for C1: an XMC4500 (flash id `0xA2`) probes to 12 sectors, 1024 KiB. -/
theorem probe_layout_witness :
    (static_target true (xmc4500_regs 0 0 0) 0).halted = true ∧
    (fresh_bank 0x0C000000).driver_priv.probed = false ∧
    (fresh_bank 0x0C000000).size = 0 ∧
    (xmc4xxx_probe (static_target true (xmc4500_regs 0 0 0) 0) [] (fresh_bank 0x0C000000)).1
      = ERROR_OK ∧
    (xmc4xxx_probe (static_target true (xmc4500_regs 0 0 0) 0) [] (fresh_bank 0x0C000000)).2.1.num_sectors
      = 12 ∧
    (xmc4xxx_probe (static_target true (xmc4500_regs 0 0 0) 0) [] (fresh_bank 0x0C000000)).2.1.size
      = 1024 * 1024 :=
  have h := probe_layout (static_target true (xmc4500_regs 0 0 0) 0) [] (fresh_bank 0x0C000000)
    0x45002 0xA20000 0xA2 12 1024 sector_capacity_12 rfl rfl rfl rfl (Or.inl (by decide)) rfl
    (by decide) (by simp)
  ⟨rfl, rfl, rfl, h.1, h.2.2.1, h.2.2.2.2.2.2.2.2.2⟩

theorem flash_id_num_sectors_none (id : Nat) (hid : id ∉ [0x9C, 0x9F, 0xA2, 0x92]) :
    flash_id_num_sectors id = none := by
  simp only [List.mem_cons, List.mem_singleton, List.not_mem_nil, or_false, not_or] at hid
  obtain ⟨h1, h2, h3, h4⟩ := hid
  simp [flash_id_num_sectors, FLASH_ID_XMC4100_4200, FLASH_ID_XMC4400, FLASH_ID_XMC4500,
    FLASH_ID_XMC4300_XMC4700_4800, h1, h2, h3, h4]

/-- C2: when bits 16..23 of the value read from the flash ID register are none
of 0x9C, 0x9F, 0xA2, 0x92, probing an unprobed bank returns a failure and the
bank (sector table, sector count, size, probed flag and every other field) is
exactly as before the call. -/
theorem probe_unknown_id (t : Target) (tr : List Event) (bank : flash_bank) (config : Nat)
    (hunprobed : bank.driver_priv.probed = false)
    (hcfg : (t.read_u32 (tr ++ [Event.read_u32 (SCU_REG_BASE + SCU_ID_CHIP)])
      FLASH_REG_FLASH0_ID).2 = config)
    (hid : config / 2 ^ 16 % 2 ^ 8 ∉ [0x9C, 0x9F, 0xA2, 0x92]) :
    (xmc4xxx_probe t tr bank).1 ≠ ERROR_OK ∧ (xmc4xxx_probe t tr bank).2.1 = bank := by
  have hnone := flash_id_num_sectors_none _ hid
  unfold xmc4xxx_probe
  simp only [target_read_u32, hunprobed, hcfg, flash_id_field, hnone]
  split_ifs <;> simp_all

/-- Witness for C2: flash id `0x55` on a halted family device. -/
theorem probe_unknown_id_witness :
    (xmc4xxx_probe (static_target true (fun a => if a = FLASH_REG_FLASH0_ID then 0x550000 else 0) 0)
      [] (fresh_bank 0x0C000000)).1 ≠ ERROR_OK ∧
    (xmc4xxx_probe (static_target true (fun a => if a = FLASH_REG_FLASH0_ID then 0x550000 else 0) 0)
      [] (fresh_bank 0x0C000000)).2.1 = fresh_bank 0x0C000000 :=
  probe_unknown_id (static_target true (fun a => if a = FLASH_REG_FLASH0_ID then 0x550000 else 0) 0)
    [] (fresh_bank 0x0C000000) 0x550000 rfl rfl (by decide)

theorem probe_ok_probed (t : Target) (tr : List Event) (bank : flash_bank)
    (h : (xmc4xxx_probe t tr bank).1 = ERROR_OK) :
    (xmc4xxx_probe t tr bank).2.1.driver_priv.probed = true := by
  unfold xmc4xxx_probe at h ⊢
  by_cases h1 : bank.driver_priv.probed = true
  · simp [h1]
  rw [if_neg h1] at h ⊢
  by_cases h2 : ¬ t.halted = true
  · rw [if_pos h2] at h; simp at h
  rw [if_neg h2] at h ⊢
  dsimp only at h ⊢
  by_cases h3 : (target_read_u32 t tr (SCU_REG_BASE + SCU_ID_CHIP)).1 ≠ ERROR_OK
  · rw [if_pos h3] at h; exact absurd h h3
  rw [if_neg h3] at h ⊢
  by_cases h4 : ((target_read_u32 t tr (SCU_REG_BASE + SCU_ID_CHIP)).2.1 &&& 983040 ≠ 262144 ∧
      (target_read_u32 t tr (SCU_REG_BASE + SCU_ID_CHIP)).2.1 ≠ 0)
  · rw [if_pos h4] at h; simp at h
  rw [if_neg h4] at h ⊢
  by_cases h5 : (target_read_u32 t (target_read_u32 t tr (SCU_REG_BASE + SCU_ID_CHIP)).2.2
      FLASH_REG_FLASH0_ID).1 ≠ ERROR_OK
  · rw [if_pos h5] at h; exact absurd h h5
  rw [if_neg h5] at h ⊢
  generalize flash_id_num_sectors _ = o at h ⊢
  cases o with
  | none => simp at h
  | some n =>
    dsimp only at h ⊢
    split_ifs at h ⊢ with h6
    · rfl

/-- C3: probing a bank whose probed flag is set returns success, makes no
target access (the trace is unchanged) and leaves the whole bank unchanged;
and after any successful probe a second probe returns success with the same
bank and the same trace as the first. -/
theorem probe_cached (t : Target) (tr : List Event) (bank : flash_bank) :
    (bank.driver_priv.probed = true → xmc4xxx_probe t tr bank = (ERROR_OK, bank, tr)) ∧
    ((xmc4xxx_probe t tr bank).1 = ERROR_OK →
      xmc4xxx_probe t (xmc4xxx_probe t tr bank).2.2 (xmc4xxx_probe t tr bank).2.1 =
        (ERROR_OK, (xmc4xxx_probe t tr bank).2.1, (xmc4xxx_probe t tr bank).2.2)) := by
  have hc : ∀ (tr0 : List Event) (b : flash_bank), b.driver_priv.probed = true →
      xmc4xxx_probe t tr0 b = (ERROR_OK, b, tr0) := by
    intro tr0 b hb
    unfold xmc4xxx_probe
    simp [hb]
  exact ⟨hc tr bank, fun h => hc _ _ (probe_ok_probed t tr bank h)⟩

/-- Witness for C3: a successful probe of an XMC4500 followed by a second
probe. -/
theorem probe_cached_witness :
    (xmc4xxx_probe (static_target true (xmc4500_regs 0 0 0) 0) [] (fresh_bank 0x0C000000)).1
      = ERROR_OK ∧
    xmc4xxx_probe (static_target true (xmc4500_regs 0 0 0) 0)
      (xmc4xxx_probe (static_target true (xmc4500_regs 0 0 0) 0) [] (fresh_bank 0x0C000000)).2.2
      (xmc4xxx_probe (static_target true (xmc4500_regs 0 0 0) 0) [] (fresh_bank 0x0C000000)).2.1 =
      (ERROR_OK,
        (xmc4xxx_probe (static_target true (xmc4500_regs 0 0 0) 0) [] (fresh_bank 0x0C000000)).2.1,
        (xmc4xxx_probe (static_target true (xmc4500_regs 0 0 0) 0) [] (fresh_bank 0x0C000000)).2.2) :=
  ⟨by decide,
   (probe_cached (static_target true (xmc4500_regs 0 0 0) 0) [] (fresh_bank 0x0C000000)).2
     (by decide)⟩

/-! ## Halted check -/

/-- C4 (as stated, refuted): on a target that is not halted, `xmc4xxx_probe`
of an already probed bank returns success instead of the not-halted error;
`xmc4xxx_protect_check` reads the three PROCON registers and returns success;
`xmc4xxx_protect` without passwords returns the generic failure, and with
passwords writes the temporary-unprotect sequence to the target. -/
theorem not_halted_counterexample :
    (static_target false (xmc4500_regs 0 0 0) 0).halted = false ∧
    (xmc4xxx_probe (static_target false (xmc4500_regs 0 0 0) 0) [] xmc4500_bank).1 = ERROR_OK ∧
    (xmc4xxx_protect_check (static_target false (xmc4500_regs 0 0 0) 0) [] xmc4500_bank).1
      = ERROR_OK ∧
    (xmc4xxx_protect_check (static_target false (xmc4500_regs 0 0 0) 0) [] xmc4500_bank).2.2 =
      [Event.read_u32 FLASH_REG_FLASH0_PROCON0, Event.read_u32 FLASH_REG_FLASH0_PROCON1,
       Event.read_u32 FLASH_REG_FLASH0_PROCON2] ∧
    xmc4xxx_protect (static_target false (xmc4500_regs 0 0 0) 0) [] [] xmc4500_bank 0 0 0 =
      some (ERROR_FAIL, []) ∧
    xmc4xxx_protect (static_target false (xmc4500_regs 0 0 0) 0) [] [] (xmc4500_bank_pw 5 6) 0 0 0 =
      some (ERROR_FAIL,
        [Event.write_u32 0x0C005554 0xaa, Event.write_u32 0x0C00AAA8 0x55,
         Event.write_u32 0x0C00553C 0, Event.write_u32 0x0C00AAA8 5,
         Event.write_u32 0x0C00AAA8 6, Event.write_u32 0x0C005558 0x05,
         Event.read_u32 FLASH_REG_FLASH0_FSR]) := by
  refine ⟨rfl, by decide, by decide, by decide, by decide, by decide⟩

/-- C4 (amended): on a target that is not halted, `xmc4xxx_erase`,
`xmc4xxx_write` and `xmc4xxx_get_info_command` on every bank, and
`xmc4xxx_probe` on every bank whose probed flag is clear, return
`ERROR_TARGET_NOT_HALTED` with the bank and the trace unchanged (no target
access); `xmc4xxx_probe` on an already probed bank returns success, also
without any target access. -/
theorem not_halted_fail_fast (t : Target) (tr : List Event) (bank : flash_bank)
    (hrun : t.halted = false) :
    (∀ first last, xmc4xxx_erase t tr bank first last = (ERROR_TARGET_NOT_HALTED, bank, tr)) ∧
    (∀ code buffer offset count,
      xmc4xxx_write t code tr bank buffer offset count = (ERROR_TARGET_NOT_HALTED, bank, tr)) ∧
    xmc4xxx_get_info_command t tr bank = (ERROR_TARGET_NOT_HALTED, none, tr) ∧
    (bank.driver_priv.probed = false →
      xmc4xxx_probe t tr bank = (ERROR_TARGET_NOT_HALTED, bank, tr)) ∧
    (bank.driver_priv.probed = true → xmc4xxx_probe t tr bank = (ERROR_OK, bank, tr)) := by
  refine ⟨?_, ?_, ?_, ?_, ?_⟩
  · intro first last
    simp [xmc4xxx_erase, hrun]
  · intro code buffer offset count
    simp [xmc4xxx_write, hrun]
  · simp [xmc4xxx_get_info_command, hrun]
  · intro h
    simp [xmc4xxx_probe, hrun, h]
  · intro h
    simp [xmc4xxx_probe, h]

/-- Witness for C4 (amended): a running XMC4500 and a fresh bank. -/
theorem not_halted_fail_fast_witness :
    (static_target false (xmc4500_regs 0 0 0) 0).halted = false ∧
    xmc4xxx_erase (static_target false (xmc4500_regs 0 0 0) 0) [] xmc4500_bank 0 11 =
      (ERROR_TARGET_NOT_HALTED, xmc4500_bank, []) :=
  ⟨rfl, (not_halted_fail_fast (static_target false (xmc4500_regs 0 0 0) 0) [] xmc4500_bank rfl).1
    0 11⟩

/-! ## The routine on the target: a short transfer -/

/-- C5 (code evaluated at a failing input): the host supplies exactly 4
flash-word units, as `xmc4xxx_flash_protect` does, in a 64-byte fifo.  The
routine reaches its final breakpoint with the remaining count at zero, having
loaded the four units into the page assembly buffer (`idx = 8` words pending),
but it has issued no write-page command: the trace, given in full, holds no
store of `0xa0` to the command address and no store to the destination
address, and `target_address` has not moved. -/
theorem loader_short_transfer :
    ∃ s, loader_write (filled_fifo_bus 0x20001000 0x2000106C 4 (fun a => a)) 100
        0x20001000 (0x2000106C + 64) 0x0C000000 4 = some s ∧
      s.count = 0 ∧ s.idx = 8 ∧ s.target_address = 0x0C000000 ∧ s.rp_cache = 0x2000108C ∧
      s.trace =
        [Event.read_u32 0x20001068, Event.read_u32 0x20001064,
         Event.write_u32 0x0C005554 0xf5, Event.write_u32 0x0C005554 0x50,
         Event.read_u32 0x2000106C, Event.read_u32 0x20001070,
         Event.write_u32 0x0C0055F0 0x2000106C, Event.write_u32 0x0C0055F4 0x20001070,
         Event.write_u32 0x20001068 0x20001074,
         Event.read_u32 0x20001074, Event.read_u32 0x20001078,
         Event.write_u32 0x0C0055F0 0x20001074, Event.write_u32 0x0C0055F4 0x20001078,
         Event.write_u32 0x20001068 0x2000107C,
         Event.read_u32 0x2000107C, Event.read_u32 0x20001080,
         Event.write_u32 0x0C0055F0 0x2000107C, Event.write_u32 0x0C0055F4 0x20001080,
         Event.write_u32 0x20001068 0x20001084,
         Event.read_u32 0x20001084, Event.read_u32 0x20001088,
         Event.write_u32 0x0C0055F0 0x20001084, Event.write_u32 0x0C0055F4 0x20001088,
         Event.write_u32 0x20001068 0x2000108C] ∧
      Event.write_u32 (XMC_FLASH_UNCACHED_BASE + 0x5554) 0xa0 ∉ s.trace ∧
      Event.write_u32 0x0C000000 0xaa ∉ s.trace :=
  ⟨{ rp_cache := 0x2000108C
     target_address := 0x0C000000
     idx := 8
     count := 0
     trace :=
       [Event.read_u32 0x20001068, Event.read_u32 0x20001064,
        Event.write_u32 0x0C005554 0xf5, Event.write_u32 0x0C005554 0x50,
        Event.read_u32 0x2000106C, Event.read_u32 0x20001070,
        Event.write_u32 0x0C0055F0 0x2000106C, Event.write_u32 0x0C0055F4 0x20001070,
        Event.write_u32 0x20001068 0x20001074,
        Event.read_u32 0x20001074, Event.read_u32 0x20001078,
        Event.write_u32 0x0C0055F0 0x20001074, Event.write_u32 0x0C0055F4 0x20001078,
        Event.write_u32 0x20001068 0x2000107C,
        Event.read_u32 0x2000107C, Event.read_u32 0x20001080,
        Event.write_u32 0x0C0055F0 0x2000107C, Event.write_u32 0x0C0055F4 0x20001080,
        Event.write_u32 0x20001068 0x20001084,
        Event.read_u32 0x20001084, Event.read_u32 0x20001088,
        Event.write_u32 0x0C0055F0 0x20001084, Event.write_u32 0x0C0055F4 0x20001088,
        Event.write_u32 0x20001068 0x2000108C] },
    by decide, rfl, rfl, rfl, rfl, rfl, by decide, by decide⟩

/-! ## Status polling -/

theorem and_bit_ne_zero (v k : Nat) : v &&& (1 <<< k) ≠ 0 ↔ v.testBit k = true := by
  rw [Nat.one_shiftLeft, Nat.and_two_pow]
  cases v.testBit k <;> simp

theorem and_bit_eq_zero (v k : Nat) : v &&& (1 <<< k) = 0 ↔ v.testBit k = false := by
  rw [Nat.one_shiftLeft, Nat.and_two_pow]
  cases v.testBit k <;> simp

/-- The wait loop against a controller that is busy at every read: it leaves
with `ERROR_FAIL` after `n` full passes (re-read, sleep, keep-alive) and one
more re-read. -/
theorem wait_busy_loop_always_busy (t : Target)
    (hbusy : ∀ tr, (t.read_u32 tr FLASH_REG_FLASH0_FSR).1 = ERROR_OK ∧
      (t.read_u32 tr FLASH_REG_FLASH0_FSR).2.testBit 0 = true) :
    ∀ (n status : Nat) (tr : List Event), status.testBit 0 = true →
      (wait_busy_loop t n status tr).1 = ERROR_FAIL ∧
      (wait_busy_loop t n status tr).2.2 =
        tr ++ (List.replicate n [Event.read_u32 FLASH_REG_FLASH0_FSR, Event.alive_sleep 1,
          Event.keep_alive]).flatten ++ [Event.read_u32 FLASH_REG_FLASH0_FSR] := by
  intro n
  induction n with
  | zero =>
    intro status tr hs
    have hb : ¬ (status &&& FSR_PBUSY_MASK = 0) := by
      rw [FSR_PBUSY_MASK, and_bit_eq_zero, FSR_PBUSY, hs]; simp
    rw [wait_busy_loop]
    simp [hb, xmc4xxx_get_flash_status, target_read_u32, (hbusy tr).1]
  | succ n ih =>
    intro status tr hs
    have hb : ¬ (status &&& FSR_PBUSY_MASK = 0) := by
      rw [FSR_PBUSY_MASK, and_bit_eq_zero, FSR_PBUSY, hs]; simp
    rw [wait_busy_loop]
    simp only [hb, xmc4xxx_get_flash_status, target_read_u32, (hbusy tr).1, if_false,
      ne_eq, not_true_eq_false]
    have := ih (t.read_u32 tr FLASH_REG_FLASH0_FSR).2
      (tr ++ [Event.read_u32 FLASH_REG_FLASH0_FSR] ++ [Event.alive_sleep 1, Event.keep_alive])
      (hbusy tr).2
    refine ⟨this.1, ?_⟩
    rw [this.2]
    simp [List.replicate_succ]

/-- C6 (as stated, refuted): with budget `N = 2` and a controller that is busy
at every read, the loop makes 3 re-reads of the status register (4 reads in
all), not 2, before it returns the timeout failure. -/
theorem wait_status_busy_counterexample :
    xmc4xxx_wait_status_busy (static_target true (fun _ => 1) 0) 2 [] =
      (ERROR_FAIL,
        [Event.read_u32 FLASH_REG_FLASH0_FSR,
         Event.read_u32 FLASH_REG_FLASH0_FSR, Event.alive_sleep 1, Event.keep_alive,
         Event.read_u32 FLASH_REG_FLASH0_FSR, Event.alive_sleep 1, Event.keep_alive,
         Event.read_u32 FLASH_REG_FLASH0_FSR]) ∧
    (xmc4xxx_wait_status_busy (static_target true (fun _ => 1) 0) 2 []).2.count
      (Event.read_u32 FLASH_REG_FLASH0_FSR) = 1 + 3 := by
  refine ⟨by decide, by decide⟩

/-- C6 (amended): for every budget `N >= 0`, if every read of the status
register succeeds and shows the busy bit set, `xmc4xxx_wait_status_busy`
returns the timeout failure in pass `N + 1` of its wait loop: after the initial
read it makes `N` complete passes (re-read, 1 ms sleep, keep-alive) and then one
more re-read, so `N + 1` re-reads and `N` sleeps. -/
theorem wait_status_busy_timeout (t : Target) (N : Nat) (tr : List Event)
    (hbusy : ∀ tr0, (t.read_u32 tr0 FLASH_REG_FLASH0_FSR).1 = ERROR_OK ∧
      (t.read_u32 tr0 FLASH_REG_FLASH0_FSR).2.testBit 0 = true) :
    xmc4xxx_wait_status_busy t (N : Int) tr =
      (ERROR_FAIL,
        tr ++ [Event.read_u32 FLASH_REG_FLASH0_FSR] ++
          (List.replicate N [Event.read_u32 FLASH_REG_FLASH0_FSR, Event.alive_sleep 1,
            Event.keep_alive]).flatten ++ [Event.read_u32 FLASH_REG_FLASH0_FSR]) := by
  have h := wait_busy_loop_always_busy t hbusy N (t.read_u32 tr FLASH_REG_FLASH0_FSR).2
    (tr ++ [Event.read_u32 FLASH_REG_FLASH0_FSR]) (hbusy tr).2
  unfold xmc4xxx_wait_status_busy
  simp only [xmc4xxx_get_flash_status, target_read_u32, (hbusy tr).1, Int.toNat_ofNat, h.1,
    h.2]
  simp

/-- Witness for C6 (amended): budget 3 against a status register stuck at 1. -/
theorem wait_status_busy_timeout_witness :
    xmc4xxx_wait_status_busy (static_target true (fun _ => 1) 0) ((3 : Nat) : Int) [] =
      (ERROR_FAIL,
        [] ++ [Event.read_u32 FLASH_REG_FLASH0_FSR] ++
          (List.replicate 3 [Event.read_u32 FLASH_REG_FLASH0_FSR, Event.alive_sleep 1,
            Event.keep_alive]).flatten ++ [Event.read_u32 FLASH_REG_FLASH0_FSR]) :=
  wait_status_busy_timeout (static_target true (fun _ => 1) 0) 3 []
    (fun _ => ⟨rfl, by show Nat.testBit 1 0 = true; decide⟩)

theorem fsr_reads_append_read (tr : List Event) :
    ((tr ++ [Event.read_u32 FLASH_REG_FLASH0_FSR] ++ [Event.alive_sleep 1, Event.keep_alive]).filter
      fun e => decide (e = Event.read_u32 FLASH_REG_FLASH0_FSR)).length =
    (tr.filter fun e => decide (e = Event.read_u32 FLASH_REG_FLASH0_FSR)).length + 1 := by
  simp [List.filter_append, List.filter_cons]

theorem expiry_script_busy (N k : Nat) (hk : k ≤ N) :
    (List.replicate (N + 1) 1 ++ [0]).getD k ((List.replicate (N + 1) 1 ++ [0]).getLastD 0) = 1 := by
  rw [List.getD_append _ _ _ _ (by simp; omega)]
  have hlt : k < N + 1 := by omega
  simp [List.getElem?_replicate, hlt]

theorem expiry_script_idle (N : Nat) :
    (List.replicate (N + 1) 1 ++ [0]).getD (N + 1)
      ((List.replicate (N + 1) 1 ++ [0]).getLastD 0) = 0 := by
  rw [List.getD_append_right _ _ _ _ (by simp)]
  simp

theorem wait_busy_loop_expiry (N : Nat) :
    ∀ (n : Nat) (tr : List Event),
      n + (tr.filter fun e => decide (e = Event.read_u32 FLASH_REG_FLASH0_FSR)).length = N + 1 →
      wait_busy_loop (scripted_status_target (List.replicate (N + 1) 1 ++ [0])) n 1 tr =
        (ERROR_FAIL, 0,
          tr ++ (List.replicate n [Event.read_u32 FLASH_REG_FLASH0_FSR, Event.alive_sleep 1,
            Event.keep_alive]).flatten ++ [Event.read_u32 FLASH_REG_FLASH0_FSR]) := by
  intro n
  induction n with
  | zero =>
    intro tr h
    rw [wait_busy_loop]
    have hb : ¬ ((1 : Nat) &&& FSR_PBUSY_MASK = 0) := by decide
    simp only [hb, if_false, xmc4xxx_get_flash_status, target_read_u32, scripted_status_target]
    simp only [Nat.zero_add] at h
    simp [h, expiry_script_idle]
  | succ n ih =>
    intro tr h
    rw [wait_busy_loop]
    have hb : ¬ ((1 : Nat) &&& FSR_PBUSY_MASK = 0) := by decide
    have hk : (tr.filter fun e => decide (e = Event.read_u32 FLASH_REG_FLASH0_FSR)).length ≤ N := by
      omega
    simp only [hb, if_false, xmc4xxx_get_flash_status, target_read_u32, scripted_status_target]
    simp only [if_true, expiry_script_busy N _ hk, ne_eq, not_true_eq_false, if_false]
    have := ih (tr ++ [Event.read_u32 FLASH_REG_FLASH0_FSR] ++ [Event.alive_sleep 1, Event.keep_alive])
      (by rw [fsr_reads_append_read]; omega)
    simp only [scripted_status_target] at this
    rw [this]
    simp [List.replicate_succ]


/-- C7 (code evaluated at failing inputs): for every budget `N`, let the status
register read busy (value 1) at the initial read and at the first `N` re-reads,
and idle with no error bit (value 0) at re-read `N + 1`.
`xmc4xxx_wait_status_busy` performs that re-read, so the last status value it
has read is 0, and still returns `ERROR_FAIL` (the timeout branch) instead of
success.  The smallest instance is budget 0 with the two reads 1, 0. -/
theorem wait_status_busy_expiry (N : Nat) :
    xmc4xxx_wait_status_busy (scripted_status_target (List.replicate (N + 1) 1 ++ [0]))
        (N : Int) [] =
      (ERROR_FAIL,
        [Event.read_u32 FLASH_REG_FLASH0_FSR] ++
          (List.replicate N [Event.read_u32 FLASH_REG_FLASH0_FSR, Event.alive_sleep 1,
            Event.keep_alive]).flatten ++ [Event.read_u32 FLASH_REG_FLASH0_FSR]) ∧
    (wait_busy_loop (scripted_status_target (List.replicate (N + 1) 1 ++ [0])) N 1
        [Event.read_u32 FLASH_REG_FLASH0_FSR]).2.1 = 0 ∧
    xmc4xxx_wait_status_busy (scripted_status_target [1, 0]) 0 [] =
      (ERROR_FAIL, [Event.read_u32 FLASH_REG_FLASH0_FSR, Event.read_u32 FLASH_REG_FLASH0_FSR]) := by
  have hl := wait_busy_loop_expiry N N [Event.read_u32 FLASH_REG_FLASH0_FSR] (by simp)
  refine ⟨?_, by rw [hl], by decide⟩
  unfold xmc4xxx_wait_status_busy
  have h0 : xmc4xxx_get_flash_status (scripted_status_target (List.replicate (N + 1) 1 ++ [0])) [] =
      (ERROR_OK, 1, [Event.read_u32 FLASH_REG_FLASH0_FSR]) := by
    simp [xmc4xxx_get_flash_status, target_read_u32, scripted_status_target, List.replicate_succ]
  simp only [h0, Int.toNat_ofNat, hl]
  simp [FSR_PROER_MASK]

/-! ## Protection install on an already protected level -/

theorem proin_of_bit (level : Int) (status : Nat)
    (hbit : (level = 0 ∧ (status.testBit 21 = true ∨ status.testBit 18 = true)) ∨
      (level = 1 ∧ status.testBit 22 = true) ∨ (level = 2 ∧ status.testBit 23 = true)) :
    proin level status = true := by
  unfold proin
  rcases hbit with ⟨h, hb⟩ | ⟨h, hb⟩ | ⟨h, hb⟩
  · subst h
    simp only [if_true, FSR_RPROIN_MASK, FSR_WPROIN0_MASK, FSR_RPROIN, FSR_WPROIN0,
      and_bit_ne_zero, decide_eq_true_eq]
    rcases hb with hb | hb
    · exact Or.inr hb
    · exact Or.inl hb
  · subst h
    have hm : status &&& FSR_WPROIN1_MASK ≠ 0 := by
      rw [FSR_WPROIN1_MASK, FSR_WPROIN1, and_bit_ne_zero]; exact hb
    rw [if_neg (by decide), if_pos rfl]
    exact decide_eq_true hm
  · subst h
    have hm : status &&& FSR_WPROIN2_MASK ≠ 0 := by
      rw [FSR_WPROIN2_MASK, FSR_WPROIN2, and_bit_ne_zero]; exact hb
    rw [if_neg (by decide), if_neg (by decide), if_pos rfl]
    exact decide_eq_true hm

/-- C10: for level 0, 1 or 2, if the status value read by
`xmc4xxx_flash_protect` has that level's protection-installed bit set
(bit 21 or bit 18 for level 0, bit 22 for level 1, bit 23 for level 2), the
call returns `ERROR_FAIL`, and the only access it has added to the trace is
that one status read (none at all when read protection was asked for on a
level other than 0): no write to the target, no working-area allocation. -/
theorem flash_protect_already_installed (t : Target) (code : List Nat) (tr : List Event)
    (bank : flash_bank) (level : Int) (read_protect : Bool) (first last status : Nat)
    (hread : t.read_u32 tr FLASH_REG_FLASH0_FSR = (ERROR_OK, status))
    (hbit : (level = 0 ∧ (status.testBit 21 = true ∨ status.testBit 18 = true)) ∨
      (level = 1 ∧ status.testBit 22 = true) ∨ (level = 2 ∧ status.testBit 23 = true)) :
    xmc4xxx_flash_protect t code tr bank level read_protect first last =
      some (ERROR_FAIL,
        if level ≠ 0 ∧ read_protect = true then tr
        else tr ++ [Event.read_u32 FLASH_REG_FLASH0_FSR]) := by
  have hp := proin_of_bit level status hbit
  unfold xmc4xxx_flash_protect
  by_cases hc : level ≠ 0 ∧ read_protect = true
  · rw [if_pos hc, if_pos hc]
  · rw [if_neg hc, if_neg hc]
    simp [xmc4xxx_get_flash_status, target_read_u32, hread, hp]

/-- Witness for C10: level 1 with WPROIN1 (bit 22) set in the status register. -/
theorem flash_protect_already_installed_witness :
    xmc4xxx_flash_protect (static_target true (fun _ => 0x400000) 4096) [] []
        (xmc4500_bank_pw 5 6) 1 false 0 3 =
      some (ERROR_FAIL,
        if (1 : Int) ≠ 0 ∧ false = true then []
        else [] ++ [Event.read_u32 FLASH_REG_FLASH0_FSR]) :=
  flash_protect_already_installed (static_target true (fun _ => 0x400000) 4096) [] []
    (xmc4500_bank_pw 5 6) 1 false 0 3 0x400000 rfl (Or.inr (Or.inl ⟨rfl, by decide⟩))

/-! ## Protection check -/

theorem getElem?_modify_sector (f : flash_sector → flash_sector) :
    ∀ (i : Nat) (l : List flash_sector) (k : Nat),
      (modify_sector f i l)[k]? = if k = i then l[k]?.map f else l[k]? := by
  intro i l
  induction l generalizing i with
  | nil => intro k; simp [modify_sector]
  | cons s ss ih =>
    intro k
    cases i with
    | zero =>
      cases k with
      | zero => simp [modify_sector]
      | succ k => simp [modify_sector]
    | succ i =>
      cases k with
      | zero => simp [modify_sector]
      | succ k => simp [modify_sector, ih]

theorem map_modify_sector (z f : flash_sector → flash_sector) (hf : ∀ s, z (f s) = z s) :
    ∀ (i : Nat) (l : List flash_sector), (modify_sector f i l).map z = l.map z := by
  intro i l
  induction l generalizing i with
  | nil => simp [modify_sector]
  | cons s ss ih =>
    cases i with
    | zero => simp [modify_sector, hf]
    | succ i => simp [modify_sector, ih]

theorem clear_fold_eq (js : List Nat) (b : flash_bank) :
    js.foldl protect_check_clear_step b =
      { b with
        sectors := js.foldl (fun l i => modify_sector (fun s => { s with is_protected := 0 }) i l)
          b.sectors
        driver_priv :=
          { b.driver_priv with
            write_prot_otp := js.foldl (fun o i => Function.update o i false)
              b.driver_priv.write_prot_otp } } := by
  induction js generalizing b with
  | nil => rfl
  | cons j js ih => rw [List.foldl_cons, ih]; rfl

theorem clear_fold_sectors (js : List Nat) (l : List flash_sector) (k : Nat) :
    (js.foldl (fun l i => modify_sector (fun s => { s with is_protected := 0 }) i l) l)[k]? =
      if k ∈ js then l[k]?.map (fun s => { s with is_protected := 0 }) else l[k]? := by
  induction js generalizing l with
  | nil => simp
  | cons j js ih =>
    rw [List.foldl_cons, ih, getElem?_modify_sector]
    by_cases hj : k = j
    · subst hj
      cases l[k]? <;> simp
    · by_cases hm : k ∈ js <;> simp [hj, hm]

theorem clear_fold_otp (js : List Nat) (o : Nat → Bool) (k : Nat) :
    (js.foldl (fun o i => Function.update o i false) o) k = if k ∈ js then false else o k := by
  induction js generalizing o with
  | nil => simp
  | cons j js ih =>
    rw [List.foldl_cons, ih]
    by_cases hj : k = j
    · subst hj
      by_cases hm : k ∈ js <;> simp [hm]
    · by_cases hm : k ∈ js <;> simp [hj, hm, Function.update_apply]

/-- The clearing loop followed by `fb->read_protected = false` blanks the bank. -/
theorem clear_eq_blank (b : flash_bank) (hlen : b.sectors.length ≤ b.num_sectors) :
    protect_check_clear b = protection_blank b.num_sectors b := by
  unfold protect_check_clear
  simp only []
  have hs : (List.range b.num_sectors).foldl
      (fun l i => modify_sector (fun s => { s with is_protected := 0 }) i l) b.sectors =
      b.sectors.map fun s => { s with is_protected := 0 } := by
    apply List.ext_getElem?
    intro k
    rw [clear_fold_sectors, List.getElem?_map]
    by_cases hk : k < b.num_sectors
    · simp [hk]
    · have : b.sectors[k]? = none := List.getElem?_eq_none (by omega)
      simp [hk, this]
  have ho : (List.range b.num_sectors).foldl (fun o i => Function.update o i false)
      b.driver_priv.write_prot_otp =
      fun k => if k < b.num_sectors then false else b.driver_priv.write_prot_otp k := by
    funext k
    rw [clear_fold_otp]
    simp [List.mem_range]
  rw [clear_fold_eq]
  unfold protection_blank
  simp only [hs, ho]

theorem blank_or_is_protected (n : Nat) (set : Int) (j : Nat) (b : flash_bank) :
    protection_blank n (or_is_protected set j b) = protection_blank n b := by
  unfold protection_blank or_is_protected
  simp only
  rw [map_modify_sector (fun s => { s with is_protected := 0 })
    (fun s => { s with is_protected := Int.lor s.is_protected set }) (fun s => rfl)]

theorem blank_set_otp (n j : Nat) (hj : j < n) (b : flash_bank) :
    protection_blank n (set_otp j b) = protection_blank n b := by
  have ho : (fun k => if k < n then false
      else Function.update b.driver_priv.write_prot_otp j true k) =
      fun k => if k < n then false else b.driver_priv.write_prot_otp k := by
    funext k
    by_cases hk : k < n
    · simp [hk]
    · have : k ≠ j := by omega
      simp [hk, Function.update_apply, this]
  unfold protection_blank set_otp
  simp only [ho]

theorem blank_step (n protection i j : Nat) (hj : j < n) (h11 : j = 10 → 11 < n)
    (b : flash_bank) :
    protection_blank n (protect_check_step protection i b j) = protection_blank n b := by
  unfold protect_check_step
  simp only []
  generalize (if protection &&& ((1 <<< j) % U32) ≠ 0 then (1 : Int) else 0) = set
  by_cases h10 : j = 10
  · subst h10
    have := h11 rfl
    simp only [if_true]
    by_cases hc : i = 2 ∧ set ≠ 0
    · rw [if_pos hc, blank_set_otp n _ (by omega), blank_set_otp n _ hj, blank_or_is_protected,
        blank_or_is_protected]
    · rw [if_neg hc, blank_or_is_protected, blank_or_is_protected]
  · simp only [h10, if_false]
    by_cases hc : i = 2 ∧ set ≠ 0
    · rw [if_pos hc, blank_set_otp n _ hj, blank_or_is_protected]
    · rw [if_neg hc, blank_or_is_protected]

theorem blank_inner (n protection i : Nat) (js : List Nat)
    (hjs : ∀ j ∈ js, j < n ∧ (j = 10 → 11 < n)) (b : flash_bank) :
    protection_blank n (js.foldl (protect_check_step protection i) b) = protection_blank n b := by
  induction js generalizing b with
  | nil => rfl
  | cons j js ih =>
    rw [List.foldl_cons, ih (fun x hx => hjs x (List.mem_cons_of_mem _ hx)),
      blank_step n protection i j (hjs j (List.mem_cons_self _ _)).1
        (hjs j (List.mem_cons_self _ _)).2]

theorem blank_outer (n : Nat) (protection : List Nat) (js : List Nat)
    (hjs : ∀ j ∈ js, j < n ∧ (j = 10 → 11 < n)) (is : List Nat) (b : flash_bank) :
    protection_blank n
      (is.foldl (fun b i => js.foldl (protect_check_step (protection.getD i 0) i) b) b) =
      protection_blank n b := by
  induction is generalizing b with
  | nil => rfl
  | cons i is ih => rw [List.foldl_cons, ih, blank_inner n _ i js hjs]

theorem blank_blank (n : Nat) (b : flash_bank) :
    protection_blank n (protection_blank n b) = protection_blank n b := by
  have ho : (fun k => if k < n then false
      else (if k < n then false else b.driver_priv.write_prot_otp k)) =
      fun k => if k < n then false else b.driver_priv.write_prot_otp k := by
    funext k
    by_cases hk : k < n <;> simp [hk]
  have hs : (b.sectors.map fun s => ({ s with is_protected := 0 } : flash_sector)).map
      (fun s => ({ s with is_protected := 0 } : flash_sector)) =
      b.sectors.map fun s => { s with is_protected := 0 } := by
    simp [List.map_map, Function.comp_def]
  unfold protection_blank
  simp only [hs, ho]

theorem blank_read_protected (n : Nat) (b : flash_bank) (v : Bool) :
    protection_blank n { b with driver_priv := { b.driver_priv with read_protected := v } } =
      protection_blank n b := by
  rfl


theorem blank_fill (n sectors : Nat) (protection : List Nat)
    (hs : ∀ j ∈ List.range sectors, j < n ∧ (j = 10 → 11 < n)) (b : flash_bank) :
    protection_blank n (protect_check_fill sectors protection b) = protection_blank n b := by
  unfold protect_check_fill
  simp only []
  split_ifs
  · rw [blank_read_protected, blank_outer n protection _ hs]
  · rw [blank_outer n protection _ hs]

/-- On a bank of 8, 9 or 12 sectors every index the decoding loops use is
below the sector count, hence below `MAX_XMC_SECTORS`. -/
theorem supported_inner_bound (n : Nat) (hsup : n ∈ [8, 9, 12]) :
    ∀ j ∈ List.range (if n = 12 then n - 1 else n), j < n ∧ (j = 10 → 11 < n) := by
  intro j hj
  simp only [List.mem_cons, List.mem_singleton, List.not_mem_nil, or_false] at hsup
  rcases hsup with h | h | h <;> subst h <;> simp at hj <;> omega

/-- What the check leaves behind differs from the bank it started from only in
the flags it recomputes: blanking those gives the same bank (8, 9 or 12
sectors). -/
theorem protect_check_decode_blank (bank : flash_bank) (protection : List Nat)
    (hsup : bank.num_sectors ∈ [8, 9, 12])
    (hlen : bank.sectors.length = bank.num_sectors) :
    protection_blank bank.num_sectors (protect_check_decode bank protection) =
      protection_blank bank.num_sectors bank := by
  have hb := supported_inner_bound bank.num_sectors hsup
  have hd : protect_check_decode bank protection =
      protect_check_fill (if bank.num_sectors = 12 then bank.num_sectors - 1 else bank.num_sectors)
        protection (protection_blank bank.num_sectors bank) := by
    unfold protect_check_decode
    simp only []
    rw [clear_eq_blank bank (by omega)]
  rw [hd, blank_fill _ _ _ hb, blank_blank]

/-- Decoding twice from the same register values is decoding once (8, 9 or 12
sectors). -/
theorem protect_check_decode_idem (bank : flash_bank) (protection : List Nat)
    (hsup : bank.num_sectors ∈ [8, 9, 12])
    (hlen : bank.sectors.length = bank.num_sectors) :
    protect_check_decode (protect_check_decode bank protection) protection =
      protect_check_decode bank protection := by
  have hd : protect_check_decode bank protection =
      protect_check_fill (if bank.num_sectors = 12 then bank.num_sectors - 1 else bank.num_sectors)
        protection (protection_blank bank.num_sectors bank) := by
    unfold protect_check_decode
    simp only []
    rw [clear_eq_blank bank (by omega)]
  have hk := protect_check_decode_blank bank protection hsup hlen
  have hn : (protect_check_decode bank protection).num_sectors = bank.num_sectors := by
    have := congrArg (fun b => b.num_sectors) hk
    simpa [protection_blank] using this
  have hl : (protect_check_decode bank protection).sectors.length = bank.sectors.length := by
    have := congrArg (fun b => b.sectors.length) hk
    simpa [protection_blank] using this
  have hc : protect_check_clear (protect_check_decode bank protection) =
      protection_blank bank.num_sectors bank := by
    rw [clear_eq_blank _ (by omega), hn, hk]
  have hu : ∀ b : flash_bank, protect_check_decode b protection =
      protect_check_fill (if b.num_sectors = 12 then b.num_sectors - 1 else b.num_sectors)
        protection (protect_check_clear b) := fun _ => rfl
  rw [hu (protect_check_decode bank protection), hc, hn, ← hd]

/-- On a bank of 8, 9 or 12 sectors the check stays inside the flag array: no
cell at index `MAX_XMC_SECTORS` or above is changed. -/
theorem protect_check_decode_in_bounds (bank : flash_bank) (protection : List Nat)
    (hsup : bank.num_sectors ∈ [8, 9, 12])
    (hlen : bank.sectors.length = bank.num_sectors) (k : Nat) (hk : MAX_XMC_SECTORS ≤ k) :
    (protect_check_decode bank protection).driver_priv.write_prot_otp k =
      bank.driver_priv.write_prot_otp k := by
  have hb := protect_check_decode_blank bank protection hsup hlen
  have hn : ¬ k < bank.num_sectors := by
    have h12 : MAX_XMC_SECTORS = 12 := rfl
    simp only [List.mem_cons, List.mem_singleton, List.not_mem_nil, or_false] at hsup
    rcases hsup with h | h | h <;> omega
  have h := congrArg (fun b => b.driver_priv.write_prot_otp k) hb
  simpa [protection_blank, hn] using h

/-- Idempotence of the check where the flag array covers the bank: for a bank
of 8, 9 or 12 sectors (the sector table holding that many entries), whatever
its prior protection state, and PROCON0/1/2 reading the same three values each
time, a second `xmc4xxx_protect_check` succeeds like the first and leaves
exactly the bank the first one produced: the same per-sector `is_protected`
flags, OTP flags and `read_protected` flag (and every other field); and no
cell at index `MAX_XMC_SECTORS` or above is changed by the check. -/
theorem protect_check_idempotent (t : Target) (tr : List Event) (bank : flash_bank)
    (p0 p1 p2 : Nat)
    (hsup : bank.num_sectors ∈ [8, 9, 12])
    (hlen : bank.sectors.length = bank.num_sectors)
    (h0 : ∀ tr0, t.read_u32 tr0 FLASH_REG_FLASH0_PROCON0 = (ERROR_OK, p0))
    (h1 : ∀ tr0, t.read_u32 tr0 FLASH_REG_FLASH0_PROCON1 = (ERROR_OK, p1))
    (h2 : ∀ tr0, t.read_u32 tr0 FLASH_REG_FLASH0_PROCON2 = (ERROR_OK, p2)) :
    (xmc4xxx_protect_check t tr bank).1 = ERROR_OK ∧
    (xmc4xxx_protect_check t (xmc4xxx_protect_check t tr bank).2.2
      (xmc4xxx_protect_check t tr bank).2.1).1 = ERROR_OK ∧
    (xmc4xxx_protect_check t (xmc4xxx_protect_check t tr bank).2.2
      (xmc4xxx_protect_check t tr bank).2.1).2.1 = (xmc4xxx_protect_check t tr bank).2.1 ∧
    (∀ k, MAX_XMC_SECTORS ≤ k →
      (xmc4xxx_protect_check t tr bank).2.1.driver_priv.write_prot_otp k =
        bank.driver_priv.write_prot_otp k) := by
  have hpc : ∀ (tr0 : List Event) (b : flash_bank),
      xmc4xxx_protect_check t tr0 b =
        (ERROR_OK, protect_check_decode b [p0, p1, p2],
          tr0 ++ [Event.read_u32 FLASH_REG_FLASH0_PROCON0] ++
            [Event.read_u32 FLASH_REG_FLASH0_PROCON1] ++
            [Event.read_u32 FLASH_REG_FLASH0_PROCON2]) := by
    intro tr0 b
    simp [xmc4xxx_protect_check, target_read_u32, h0, h1, h2]
  refine ⟨by rw [hpc], by rw [hpc, hpc], ?_, ?_⟩
  · rw [hpc tr bank, hpc]
    exact protect_check_decode_idem bank [p0, p1, p2] hsup hlen
  · intro k hk
    rw [hpc tr bank]
    exact protect_check_decode_in_bounds bank [p0, p1, p2] hsup hlen k hk

/-- The idempotence theorem applied to the probed XMC4500 bank with PROCON
values `0x8003`, `0x400`, `0x1`. -/
theorem protect_check_idempotent_witness :
    xmc4500_bank.num_sectors ∈ [8, 9, 12] ∧
    (xmc4xxx_protect_check (static_target true (xmc4500_regs 0x8003 0x400 0x1) 0)
      (xmc4xxx_protect_check (static_target true (xmc4500_regs 0x8003 0x400 0x1) 0) []
        xmc4500_bank).2.2
      (xmc4xxx_protect_check (static_target true (xmc4500_regs 0x8003 0x400 0x1) 0) []
        xmc4500_bank).2.1).2.1 =
      (xmc4xxx_protect_check (static_target true (xmc4500_regs 0x8003 0x400 0x1) 0) []
        xmc4500_bank).2.1 :=
  ⟨by decide,
   (protect_check_idempotent (static_target true (xmc4500_regs 0x8003 0x400 0x1) 0) []
     xmc4500_bank 0x8003 0x400 0x1 (by decide) (by decide) (fun _ => rfl) (fun _ => rfl)
     (fun _ => rfl)).2.2.1⟩

theorem sectors_set_otp (j : Nat) (b : flash_bank) : (set_otp j b).sectors = b.sectors := rfl

/-- Effect of one pass of the inner loop on the table entry `k`: the flag is
or-ed with the tested bit when `k` is the sector of this pass, or when this is
the pass for sector 10 and `k` is 11. -/
theorem step_sectors_getElem? (protection i j k : Nat) (b : flash_bank) :
    (protect_check_step protection i b j).sectors[k]? =
      if k = j ∨ (j = 10 ∧ k = 11) then
        b.sectors[k]?.map fun s =>
          { s with
            is_protected :=
              Int.lor s.is_protected (if protection &&& ((1 <<< j) % U32) ≠ 0 then 1 else 0) }
      else b.sectors[k]? := by
  unfold protect_check_step
  simp only []
  generalize (if protection &&& ((1 <<< j) % U32) ≠ 0 then (1 : Int) else 0) = set
  have hs : ∀ (c : Prop) [Decidable c] (x y : flash_bank),
      (if c then x else y).sectors = if c then x.sectors else y.sectors := by
    intro c _ x y; split_ifs <;> rfl
  by_cases h10 : j = 10
  · subst h10
    simp only [if_true, hs, sectors_set_otp, ite_self, or_is_protected, getElem?_modify_sector]
    by_cases hk : k = 10
    · subst hk; simp
    · by_cases hk' : k = 11
      · subst hk'; simp
      · simp [hk, hk']
  · simp only [h10, if_false, hs, sectors_set_otp, ite_self, or_is_protected,
      getElem?_modify_sector, false_and, or_false]


theorem fill_sectors (sectors : Nat) (protection : List Nat) (b : flash_bank) :
    (protect_check_fill sectors protection b).sectors =
      ((List.range 3).foldl
        (fun b i => (List.range sectors).foldl (protect_check_step (protection.getD i 0) i) b)
        b).sectors := by
  unfold protect_check_fill
  simp only []
  split_ifs <;> rfl

/-- The value the check leaves in `is_protected` of sectors 10 and 11 of a
12-sector bank: the or of the three tested bits 10. -/
theorem shared_bit_value (bank : flash_bank) (p0 p1 p2 k : Nat)
    (hn : bank.num_sectors = 12) (hlen : bank.sectors.length = 12) (hk : k = 10 ∨ k = 11) :
    ((protect_check_decode bank [p0, p1, p2]).sectors.map fun s => s.is_protected)[k]? =
      some (Int.lor (Int.lor (Int.lor 0 (if p0 &&& ((1 <<< 10) % U32) ≠ 0 then 1 else 0))
        (if p1 &&& ((1 <<< 10) % U32) ≠ 0 then 1 else 0))
        (if p2 &&& ((1 <<< 10) % U32) ≠ 0 then 1 else 0)) := by
  have hr3 : List.range 3 = [0, 1, 2] := by decide
  have hr11 : List.range 11 = [0, 1, 2, 3, 4, 5, 6, 7, 8, 9, 10] := by decide
  have hd : protect_check_decode bank [p0, p1, p2] =
      protect_check_fill 11 [p0, p1, p2] (protection_blank 12 bank) := by
    unfold protect_check_decode
    simp only [hn]
    rw [clear_eq_blank bank (by omega), hn]
    rfl
  have hlt : k < bank.sectors.length := by omega
  have hget : bank.sectors[k]? = some bank.sectors[k] := List.getElem?_eq_getElem hlt
  rw [hd, fill_sectors, hr3, hr11]
  simp only [List.foldl_cons, List.foldl_nil, List.getElem?_map, step_sectors_getElem?]
  rcases hk with rfl | rfl
  · simp [protection_blank, hget]
  · simp [protection_blank, hget]


theorem tested_bit_10 (p : Nat) :
    (if p &&& ((1 <<< 10) % U32) ≠ 0 then (1 : Int) else 0) = if p.testBit 10 = true then 1 else 0 := by
  have h : ((1 : Nat) <<< 10) % U32 = 1 <<< 10 := by decide
  rw [h]
  by_cases hb : p.testBit 10 = true
  · rw [if_pos hb, if_pos ((and_bit_ne_zero p 10).2 hb)]
  · rw [if_neg hb, if_neg (fun hc => hb ((and_bit_ne_zero p 10).1 hc))]

/-- C9: on a 12-sector bank, after `xmc4xxx_protect_check` has read PROCON0/1/2
successfully, sector 10 and sector 11 both have `is_protected = 1` when bit 10
is set in at least one of the three values, and both have `is_protected = 0`
when bit 10 is clear in all three. -/
theorem protect_check_shared_bit (t : Target) (tr : List Event) (bank : flash_bank)
    (p0 p1 p2 : Nat)
    (hn : bank.num_sectors = 12) (hlen : bank.sectors.length = 12)
    (h0 : t.read_u32 tr FLASH_REG_FLASH0_PROCON0 = (ERROR_OK, p0))
    (h1 : t.read_u32 (tr ++ [Event.read_u32 FLASH_REG_FLASH0_PROCON0])
      FLASH_REG_FLASH0_PROCON1 = (ERROR_OK, p1))
    (h2 : t.read_u32 (tr ++ [Event.read_u32 FLASH_REG_FLASH0_PROCON0] ++
      [Event.read_u32 FLASH_REG_FLASH0_PROCON1]) FLASH_REG_FLASH0_PROCON2 = (ERROR_OK, p2)) :
    (xmc4xxx_protect_check t tr bank).1 = ERROR_OK ∧
    ((p0.testBit 10 = true ∨ p1.testBit 10 = true ∨ p2.testBit 10 = true) →
      ((xmc4xxx_protect_check t tr bank).2.1.sectors.map fun s => s.is_protected)[10]? = some 1 ∧
      ((xmc4xxx_protect_check t tr bank).2.1.sectors.map fun s => s.is_protected)[11]? = some 1) ∧
    ((p0.testBit 10 = false ∧ p1.testBit 10 = false ∧ p2.testBit 10 = false) →
      ((xmc4xxx_protect_check t tr bank).2.1.sectors.map fun s => s.is_protected)[10]? = some 0 ∧
      ((xmc4xxx_protect_check t tr bank).2.1.sectors.map fun s => s.is_protected)[11]? = some 0) := by
  have hpc : xmc4xxx_protect_check t tr bank =
      (ERROR_OK, protect_check_decode bank [p0, p1, p2],
        tr ++ [Event.read_u32 FLASH_REG_FLASH0_PROCON0] ++
          [Event.read_u32 FLASH_REG_FLASH0_PROCON1] ++
          [Event.read_u32 FLASH_REG_FLASH0_PROCON2]) := by
    simp only [xmc4xxx_protect_check, target_read_u32, h0, h1, h2, ne_eq, not_true_eq_false,
      if_false]
  rw [hpc]
  simp only [shared_bit_value bank p0 p1 p2 _ hn hlen (Or.inl rfl),
    shared_bit_value bank p0 p1 p2 _ hn hlen (Or.inr rfl), tested_bit_10]
  refine ⟨trivial, ?_, ?_⟩
  · intro h
    cases hb0 : p0.testBit 10 <;> cases hb1 : p1.testBit 10 <;> cases hb2 : p2.testBit 10 <;>
      simp_all <;> decide
  · rintro ⟨hb0, hb1, hb2⟩
    simp [hb0, hb1, hb2]
    decide

/-- Witness for C9: bit 10 set in PROCON1 only, on the probed XMC4500 bank. -/
theorem protect_check_shared_bit_witness :
    xmc4500_bank.num_sectors = 12 ∧
    ((xmc4xxx_protect_check (static_target true (xmc4500_regs 0 0x400 0) 0) []
      xmc4500_bank).2.1.sectors.map fun s => s.is_protected)[10]? = some 1 ∧
    ((xmc4xxx_protect_check (static_target true (xmc4500_regs 0 0x400 0) 0) []
      xmc4500_bank).2.1.sectors.map fun s => s.is_protected)[11]? = some 1 :=
  ⟨by decide,
   (protect_check_shared_bit (static_target true (xmc4500_regs 0 0x400 0) 0) [] xmc4500_bank
     0 0x400 0 (by decide) (by decide) rfl rfl rfl).2.1 (Or.inr (Or.inl (by decide)))⟩

/-! ## Guards of the protection install -/

/-- C11: for every sector range, every bank and every level other than 0 (in
particular level 1), `xmc4xxx_flash_protect` called with `read_protect = true`
returns `ERROR_FAIL` with the trace unchanged: the failure comes before any
target read or write. -/
theorem flash_protect_read_protect_level (t : Target) (code : List Nat) (tr : List Event)
    (bank : flash_bank) (level : Int) (first last : Nat) (hlevel : level ≠ 0) :
    xmc4xxx_flash_protect t code tr bank level true first last = some (ERROR_FAIL, tr) := by
  unfold xmc4xxx_flash_protect
  rw [if_pos ⟨hlevel, rfl⟩]

/-- Witness for C11: level 1, sectors 0..3, on a target that would otherwise
accept the install. -/
theorem flash_protect_read_protect_level_witness :
    xmc4xxx_flash_protect (static_target true (xmc4500_regs 0 0 0) 4096) [] []
      (xmc4500_bank_pw 5 6) 1 true 0 3 = some (ERROR_FAIL, []) :=
  flash_protect_read_protect_level (static_target true (xmc4500_regs 0 0 0) 4096) [] []
    (xmc4500_bank_pw 5 6) 1 0 3 (by decide)

/-- C12: for every bank whose `pw_set` flag is false, every `set` value and
every sector range, `xmc4xxx_protect` returns `ERROR_FAIL` with the trace
unchanged (no target read or write).  The bank and its protection record are
only read by `xmc4xxx_protect` and its callees, never assigned, which is why the
embedding returns no bank: the record is the same after the call. -/
theorem protect_without_passwords (t : Target) (code : List Nat) (tr : List Event)
    (bank : flash_bank) (set : Int) (first last : Nat)
    (hpw : bank.driver_priv.pw_set = false) :
    xmc4xxx_protect t code tr bank set first last = some (ERROR_FAIL, tr) := by
  unfold xmc4xxx_protect
  simp [hpw]

/-- Witness for C12: the probed XMC4500 bank before any password command. -/
theorem protect_without_passwords_witness :
    xmc4500_bank.driver_priv.pw_set = false ∧
    xmc4xxx_protect (static_target true (xmc4500_regs 0 0 0) 4096) [] [] xmc4500_bank 1 0 3 =
      some (ERROR_FAIL, []) :=
  ⟨by decide,
   protect_without_passwords (static_target true (xmc4500_regs 0 0 0) 4096) [] []
     xmc4500_bank 1 0 3 (by decide)⟩

/-! ## Command sequences -/

theorem command_events_cons (e : xmc4xxx_command_seq) (rest : List xmc4xxx_command_seq) :
    command_events (e :: rest) = Event.write_u32 e.address e.magic :: command_events rest := rfl

/-- All writes of the sequence succeed: every entry is written, in order. -/
theorem write_command_sequence_ok (t : Target) :
    ∀ (seq : List xmc4xxx_command_seq) (tr : List Event),
      (∀ j e, seq[j]? = some e →
        t.write_u32 (tr ++ command_events (seq.take j)) e.address e.magic = ERROR_OK) →
      xmc4xxx_write_command_sequence t tr seq = (ERROR_OK, tr ++ command_events seq) := by
  intro seq
  induction seq with
  | nil => intro tr _; simp [xmc4xxx_write_command_sequence, command_events]
  | cons e rest ih =>
    intro tr h
    have h0 : t.write_u32 tr e.address e.magic = ERROR_OK := by
      have := h 0 e (by simp)
      simpa [command_events] using this
    rw [xmc4xxx_write_command_sequence]
    simp only [target_write_u32, h0, ne_eq, not_true_eq_false, if_false]
    rw [ih (tr ++ [Event.write_u32 e.address e.magic])]
    · rw [command_events_cons, List.append_assoc]; rfl
    · intro j e' hj
      have := h (j + 1) e' (by simpa using hj)
      rw [List.take_succ_cons, command_events_cons] at this
      rw [List.append_assoc]
      exact this

/-- The write of entry `k` is the first to fail: entries `0..k` have been
written and the error of entry `k` is returned. -/
theorem write_command_sequence_fail (t : Target) :
    ∀ (seq : List xmc4xxx_command_seq) (tr : List Event) (k : Nat) (ek : xmc4xxx_command_seq)
      (err : Retval),
      seq[k]? = some ek →
      (∀ j e, j < k → seq[j]? = some e →
        t.write_u32 (tr ++ command_events (seq.take j)) e.address e.magic = ERROR_OK) →
      t.write_u32 (tr ++ command_events (seq.take k)) ek.address ek.magic = err →
      err ≠ ERROR_OK →
      xmc4xxx_write_command_sequence t tr seq =
        (err, tr ++ command_events (seq.take (k + 1))) := by
  intro seq
  induction seq with
  | nil => intro tr k ek err hk; simp at hk
  | cons e rest ih =>
    intro tr k ek err hk hok hfail herr
    rw [xmc4xxx_write_command_sequence]
    cases k with
    | zero =>
      simp only [List.getElem?_cons_zero, Option.some.injEq] at hk
      subst hk
      have h0 : t.write_u32 tr e.address e.magic = err := by
        simpa [command_events] using hfail
      simp only [target_write_u32, h0, ne_eq, herr, not_false_eq_true, if_true]
      simp [command_events]
    | succ k =>
      have h0 : t.write_u32 tr e.address e.magic = ERROR_OK := by
        have := hok 0 e (Nat.succ_pos k) (by simp)
        simpa [command_events] using this
      simp only [target_write_u32, h0, ne_eq, not_true_eq_false, if_false]
      rw [ih (tr ++ [Event.write_u32 e.address e.magic]) k ek err (by simpa using hk)]
      · rw [List.take_succ_cons, command_events_cons, List.append_assoc]; rfl
      · intro j e' hj hj'
        have := hok (j + 1) e' (by omega) (by simpa using hj')
        rw [List.take_succ_cons, command_events_cons] at this
        rw [List.append_assoc]
        exact this
      · rw [List.take_succ_cons, command_events_cons] at hfail
        rw [List.append_assoc]
        exact hfail
      · exact herr


/-- C15: `xmc4xxx_write_command_sequence` on a sequence of any length.  If
every write succeeds when issued in order, all entries are written in order
and the result is success.  If the writes of entries `0..k-1` succeed and the
write of entry `k` fails with `err`, exactly entries `0..k` have been written,
none of the later ones, and `err` is returned.  In both cases the trace gains
write events only (no reads). -/
theorem write_command_sequence_trace (t : Target) (tr : List Event)
    (seq : List xmc4xxx_command_seq) :
    ((∀ j e, seq[j]? = some e →
        t.write_u32 (tr ++ command_events (seq.take j)) e.address e.magic = ERROR_OK) →
      xmc4xxx_write_command_sequence t tr seq = (ERROR_OK, tr ++ command_events seq)) ∧
    (∀ (k : Nat) (ek : xmc4xxx_command_seq) (err : Retval),
      seq[k]? = some ek →
      (∀ j e, j < k → seq[j]? = some e →
        t.write_u32 (tr ++ command_events (seq.take j)) e.address e.magic = ERROR_OK) →
      t.write_u32 (tr ++ command_events (seq.take k)) ek.address ek.magic = err →
      err ≠ ERROR_OK →
      xmc4xxx_write_command_sequence t tr seq =
        (err, tr ++ command_events (seq.take (k + 1)))) :=
  ⟨write_command_sequence_ok t seq tr, write_command_sequence_fail t seq tr⟩

/-- Witness for C15: the erase sequence of sector 0 on a target whose third
write fails with code 7; the first three entries are written, the last three
are not. -/
theorem write_command_sequence_trace_witness :
    xmc4xxx_write_command_sequence (failing_write_target 2 (ERROR_other 7) (fun _ => 0)) []
        (erase_cmd_seq xmc4500_bank 0x0C000000 false) =
      (ERROR_other 7,
        [] ++ command_events ((erase_cmd_seq xmc4500_bank 0x0C000000 false).take (2 + 1))) :=
  (write_command_sequence_trace (failing_write_target 2 (ERROR_other 7) (fun _ => 0)) []
    (erase_cmd_seq xmc4500_bank 0x0C000000 false)).2 2 ⟨FLASH_CMD_ERASE_3, 0x80⟩ (ERROR_other 7)
    (by decide)
    (by
      intro j e hj hje
      interval_cases j
      · simp [erase_cmd_seq] at hje; subst hje; decide
      · simp [erase_cmd_seq] at hje; subst hje; decide)
    (by decide) (by decide)


/-- The wait loop only appends to the trace. -/
theorem wait_busy_loop_prefix (t : Target) :
    ∀ (n status : Nat) (tr : List Event), tr <+: (wait_busy_loop t n status tr).2.2 := by
  intro n
  induction n with
  | zero =>
    intro status tr
    rw [wait_busy_loop]
    simp only [xmc4xxx_get_flash_status, target_read_u32]
    split_ifs <;> simp
  | succ n ih =>
    intro status tr
    rw [wait_busy_loop]
    simp only [xmc4xxx_get_flash_status, target_read_u32]
    split_ifs
    · simp
    · simp
    · exact List.IsPrefix.trans (by simp) (ih _ _)

theorem wait_status_busy_prefix (t : Target) (timeout : Int) (tr : List Event) :
    tr <+: (xmc4xxx_wait_status_busy t timeout tr).2 := by
  unfold xmc4xxx_wait_status_busy
  simp only [xmc4xxx_get_flash_status, target_read_u32]
  have h := wait_busy_loop_prefix t timeout.toNat (t.read_u32 tr FLASH_REG_FLASH0_FSR).2
    (tr ++ [Event.read_u32 FLASH_REG_FLASH0_FSR])
  have h2 : tr <+: (wait_busy_loop t timeout.toNat (t.read_u32 tr FLASH_REG_FLASH0_FSR).2
      (tr ++ [Event.read_u32 FLASH_REG_FLASH0_FSR])).2.2 :=
    List.IsPrefix.trans (by simp) h
  split_ifs <;> first | exact h2 | simp

/-- C13: if each of the six writes of the erase sequence succeeds when issued
in order, the accesses `xmc4xxx_erase_sector` adds to the trace begin with
exactly the writes (0x0C005554,0xAA), (0x0C00AAA8,0x55), (0x0C005554,0x80),
(0x0C005554,0xAA), (0x0C00AAA8,0x55) and then (a,0x30) for a normal sector or
((a + b) mod 2^32, 0xC0) for a user-configuration-block erase, `b` being the
bank base; the next access is the read of the flash status register. -/
theorem erase_sector_sequence (t : Target) (tr : List Event) (bank : flash_bank) (a : Nat)
    (user_config : Bool)
    (hw : ∀ j e, (erase_cmd_seq bank a user_config)[j]? = some e →
      t.write_u32 (tr ++ command_events ((erase_cmd_seq bank a user_config).take j))
        e.address e.magic = ERROR_OK) :
    (tr ++
      [Event.write_u32 0x0C005554 0xAA, Event.write_u32 0x0C00AAA8 0x55,
       Event.write_u32 0x0C005554 0x80, Event.write_u32 0x0C005554 0xAA,
       Event.write_u32 0x0C00AAA8 0x55,
       if user_config = true then Event.write_u32 ((a + bank.base) % 2 ^ 32) 0xC0
       else Event.write_u32 a 0x30] ++
      [Event.read_u32 FLASH_REG_FLASH0_FSR]) <+:
      (xmc4xxx_erase_sector t tr bank a user_config).2 := by
  have hseq := write_command_sequence_ok t (erase_cmd_seq bank a user_config) tr hw
  have hev : command_events (erase_cmd_seq bank a user_config) =
      [Event.write_u32 0x0C005554 0xAA, Event.write_u32 0x0C00AAA8 0x55,
       Event.write_u32 0x0C005554 0x80, Event.write_u32 0x0C005554 0xAA,
       Event.write_u32 0x0C00AAA8 0x55,
       if user_config = true then Event.write_u32 ((a + bank.base) % 2 ^ 32) 0xC0
       else Event.write_u32 a 0x30] := by
    cases user_config <;> rfl
  unfold xmc4xxx_erase_sector
  simp only [hseq, hev, target_read_u32, ne_eq, not_true_eq_false, if_false]
  generalize (if user_config = true then Event.write_u32 ((a + bank.base) % 2 ^ 32) 0xC0
    else Event.write_u32 a 0x30) = sixth
  split_ifs
  all_goals first | exact List.prefix_refl _ | exact wait_status_busy_prefix t _ _


/-- Witness for C13: erase of the user configuration block of level 1 on the
probed XMC4500 bank (base 0x0C000000); the sixth write goes to 0x0C000400. -/
theorem erase_sector_sequence_witness :
    ([] ++
      [Event.write_u32 0x0C005554 0xAA, Event.write_u32 0x0C00AAA8 0x55,
       Event.write_u32 0x0C005554 0x80, Event.write_u32 0x0C005554 0xAA,
       Event.write_u32 0x0C00AAA8 0x55,
       if true = true then Event.write_u32 ((UCB1_BASE + xmc4500_bank.base) % 2 ^ 32) 0xC0
       else Event.write_u32 UCB1_BASE 0x30] ++
      [Event.read_u32 FLASH_REG_FLASH0_FSR]) <+:
      (xmc4xxx_erase_sector (static_target true (xmc4500_regs 0 0 0) 0) [] xmc4500_bank
        UCB1_BASE true).2 :=
  erase_sector_sequence (static_target true (xmc4500_regs 0 0 0) 0) [] xmc4500_bank UCB1_BASE true
    (fun _ _ _ => rfl)

/-- C14: for user level 0, 1 or 2 and stored passwords `pw1`, `pw2`, if each of
the six writes succeeds when issued in order, `xmc4xxx_temp_unprotect` adds to
the trace exactly the writes (0x0C005554,0xAA), (0x0C00AAA8,0x55),
(0x0C00553C,level), (0x0C00AAA8,pw1), (0x0C00AAA8,pw2), (0x0C005558,0x05)
followed by one read of the flash status register; for every level outside
0..2 it returns `ERROR_FAIL` with the trace unchanged. -/
theorem temp_unprotect_sequence (t : Target) (tr : List Event) (bank : flash_bank)
    (user_level : Int) :
    (0 ≤ user_level ∧ user_level ≤ 2 →
      (∀ j e, (temp_unprot_seq bank.driver_priv user_level)[j]? = some e →
        t.write_u32
          (tr ++ command_events ((temp_unprot_seq bank.driver_priv user_level).take j))
          e.address e.magic = ERROR_OK) →
      (xmc4xxx_temp_unprotect t tr bank user_level).2 =
        tr ++
          [Event.write_u32 0x0C005554 0xAA, Event.write_u32 0x0C00AAA8 0x55,
           Event.write_u32 0x0C00553C user_level.toNat,
           Event.write_u32 0x0C00AAA8 bank.driver_priv.pw1,
           Event.write_u32 0x0C00AAA8 bank.driver_priv.pw2,
           Event.write_u32 0x0C005558 0x05] ++
          [Event.read_u32 FLASH_REG_FLASH0_FSR]) ∧
    (user_level < 0 ∨ user_level > 2 →
      xmc4xxx_temp_unprotect t tr bank user_level = (ERROR_FAIL, tr)) := by
  constructor
  · rintro ⟨h0, h2⟩ hw
    have hseq := write_command_sequence_ok t (temp_unprot_seq bank.driver_priv user_level) tr hw
    have hr : ¬ (user_level < 0 ∨ user_level > 2) := by omega
    unfold xmc4xxx_temp_unprotect
    rw [if_neg hr]
    simp only [hseq, xmc4xxx_get_flash_status, target_read_u32, ne_eq, not_true_eq_false,
      if_false]
    split_ifs <;> rfl
  · intro h
    unfold xmc4xxx_temp_unprotect
    rw [if_pos h]

/-- Witness for C14: level 0 with passwords 5 and 6 on a target that accepts
every write, and the rejected level 3. -/
theorem temp_unprotect_sequence_witness :
    (xmc4xxx_temp_unprotect (static_target true (xmc4500_regs 0 0 0) 0) []
        (xmc4500_bank_pw 5 6) 0).2 =
      [] ++
        [Event.write_u32 0x0C005554 0xAA, Event.write_u32 0x0C00AAA8 0x55,
         Event.write_u32 0x0C00553C (0 : Int).toNat,
         Event.write_u32 0x0C00AAA8 (xmc4500_bank_pw 5 6).driver_priv.pw1,
         Event.write_u32 0x0C00AAA8 (xmc4500_bank_pw 5 6).driver_priv.pw2,
         Event.write_u32 0x0C005558 0x05] ++
        [Event.read_u32 FLASH_REG_FLASH0_FSR] ∧
    xmc4xxx_temp_unprotect (static_target true (xmc4500_regs 0 0 0) 0) []
      (xmc4500_bank_pw 5 6) 3 = (ERROR_FAIL, []) :=
  ⟨(temp_unprotect_sequence (static_target true (xmc4500_regs 0 0 0) 0) []
      (xmc4500_bank_pw 5 6) 0).1 ⟨by decide, by decide⟩ (fun _ _ _ => rfl),
   (temp_unprotect_sequence (static_target true (xmc4500_regs 0 0 0) 0) []
      (xmc4500_bank_pw 5 6) 3).2 (Or.inr (by decide))⟩


/-! ## Error propagation in erase -/

/-- When the erase of the first sector of the range fails, `xmc4xxx_erase`
returns whatever the final clear-status write returns, not the erase error. -/
theorem erase_returns_clear_status (t : Target) (tr : List Event) (bank : flash_bank)
    (first last addr : Nat) (hh : t.halted = true) (hp : bank.driver_priv.probed = true)
    (hle : first ≤ last) (haddr : xmc4xxx_get_sector_start_addr bank first = some addr)
    (hfail : (xmc4xxx_erase_sector t tr bank addr false).1 ≠ ERROR_OK) :
    xmc4xxx_erase t tr bank first last =
      ((xmc4xxx_clear_flash_status t (xmc4xxx_erase_sector t tr bank addr false).2).1, bank,
        (xmc4xxx_clear_flash_status t (xmc4xxx_erase_sector t tr bank addr false).2).2) := by
  have hn : last + 1 - first = (last - first) + 1 := by omega
  unfold xmc4xxx_erase
  simp only [hh, hp, hn, erase_loop, haddr, hfail, not_true_eq_false, if_false, ne_eq,
    not_false_eq_true, if_true]

/-- C16 (code evaluated at failing inputs): a halted target, the probed
12-sector bank, erase of sector 0.  With the status register showing the
sequence-error bit (0x400) `xmc4xxx_erase_sector` fails with `ERROR_FAIL`, and
with the erase bit plus the protection-error bit (0x820) it fails in
`xmc4xxx_wait_status_busy`; in both cases `xmc4xxx_erase` then issues the
clear-status write and returns that write's result, `ERROR_OK`. -/
theorem erase_failure_masked :
    (xmc4xxx_erase_sector (static_target true (status_regs 0x400) 0) [] xmc4500_bank
      0x0C000000 false).1 = ERROR_FAIL ∧
    (xmc4xxx_erase (static_target true (status_regs 0x400) 0) [] xmc4500_bank 0 0).1
      = ERROR_OK ∧
    (xmc4xxx_erase (static_target true (status_regs 0x400) 0) [] xmc4500_bank 0 0).2.2 =
      [Event.write_u32 0x0C005554 0xaa, Event.write_u32 0x0C00AAA8 0x55,
       Event.write_u32 0x0C005554 0x80, Event.write_u32 0x0C005554 0xaa,
       Event.write_u32 0x0C00AAA8 0x55, Event.write_u32 0x0C000000 0x30,
       Event.read_u32 FLASH_REG_FLASH0_FSR, Event.write_u32 0x0C005554 0xf5] ∧
    (xmc4xxx_erase_sector (static_target true (status_regs 0x820) 0) [] xmc4500_bank
      0x0C000000 false).1 = ERROR_FAIL ∧
    (xmc4xxx_erase (static_target true (status_regs 0x820) 0) [] xmc4500_bank 0 0).1
      = ERROR_OK := by
  refine ⟨by decide, by decide, by decide, by decide, by decide⟩

/-! ## Bounds check of write -/

/-- C17 (code evaluated at a failing input): the probed 12-sector bank of
1 MiB, offset `0xFFFFFFF8` and count 16.  The mathematical sum exceeds the bank
size, but the 32-bit sum is 8, so the bounds test passes: `xmc4xxx_write`
allocates working memory, starts the algorithm for address
`0x0C000000 + 0xFFFFFFF8 mod 2^32 = 0x0BFFFFF8` and returns `ERROR_OK`. -/
theorem write_bounds_wrap :
    xmc4500_bank.size = 0x100000 ∧
    0xFFFFFFF8 + 16 > xmc4500_bank.size ∧
    (xmc4xxx_write (static_target true (xmc4500_regs 0 0 0) 4096) [0xbe, 0x00] []
      xmc4500_bank (List.replicate 16 0xAB) 0xFFFFFFF8 16).1 = ERROR_OK ∧
    (xmc4xxx_write (static_target true (xmc4500_regs 0 0 0) 4096) [0xbe, 0x00] []
      xmc4500_bank (List.replicate 16 0xAB) 0xFFFFFFF8 16).2.2 =
      [Event.alloc_working_area 2,
       Event.write_buffer 0x20000000 2 [0xbe, 0x00],
       Event.get_working_area_avail,
       Event.alloc_working_area_try 4092,
       Event.run_flash_async_algorithm
         { buffer := List.replicate 16 0xAB
           count := 2
           block_size := 8
           r0 := 0x20001000
           r1 := 0x20001FFC
           r2 := 0x0BFFFFF8
           r3 := 2
           sp := 0x20001064
           buffer_start := 0x20001064
           buffer_size := 3992
           entry_point := 0x20000000 },
       Event.free_working_area ⟨0x20001000, 4092⟩,
       Event.free_working_area ⟨0x20000000, 2⟩,
       Event.write_u32 0x0C005554 0xf5] := by
  refine ⟨by decide, by decide, by decide, by decide⟩

/-! ## Result of the temporary unprotect -/

/-- C18 (code evaluated at failing inputs): the unprotect sequence is written
successfully.  With the status reading `0x02000000` (WPRODIS0, bit 25, set and
nothing else) `xmc4xxx_temp_unprotect`, and `xmc4xxx_protect` with `set = 0`,
return `ERROR_FAIL`; with the status reading 1 (bit 25 clear, busy bit set)
they return `ERROR_OK`.  The test in the code is `status & FSR_WPRODIS0` with
`FSR_WPRODIS0 = 25`, the bit position, so it looks at bits 0, 3 and 4. -/
theorem temp_unprotect_wrong_mask :
    Nat.testBit 0x02000000 25 = true ∧
    (xmc4xxx_temp_unprotect (static_target true (status_regs 0x02000000) 0) []
      (xmc4500_bank_pw 5 6) 0).1 = ERROR_FAIL ∧
    (xmc4xxx_protect (static_target true (status_regs 0x02000000) 0) [] []
      (xmc4500_bank_pw 5 6) 0 0 0).map Prod.fst = some ERROR_FAIL ∧
    Nat.testBit 1 25 = false ∧
    (xmc4xxx_temp_unprotect (static_target true (status_regs 1) 0) []
      (xmc4500_bank_pw 5 6) 0).1 = ERROR_OK ∧
    (xmc4xxx_protect (static_target true (status_regs 1) 0) [] []
      (xmc4500_bank_pw 5 6) 0 0 0).map Prod.fst = some ERROR_OK ∧
    FSR_WPRODIS0 = 2 ^ 0 + 2 ^ 3 + 2 ^ 4 := by
  refine ⟨by decide, by decide, by decide, by decide, by decide, by decide, by decide⟩

/-! ## The procon bitmask -/

theorem procon_fold_testBit (k : Nat) :
    ∀ (n first acc : Nat),
      ((List.range' first n).foldl (fun acc i => acc ||| ((1 <<< i) % U32)) acc).testBit k =
        (acc.testBit k || decide (first ≤ k ∧ k < first + n ∧ k < 32)) := by
  intro n
  induction n with
  | zero =>
    intro first acc
    simp only [List.range'_zero, List.foldl_nil, Nat.add_zero]
    have : ¬ (first ≤ k ∧ k < first ∧ k < 32) := by omega
    simp [this]
  | succ n ih =>
    intro first acc
    rw [List.range'_succ, List.foldl_cons, ih]
    have hb : ((1 <<< first) % U32).testBit k = decide (k = first ∧ k < 32) := by
      rw [U32, Nat.testBit_mod_two_pow, Nat.one_shiftLeft, Nat.testBit_two_pow]
      by_cases h2 : k = first
      · subst h2
        by_cases h1 : k < 32 <;> simp [h1]
      · have h3 : ¬ first = k := fun h => h2 h.symm
        simp [h2, h3]
    rw [Nat.testBit_or, hb]
    by_cases hk : k = first
    · subst hk
      by_cases h32 : k < 32 <;> simp [h32]
    · have e : (first + 1 ≤ k ∧ k < first + 1 + n ∧ k < 32) ↔
          (first ≤ k ∧ k < first + (n + 1) ∧ k < 32) := by omega
      simp [hk, e]

/-- Bits of the logged `procon`: bit `k` is set exactly when `k` lies in the
requested range (after the clamp of `last`) and below 32, or when read
protection is requested and `k = 15`. -/
theorem flash_protect_procon_testBit (bank : flash_bank) (read_protect : Bool)
    (first last procon k : Nat)
    (h : flash_protect_procon bank read_protect first last = some procon) :
    procon.testBit k = true ↔
      (first ≤ k ∧ k ≤ (if bank.num_sectors = 12 ∧ last = 12 then last - 1 else last) ∧ k < 32) ∨
      (read_protect = true ∧ k = 15) := by
  unfold flash_protect_procon at h
  simp only [] at h
  generalize (if bank.num_sectors = 12 ∧ last = 12 then last - 1 else last) = last1 at h ⊢
  unfold procon_loop at h
  by_cases hu : last1 + 1 ≥ U32
  · simp [hu] at h
  · simp only [hu, if_false, Option.some.injEq] at h
    have hr : PROCON_RPRO_MASK.testBit k = decide (k = 15) := by
      rw [PROCON_RPRO_MASK, PROCON_RPRO, Nat.one_shiftLeft, Nat.testBit_two_pow]
      by_cases h15 : k = 15
      · subst h15; simp
      · have h3 : ¬ 15 = k := fun h => h15 h.symm
        simp [h15, h3]
    have hrange : (first ≤ k ∧ k < first + (last1 + 1 - first) ∧ k < 32) ↔
        (first ≤ k ∧ k ≤ last1 ∧ k < 32) := by omega
    cases read_protect
    · simp only [Bool.false_eq_true, if_false] at h
      subst h
      simp [procon_fold_testBit, hrange]
    · simp only [if_true] at h
      subst h
      simp [procon_fold_testBit, hrange, hr]

/-- C19 (code evaluated at failing inputs): on the probed 12-sector bank the
range 0..11 (all sectors) gives `procon = 0xFFF`, and the range 11..11 gives
`0x800`: bit 11 is set.  The clamp of the code only fires for `last = 12`, and
then lowers it to 11, so bit 11 is set in that case too. -/
theorem procon_bit_11 :
    xmc4500_bank.num_sectors = 12 ∧
    flash_protect_procon xmc4500_bank false 0 11 = some 0xFFF ∧
    Nat.testBit 0xFFF 11 = true ∧
    flash_protect_procon xmc4500_bank false 11 11 = some 0x800 ∧
    Nat.testBit 0x800 11 = true ∧
    flash_protect_procon xmc4500_bank false 0 12 = some 0xFFF := by
  refine ⟨by decide, by decide, by decide, by decide, by decide, by decide⟩

/-! ## Data written by the protection install -/

theorem u32_bytes_length (t : Target) (v : Nat) : (u32_bytes t v).length = 4 := by
  unfold u32_bytes
  split_ifs <;> rfl

/-- The buffer after the eight stores: the confirmation code has replaced both
copies of `procon`. -/
theorem ucp0_buf_words (t : Target) (fb : xmc4xxx_flash_bank) (procon : Nat) :
    ucp0_buf t fb procon =
      ([FLASH_PROTECT_CONFIRMATION_CODE, 0, FLASH_PROTECT_CONFIRMATION_CODE, 0,
        fb.pw1, fb.pw2, fb.pw1, fb.pw2].map (u32_bytes t)).flatten := by
  unfold ucp0_buf target_buffer_set_u32 u32_bytes
  cases t.little_endian <;> simp [List.replicate]


theorem proin_of_clear (level : Int) (status : Nat)
    (hclear : (level = 0 → status.testBit 21 = false ∧ status.testBit 18 = false) ∧
      (level = 1 → status.testBit 22 = false) ∧ (level = 2 → status.testBit 23 = false)) :
    proin level status = false := by
  obtain ⟨h0, h1, h2⟩ := hclear
  unfold proin
  by_cases l0 : level = 0
  · have hr : status &&& FSR_RPROIN_MASK = 0 := by
      rw [FSR_RPROIN_MASK, FSR_RPROIN, and_bit_eq_zero]; exact (h0 l0).2
    have hw : status &&& FSR_WPROIN0_MASK = 0 := by
      rw [FSR_WPROIN0_MASK, FSR_WPROIN0, and_bit_eq_zero]; exact (h0 l0).1
    rw [if_pos l0, hr, hw]
    decide
  · rw [if_neg l0]
    by_cases l1 : level = 1
    · have hw : status &&& FSR_WPROIN1_MASK = 0 := by
        rw [FSR_WPROIN1_MASK, FSR_WPROIN1, and_bit_eq_zero]; exact h1 l1
      rw [if_pos l1, hw]
      decide
    · rw [if_neg l1]
      by_cases l2 : level = 2
      · have hw : status &&& FSR_WPROIN2_MASK = 0 := by
          rw [FSR_WPROIN2_MASK, FSR_WPROIN2, and_bit_eq_zero]; exact h2 l2
        rw [if_pos l2, hw]
        decide
      · rw [if_neg l2]

theorem result_eta (w : Retval × List Event) :
    (if w.1 ≠ ERROR_OK then some (w.1, w.2) else some (ERROR_OK, w.2)) = some w := by
  obtain ⟨r, tr⟩ := w
  by_cases h : r = ERROR_OK <;> simp [h]

theorem flash_protect_procon_none_iff (bank : flash_bank) (read_protect : Bool)
    (first last : Nat) :
    flash_protect_procon bank read_protect first last = none ↔
      (if bank.num_sectors = 12 ∧ last = 12 then last - 1 else last) + 1 ≥ 2 ^ 32 := by
  unfold flash_protect_procon procon_loop
  simp only [U32]
  split_ifs <;> simp_all

/-- C20: for level 0, 1 or 2 with the level's protection-installed bit clear in
the status value read, and for every `first`, `last`, `read_protect` and stored
passwords, `xmc4xxx_flash_protect` either stops at one of its two earlier exits
without calling the block writer (read protection asked for on level 1 or 2;
the loop over the range never ending at `last = 2^32 - 1`), or it returns the
result of `xmc4xxx_write_block` called with the 32 bytes of the eight words
[0x8AFE15C3, 0, 0x8AFE15C3, 0, pw1, pw2, pw1, pw2] in target byte order,
bank-relative offset 0x000, 0x400 or 0x800 for level 0, 1 or 2, and a count
of 4 flash-word units. -/
theorem flash_protect_data (t : Target) (code : List Nat) (tr : List Event)
    (bank : flash_bank) (level : Int) (read_protect : Bool) (first last status : Nat)
    (hlevel : level = 0 ∨ level = 1 ∨ level = 2)
    (hread : t.read_u32 tr FLASH_REG_FLASH0_FSR = (ERROR_OK, status))
    (hclear : (level = 0 → status.testBit 21 = false ∧ status.testBit 18 = false) ∧
      (level = 1 → status.testBit 22 = false) ∧ (level = 2 → status.testBit 23 = false)) :
    xmc4xxx_flash_protect t code tr bank level read_protect first last =
      if level ≠ 0 ∧ read_protect = true then some (ERROR_FAIL, tr)
      else if (if bank.num_sectors = 12 ∧ last = 12 then last - 1 else last) + 1 ≥ 2 ^ 32 then
        none
      else
        some (xmc4xxx_write_block t code (tr ++ [Event.read_u32 FLASH_REG_FLASH0_FSR]) bank
          (([0x8AFE15C3, 0, 0x8AFE15C3, 0, bank.driver_priv.pw1, bank.driver_priv.pw2,
            bank.driver_priv.pw1, bank.driver_priv.pw2].map (u32_bytes t)).flatten)
          (if level = 0 then 0x000 else if level = 1 then 0x400 else 0x800) 4) := by
  have hp := proin_of_clear level status hclear
  have hbase : ucb_base level = if level = 0 then 0x000 else if level = 1 then 0x400 else 0x800 := by
    rcases hlevel with h | h | h <;> subst h <;> rfl
  unfold xmc4xxx_flash_protect
  by_cases hc : level ≠ 0 ∧ read_protect = true
  · rw [if_pos hc, if_pos hc]
  · rw [if_neg hc, if_neg hc]
    simp only [xmc4xxx_get_flash_status, target_read_u32, hread, hp, ne_eq, not_true_eq_false,
      if_false, Bool.false_eq_true]
    by_cases hn : (if bank.num_sectors = 12 ∧ last = 12 then last - 1 else last) + 1 ≥ 2 ^ 32
    · rw [if_pos hn, (flash_protect_procon_none_iff bank read_protect first last).2 hn]
    · rw [if_neg hn]
      cases hpr : flash_protect_procon bank read_protect first last with
      | none => exact absurd ((flash_protect_procon_none_iff bank read_protect first last).1 hpr) hn
      | some procon =>
        have h4 : 8 * 4 / XMC4XXX_FLASH_WORD_SIZE = 4 := rfl
        simp only [ucp0_buf_words, hbase, FLASH_PROTECT_CONFIRMATION_CODE, h4]
        exact result_eta _

/-- Witness for C20: level 2, sectors 0..3, passwords 5 and 6, on the probed
XMC4500 bank with no protection installed. -/
theorem flash_protect_data_witness :
    xmc4xxx_flash_protect (static_target true (status_regs 0) 4096) [] []
        (xmc4500_bank_pw 5 6) 2 false 0 3 =
      if (2 : Int) ≠ 0 ∧ false = true then some (ERROR_FAIL, [])
      else if (if (xmc4500_bank_pw 5 6).num_sectors = 12 ∧ 3 = 12 then 3 - 1 else 3) + 1 ≥ 2 ^ 32
        then none
      else
        some (xmc4xxx_write_block (static_target true (status_regs 0) 4096) []
          ([] ++ [Event.read_u32 FLASH_REG_FLASH0_FSR]) (xmc4500_bank_pw 5 6)
          (([0x8AFE15C3, 0, 0x8AFE15C3, 0, (xmc4500_bank_pw 5 6).driver_priv.pw1,
            (xmc4500_bank_pw 5 6).driver_priv.pw2, (xmc4500_bank_pw 5 6).driver_priv.pw1,
            (xmc4500_bank_pw 5 6).driver_priv.pw2].map
              (u32_bytes (static_target true (status_regs 0) 4096))).flatten)
          (if (2 : Int) = 0 then 0x000 else if (2 : Int) = 1 then 0x400 else 0x800) 4) :=
  flash_protect_data (static_target true (status_regs 0) 4096) [] [] (xmc4500_bank_pw 5 6) 2
    false 0 3 0 (Or.inr (Or.inr rfl)) rfl
    ⟨fun h => absurd h (by decide), fun h => absurd h (by decide), fun _ => by decide⟩

/-! ## Protection check on banks without the shared bit -/

/-- C21: on the probed 16-sector bank with PROCON0 = 0x400 (bit 10 only) and
PROCON1 = PROCON2 = 0, `xmc4xxx_protect_check` succeeds and leaves
`is_protected = 1` in sector 11 as well as in sector 10, although bit 11 is
clear in all three registers: the pass for `j == 10` also marks sector `j + 1`
whatever the sector count. -/
theorem protect_check_sector_11_of_16 :
    xmc4700_bank.num_sectors = 16 ∧
    (0x400 : Nat).testBit 11 = false ∧ (0 : Nat).testBit 11 = false ∧
    (xmc4xxx_protect_check (static_target true (xmc4700_regs 0x400 0 0) 0) []
      xmc4700_bank).1 = ERROR_OK ∧
    (xmc4xxx_protect_check (static_target true (xmc4700_regs 0x400 0 0) 0) []
      xmc4700_bank).2.1.sectors.map (fun s => s.is_protected) =
      [0, 0, 0, 0, 0, 0, 0, 0, 0, 0, 1, 1, 0, 0, 0, 0] := by
  refine ⟨by decide, by decide, by decide, by decide, by decide⟩

/-- The bit the check tests for sector `j`, as an integer flag. -/
theorem tested_bit (p j : Nat) (hj : j < 32) :
    (if p &&& ((1 <<< j) % U32) ≠ 0 then (1 : Int) else 0) = if p.testBit j = true then 1 else 0 := by
  have h : ((1 : Nat) <<< j) % U32 = 1 <<< j := by
    apply Nat.mod_eq_of_lt
    rw [Nat.shiftLeft_eq, one_mul]
    exact Nat.pow_lt_pow_right (by decide) hj
  rw [h]
  by_cases hb : p.testBit j = true
  · rw [if_pos hb, if_pos ((and_bit_ne_zero p j).2 hb)]
  · rw [if_neg hb, if_neg (fun hc => hb ((and_bit_ne_zero p j).1 hc))]

/-- On a bank whose sector count is not 12 the check runs its inner loop over
all sectors; every sector other than 11 ends with the or of its own tested
bits. -/
theorem own_bit_value (bank : flash_bank) (p0 p1 p2 k n : Nat)
    (hn : bank.num_sectors = n) (hlen : bank.sectors.length = n)
    (hsup : n = 8 ∨ n = 9 ∨ n = 16) (hk : k < n) (h11 : k ≠ 11) :
    ((protect_check_decode bank [p0, p1, p2]).sectors.map fun s => s.is_protected)[k]? =
      some (Int.lor (Int.lor (Int.lor 0 (if p0 &&& ((1 <<< k) % U32) ≠ 0 then 1 else 0))
        (if p1 &&& ((1 <<< k) % U32) ≠ 0 then 1 else 0))
        (if p2 &&& ((1 <<< k) % U32) ≠ 0 then 1 else 0)) := by
  have hr3 : List.range 3 = [0, 1, 2] := by decide
  have hr8 : List.range 8 = [0, 1, 2, 3, 4, 5, 6, 7] := by decide
  have hr9 : List.range 9 = [0, 1, 2, 3, 4, 5, 6, 7, 8] := by decide
  have hr16 : List.range 16 = [0, 1, 2, 3, 4, 5, 6, 7, 8, 9, 10, 11, 12, 13, 14, 15] := by
    decide
  have hne : n ≠ 12 := by omega
  have hd : protect_check_decode bank [p0, p1, p2] =
      protect_check_fill n [p0, p1, p2] (protection_blank n bank) := by
    unfold protect_check_decode
    simp only [hn, hne, if_false]
    rw [clear_eq_blank bank (by omega), hn]
  have hlt : k < bank.sectors.length := by omega
  have hget : bank.sectors[k]? = some bank.sectors[k] := List.getElem?_eq_getElem hlt
  rw [hd, fill_sectors, hr3]
  rcases hsup with rfl | rfl | rfl
  · rw [hr8]
    simp only [List.foldl_cons, List.foldl_nil, List.getElem?_map, step_sectors_getElem?]
    interval_cases k <;> simp [protection_blank, hget]
  · rw [hr9]
    simp only [List.foldl_cons, List.foldl_nil, List.getElem?_map, step_sectors_getElem?]
    interval_cases k <;> simp [protection_blank, hget]
  · rw [hr16]
    simp only [List.foldl_cons, List.foldl_nil, List.getElem?_map, step_sectors_getElem?]
    interval_cases k <;> first | exact absurd rfl h11 | simp [protection_blank, hget]

/-! ## Status classification after the erase sequence -/

/-- C22: when the six writes of the erase sequence succeed and the status read
that follows succeeds with value `status`, `xmc4xxx_erase_sector` returns
`ERROR_FAIL` with that read as its last access if bit 10 (sequence error) is
set or bit 5 (erase active) is clear, and otherwise returns exactly what
`xmc4xxx_wait_status_busy` returns when called with a budget of 5000 right
after that read. -/
theorem erase_sector_status (t : Target) (tr : List Event) (bank : flash_bank) (a : Nat)
    (user_config : Bool) (status : Nat)
    (hw : ∀ j e, (erase_cmd_seq bank a user_config)[j]? = some e →
      t.write_u32 (tr ++ command_events ((erase_cmd_seq bank a user_config).take j))
        e.address e.magic = ERROR_OK)
    (hs : t.read_u32 (tr ++ command_events (erase_cmd_seq bank a user_config))
      FLASH_REG_FLASH0_FSR = (ERROR_OK, status)) :
    ((status.testBit 10 = true ∨ status.testBit 5 = false) →
      xmc4xxx_erase_sector t tr bank a user_config =
        (ERROR_FAIL, tr ++ command_events (erase_cmd_seq bank a user_config) ++
          [Event.read_u32 FLASH_REG_FLASH0_FSR])) ∧
    ((status.testBit 10 = false ∧ status.testBit 5 = true) →
      xmc4xxx_erase_sector t tr bank a user_config =
        xmc4xxx_wait_status_busy t 5000
          (tr ++ command_events (erase_cmd_seq bank a user_config) ++
            [Event.read_u32 FLASH_REG_FLASH0_FSR])) := by
  have hseq := write_command_sequence_ok t (erase_cmd_seq bank a user_config) tr hw
  have hsq : status &&& FSR_SQER_MASK ≠ 0 ↔ status.testBit 10 = true := by
    rw [FSR_SQER_MASK, FSR_SQER, and_bit_ne_zero]
  have her : status &&& FSR_ERASE_MASK = 0 ↔ status.testBit 5 = false := by
    rw [FSR_ERASE_MASK, FSR_ERASE, and_bit_eq_zero]
  unfold xmc4xxx_erase_sector
  simp only [hseq, target_read_u32, hs, ne_eq, not_true_eq_false, if_false]
  constructor
  · intro h
    by_cases h10 : status &&& FSR_SQER_MASK ≠ 0
    · rw [if_pos h10]
    · rw [if_neg h10]
      have h5 : status &&& FSR_ERASE_MASK = 0 := by
        rcases h with h | h
        · exact absurd (hsq.2 h) h10
        · exact her.2 h
      rw [if_pos h5]
  · rintro ⟨h10, h5⟩
    have n10 : ¬ (status &&& FSR_SQER_MASK ≠ 0) := by
      intro hc
      rw [hsq.1 hc] at h10
      exact Bool.noConfusion h10
    have n5 : ¬ (status &&& FSR_ERASE_MASK = 0) := by
      intro hc
      rw [her.1 hc] at h5
      exact Bool.noConfusion h5
    rw [if_neg n10, if_neg n5]
    rfl

/-- Witness for C22: erase of the first sector of the probed XMC4500 bank with
the status register reading 0x20 (erase active, no sequence error). -/
theorem erase_sector_status_witness :
    (0x20 : Nat).testBit 10 = false ∧ (0x20 : Nat).testBit 5 = true ∧
    xmc4xxx_erase_sector (static_target true (status_regs 0x20) 0) [] xmc4500_bank
        0x0C000000 false =
      xmc4xxx_wait_status_busy (static_target true (status_regs 0x20) 0) 5000
        ([] ++ command_events (erase_cmd_seq xmc4500_bank 0x0C000000 false) ++
          [Event.read_u32 FLASH_REG_FLASH0_FSR]) :=
  ⟨by decide, by decide,
   (erase_sector_status (static_target true (status_regs 0x20) 0) [] xmc4500_bank 0x0C000000
     false 0x20 (fun _ _ _ => rfl) rfl).2 ⟨by decide, by decide⟩⟩

/-! ## Size of the data buffer of the block write -/

/-- The mask `~(XMC4XXX_FLASH_WORD_SIZE - 1)` rounds a 32-bit value down to a
multiple of 8. -/
theorem and_word_mask (x : Nat) (hx : x < U32) :
    x &&& (U32 - XMC4XXX_FLASH_WORD_SIZE) = 8 * (x / 8) := by
  apply Nat.eq_of_testBit_eq
  intro i
  have hm : U32 - XMC4XXX_FLASH_WORD_SIZE = 2 ^ 32 - (7 + 1) := by decide
  have h7 : (7 : Nat) = 2 ^ 3 - 1 := by decide
  have h8 : (8 : Nat) = 2 ^ 3 := by decide
  rw [Nat.testBit_and, hm, Nat.testBit_two_pow_sub_succ (by decide), h7,
    Nat.testBit_two_pow_sub_one, h8, Nat.testBit_mul_pow_two, ← Nat.shiftRight_eq_div_pow,
    Nat.testBit_shiftRight]
  by_cases h3 : 3 ≤ i
  · have e : 3 + (i - 3) = i := by omega
    by_cases h32 : i < 32
    · simp [h3, h32, e]
    · have hf : x.testBit i = false :=
        Nat.testBit_lt_two_pow (lt_of_lt_of_le hx (Nat.pow_le_pow_right (by decide) (by omega)))
      simp [h3, h32, e, hf]
  · have : i < 3 := by omega
    simp [h3, this]

/-- For an available size of at least the work-area header, the request
`xmc4xxx_write_block` derives stays inside the available area: the size before
the cap is the available size less 108 rounded down to a multiple of 8, and
the capped size is a multiple of 8 between 256 and 16384 which, with the
header, does not exceed the available size. -/
theorem buffer_size_fits (avail : Nat) (h108 : 108 ≤ avail) (h32 : avail < U32) :
    ((avail + U32 - sizeof_xmc4xxx_work_area % U32) % U32) &&&
        (U32 - XMC4XXX_FLASH_WORD_SIZE) = 8 * ((avail - 108) / 8) ∧
    (256 ≤ 8 * ((avail - 108) / 8) →
      (if 8 * ((avail - 108) / 8) > 16 * 1024 then 16 * 1024 else 8 * ((avail - 108) / 8)) % 8 = 0 ∧
      256 ≤ (if 8 * ((avail - 108) / 8) > 16 * 1024 then 16 * 1024 else 8 * ((avail - 108) / 8)) ∧
      (if 8 * ((avail - 108) / 8) > 16 * 1024 then 16 * 1024 else 8 * ((avail - 108) / 8)) ≤ 16384 ∧
      (if 8 * ((avail - 108) / 8) > 16 * 1024 then 16 * 1024 else 8 * ((avail - 108) / 8)) +
        sizeof_xmc4xxx_work_area ≤ avail) := by
  have hsz : sizeof_xmc4xxx_work_area = 108 := by decide
  have hU : U32 = 4294967296 := by decide
  have hx : (avail + U32 - sizeof_xmc4xxx_work_area % U32) % U32 = avail - 108 := by
    rw [hsz, hU]
    omega
  constructor
  · rw [hx]
    exact and_word_mask _ (by rw [hU]; omega)
  · intro h
    rw [hsz]
    split_ifs <;> omega

/-- C26 (code evaluated at a failing input): with 100 bytes of working area
reported free, less than the 108-byte header, the subtraction wraps, the size
passes the test against 256 and is capped to 16384, and `xmc4xxx_write_block`
asks for 16384 + 108 = 16492 bytes; it does not return
resource-not-available before the request. -/
theorem write_block_small_area :
    ((static_target true (status_regs 0) 100).get_working_area_avail [] = 100) ∧
    (xmc4xxx_write_block (static_target true (status_regs 0) 100) [0xbe, 0] [] xmc4500_bank
      [1, 2, 3, 4, 5, 6, 7, 8] 0 1).2.take 4 =
      [Event.alloc_working_area 2, Event.write_buffer 0x20000000 2 [0xbe, 0],
       Event.get_working_area_avail, Event.alloc_working_area_try 16492] := by
  refine ⟨by decide, by decide⟩

/-! ## Array bounds in the protection check -/

/-- C27 (code evaluated at a failing input): on the probed 16-sector bank
`xmc4xxx_protect_check` writes the OTP flags at indices 12 to 15, beyond the
`MAX_XMC_SECTORS = 12` entries of the array.  With PROCON0/1/2 all zero and
the memory at every flag index holding `true` beforehand, indices 12 to 15
hold `false` afterwards (the clearing loop runs to the sector count); with
PROCON2 = 0xF000 they are set to `true` from `false`. -/
theorem protect_check_otp_index :
    MAX_XMC_SECTORS = 12 ∧ xmc4700_bank.num_sectors = 16 ∧
    (List.range 16).map
      (xmc4xxx_protect_check (static_target true (xmc4700_regs 0 0 0) 0) []
        { xmc4700_bank with
          driver_priv :=
            { xmc4700_bank.driver_priv with write_prot_otp := fun _ => true } }
        ).2.1.driver_priv.write_prot_otp =
      [false, false, false, false, false, false, false, false, false, false, false, false,
       false, false, false, false] ∧
    (List.range 16).map xmc4700_bank.driver_priv.write_prot_otp =
      [false, false, false, false, false, false, false, false, false, false, false, false,
       false, false, false, false] ∧
    (List.range 16).map
      (xmc4xxx_protect_check (static_target true (xmc4700_regs 0 0 0xF000) 0) []
        xmc4700_bank).2.1.driver_priv.write_prot_otp =
      [false, false, false, false, false, false, false, false, false, false, false, false,
       true, true, true, true] := by
  refine ⟨by decide, by decide, by decide, by decide, by decide⟩

/-! ## Sector index check -/

/-- C28 (code evaluated at a failing input): on the probed 12-sector bank
`xmc4xxx_get_sector_start_addr` succeeds for sector 12, one past the last
table entry (here the word behind the table reads as zero, giving the bank
base), while it fails for sector 13; `xmc4xxx_erase` of the range 12..12
accordingly goes on to issue the erase sequence instead of failing on an
invalid sector. -/
theorem sector_index_off_by_one :
    xmc4500_bank.num_sectors = 12 ∧ xmc4500_bank.sectors.length = 12 ∧
    xmc4xxx_get_sector_start_addr xmc4500_bank 12 = some 0x0C000000 ∧
    xmc4xxx_get_sector_start_addr xmc4500_bank 13 = none ∧
    (xmc4xxx_erase (static_target true (status_regs 0x20) 0) [] xmc4500_bank 12 12).1 =
      ERROR_OK ∧
    (xmc4xxx_erase (static_target true (status_regs 0x20) 0) [] xmc4500_bank 12 12).2.2 =
      [Event.write_u32 0x0C005554 0xAA, Event.write_u32 0x0C00AAA8 0x55,
       Event.write_u32 0x0C005554 0x80, Event.write_u32 0x0C005554 0xAA,
       Event.write_u32 0x0C00AAA8 0x55, Event.write_u32 0x0C000000 0x30,
       Event.read_u32 FLASH_REG_FLASH0_FSR, Event.read_u32 FLASH_REG_FLASH0_FSR,
       Event.read_u32 FLASH_REG_FLASH0_FSR, Event.write_u32 0x0C005554 0xF5] ∧
    (xmc4xxx_erase (static_target true (status_regs 0x20) 0) [] xmc4500_bank 13 13).1 =
      ERROR_FAIL ∧
    (xmc4xxx_erase (static_target true (status_regs 0x20) 0) [] xmc4500_bank 13 13).2.2 = [] := by
  refine ⟨by decide, by decide, by decide, by decide, by decide, by decide, by decide, by decide⟩

/-! ## The installed data does not depend on the sector range -/

/-- The buffer handed to the block writer does not depend on the procon value
computed from the sector range and the read-protect flag. -/
theorem ucp0_buf_const (t : Target) (fb : xmc4xxx_flash_bank) (procon procon' : Nat) :
    ucp0_buf t fb procon = ucp0_buf t fb procon' := by
  rw [ucp0_buf_words, ucp0_buf_words]

/-- Two calls of `xmc4xxx_flash_protect` that both return and that agree in
everything except the sector range, and except `read_protect` on level 0,
return the same result with the same accesses. -/
theorem flash_protect_range_free (t : Target) (code : List Nat) (tr : List Event)
    (bank : flash_bank) (level : Int) (read_protect read_protect' : Bool)
    (first last first' last' : Nat) (h : level = 0 ∨ read_protect = read_protect') :
    xmc4xxx_flash_protect t code tr bank level read_protect first last = none ∨
    xmc4xxx_flash_protect t code tr bank level read_protect' first' last' = none ∨
    xmc4xxx_flash_protect t code tr bank level read_protect first last =
      xmc4xxx_flash_protect t code tr bank level read_protect' first' last' := by
  have hg : (level ≠ 0 ∧ read_protect = true) ↔ (level ≠ 0 ∧ read_protect' = true) := by
    rcases h with h | h
    · simp [h]
    · rw [h]
  unfold xmc4xxx_flash_protect
  by_cases hc : level ≠ 0 ∧ read_protect = true
  · rw [if_pos hc, if_pos (hg.1 hc)]
    exact Or.inr (Or.inr rfl)
  · rw [if_neg hc, if_neg (fun hc' => hc (hg.2 hc'))]
    simp only []
    by_cases hs : (xmc4xxx_get_flash_status t tr).1 ≠ ERROR_OK
    · rw [if_pos hs, if_pos hs]
      exact Or.inr (Or.inr rfl)
    · rw [if_neg hs, if_neg hs]
      by_cases hp : proin level (xmc4xxx_get_flash_status t tr).2.1 = true
      · rw [if_pos hp, if_pos hp]
        exact Or.inr (Or.inr rfl)
      · rw [if_neg hp, if_neg hp]
        cases flash_protect_procon bank read_protect first last with
        | none => exact Or.inl rfl
        | some procon =>
          cases flash_protect_procon bank read_protect' first' last' with
          | none => exact Or.inr (Or.inl rfl)
          | some procon' =>
            refine Or.inr (Or.inr ?_)
            simp only [ucp0_buf_const t bank.driver_priv procon procon']

/-- C30: for every level, passwords and flash status, the buffer
`xmc4xxx_flash_protect` builds is the same whatever procon value the sector
range and the read-protect flag produce, and two calls that differ only in the
sector range, or on level 0 in `read_protect`, give the same result with the
same accesses (so the same data at the same address reach the block writer)
unless one of them never returns; the same holds for two calls of
`xmc4xxx_protect` with a non-zero `set` that differ only in the sector
range. -/
theorem protect_data_range_independent (t : Target) (code : List Nat) (tr : List Event)
    (bank : flash_bank) (level set : Int) (read_protect read_protect' : Bool)
    (first last first' last' : Nat) (h : level = 0 ∨ read_protect = read_protect')
    (hset : set ≠ 0) :
    (∀ procon procon', ucp0_buf t bank.driver_priv procon = ucp0_buf t bank.driver_priv procon') ∧
    (xmc4xxx_flash_protect t code tr bank level read_protect first last = none ∨
      xmc4xxx_flash_protect t code tr bank level read_protect' first' last' = none ∨
      xmc4xxx_flash_protect t code tr bank level read_protect first last =
        xmc4xxx_flash_protect t code tr bank level read_protect' first' last') ∧
    (xmc4xxx_protect t code tr bank set first last = none ∨
      xmc4xxx_protect t code tr bank set first' last' = none ∨
      xmc4xxx_protect t code tr bank set first last =
        xmc4xxx_protect t code tr bank set first' last') := by
  refine ⟨fun p p' => ucp0_buf_const t bank.driver_priv p p',
    flash_protect_range_free t code tr bank level read_protect read_protect' first last first'
      last' h, ?_⟩
  unfold xmc4xxx_protect
  by_cases hpw : ¬ bank.driver_priv.pw_set = true
  · rw [if_pos hpw, if_pos hpw]
    exact Or.inr (Or.inr rfl)
  · rw [if_neg hpw, if_neg hpw, if_neg hset, if_neg hset]
    exact flash_protect_range_free t code tr bank 0 false false first last first' last'
      (Or.inl rfl)

/-- Witness for C30: level 0 on the probed XMC4500 bank with passwords 5 and
6, once for sectors 0..3 without read protection and once for sectors 4..9
with it; both calls return, so the results coincide. -/
theorem protect_data_range_independent_witness :
    ((0 : Int) = 0 ∨ false = true) ∧ (1 : Int) ≠ 0 ∧
    (xmc4xxx_flash_protect (static_target true (status_regs 0) 4096) [] []
      (xmc4500_bank_pw 5 6) 0 false 0 3).isSome = true ∧
    (xmc4xxx_flash_protect (static_target true (status_regs 0) 4096) [] []
      (xmc4500_bank_pw 5 6) 0 true 4 9).isSome = true ∧
    (∀ procon procon',
      ucp0_buf (static_target true (status_regs 0) 4096) (xmc4500_bank_pw 5 6).driver_priv procon =
        ucp0_buf (static_target true (status_regs 0) 4096) (xmc4500_bank_pw 5 6).driver_priv
          procon') ∧
    (xmc4xxx_flash_protect (static_target true (status_regs 0) 4096) [] []
        (xmc4500_bank_pw 5 6) 0 false 0 3 = none ∨
      xmc4xxx_flash_protect (static_target true (status_regs 0) 4096) [] []
        (xmc4500_bank_pw 5 6) 0 true 4 9 = none ∨
      xmc4xxx_flash_protect (static_target true (status_regs 0) 4096) [] []
          (xmc4500_bank_pw 5 6) 0 false 0 3 =
        xmc4xxx_flash_protect (static_target true (status_regs 0) 4096) [] []
          (xmc4500_bank_pw 5 6) 0 true 4 9) ∧
    (xmc4xxx_protect (static_target true (status_regs 0) 4096) [] []
        (xmc4500_bank_pw 5 6) 1 0 3 = none ∨
      xmc4xxx_protect (static_target true (status_regs 0) 4096) [] []
        (xmc4500_bank_pw 5 6) 1 4 9 = none ∨
      xmc4xxx_protect (static_target true (status_regs 0) 4096) [] []
          (xmc4500_bank_pw 5 6) 1 0 3 =
        xmc4xxx_protect (static_target true (status_regs 0) 4096) [] []
          (xmc4500_bank_pw 5 6) 1 4 9) :=
  ⟨Or.inl rfl, by decide, by decide, by decide,
   protect_data_range_independent (static_target true (status_regs 0) 4096) [] []
     (xmc4500_bank_pw 5 6) 0 1 false true 0 3 4 9 (Or.inl rfl) (by decide)⟩

/-! ## The routine on the target: one unit -/

/-- The busy wait only adds reads of the status register. -/
theorem spin_busy_reads (bus : Bus) :
    ∀ (fuel : Nat) (tr tr' : List Event), spin_busy bus fuel tr = some tr' →
      ∃ k, tr' = tr ++ List.replicate (k + 1) (Event.read_u32 FLASH_REG_FLASH0_FSR) := by
  intro fuel
  induction fuel with
  | zero =>
    intro tr tr' h
    simp [spin_busy] at h
  | succ n ih =>
    intro tr tr' h
    rw [spin_busy] at h
    split_ifs at h with hb
    · obtain ⟨k, hk⟩ := ih _ _ h
      refine ⟨k + 1, ?_⟩
      rw [hk, List.append_assoc]
      rfl
    · refine ⟨0, ?_⟩
      injection h with h
      exact h.symm

/-- With the controller idle at the first look the busy wait is one read. -/
theorem spin_busy_idle (bus : Bus) (fuel : Nat) (tr : List Event)
    (hidle : bus.load tr FLASH_REG_FLASH0_FSR &&& FLASH_FSR_PBUSY_Msk = 0) :
    spin_busy bus (fuel + 1) tr = some (tr ++ [Event.read_u32 FLASH_REG_FLASH0_FSR]) := by
  rw [spin_busy, if_neg (fun hc => hc hidle)]

/-- What one pass of the inner loop does when it completes: the new read
pointer, the new count, the page index and destination, and the shape of the
accesses added, which end with the store of the new read pointer to
`fifo.rp`. -/
theorem consume_unit_some (bus : Bus) (work_area fifo_start fifo_end fuel : Nat)
    (s s' : loader_state)
    (h : consume_unit bus work_area fifo_start fifo_end fuel s = some s') :
    s'.rp_cache =
      (if (s.rp_cache + 8) % U32 ≥ fifo_end then fifo_start else (s.rp_cache + 8) % U32) ∧
    s'.count = (s.count + U32 - 1) % U32 ∧
    ((s.idx + 2) % U32 = 64 → s'.idx = 0 ∧ s'.target_address = (s.target_address + 256) % U32) ∧
    ((s.idx + 2) % U32 ≠ 64 → s'.idx = (s.idx + 2) % U32 ∧ s'.target_address = s.target_address) ∧
    ∃ added, s'.trace = s.trace ++ added ++ [Event.write_u32 (work_area + 104) s'.rp_cache] ∧
      ∀ a, Event.read_u32 a ∈ added →
        a = s.rp_cache ∨ a = (s.rp_cache + 4) % U32 ∨ a = FLASH_REG_FLASH0_FSR := by
  have htr1 : ∃ pre, (if s.idx = 0 then
        s.trace ++ XMC_FLASH_lClearStatusCommand ++ XMC_FLASH_lEnterPageModeCommand
      else s.trace) = s.trace ++ pre ∧ ∀ a, Event.read_u32 a ∉ pre := by
    by_cases h0 : s.idx = 0
    · refine ⟨XMC_FLASH_lClearStatusCommand ++ XMC_FLASH_lEnterPageModeCommand, ?_, ?_⟩
      · rw [if_pos h0, List.append_assoc]
      · intro a
        simp [XMC_FLASH_lClearStatusCommand, XMC_FLASH_lEnterPageModeCommand]
    · exact ⟨[], by rw [if_neg h0, List.append_nil], fun a => List.not_mem_nil _⟩
  obtain ⟨pre, hpre, hnr⟩ := htr1
  unfold consume_unit at h
  simp only [] at h
  rw [hpre] at h
  generalize bus.load (s.trace ++ pre) s.rp_cache = lo at h
  generalize bus.load (s.trace ++ pre ++ [Event.read_u32 s.rp_cache]) ((s.rp_cache + 4) % U32) =
    hi at h
  by_cases hp : (s.idx + 2) % U32 = XMC_FLASH_WORDS_PER_PAGE
  · have hp64 : (s.idx + 2) % U32 = 64 := hp
    rw [if_pos hp] at h
    cases hsp : spin_busy bus fuel
      (s.trace ++ pre ++ [Event.read_u32 s.rp_cache, Event.read_u32 ((s.rp_cache + 4) % U32)] ++
        XMC_FLASH_lLoadPageCommand lo hi ++ XMC_FLASH_lWritePageCommand s.target_address) with
    | none =>
      rw [hsp] at h
      exact Option.noConfusion h
    | some tr3 =>
      rw [hsp] at h
      obtain ⟨k, hk⟩ := spin_busy_reads bus _ _ _ hsp
      simp only [Option.some.injEq] at h
      subst h
      refine ⟨rfl, rfl, fun _ => ⟨rfl, by simp only [hp64]⟩, fun hc => absurd hp64 hc, ?_⟩
      refine ⟨pre ++ [Event.read_u32 s.rp_cache, Event.read_u32 ((s.rp_cache + 4) % U32)] ++
        XMC_FLASH_lLoadPageCommand lo hi ++ XMC_FLASH_lWritePageCommand s.target_address ++
        List.replicate (k + 1) (Event.read_u32 FLASH_REG_FLASH0_FSR), ?_, ?_⟩
      · simp only [hk, List.append_assoc]
        rfl
      · intro a ha
        have hn := hnr a
        simp [XMC_FLASH_lLoadPageCommand, XMC_FLASH_lWritePageCommand, hn] at ha
        tauto
  · have hp64 : (s.idx + 2) % U32 ≠ 64 := hp
    rw [if_neg hp] at h
    simp only [Option.some.injEq] at h
    subst h
    refine ⟨rfl, rfl, fun hc => absurd hc hp64, fun _ => ⟨rfl, rfl⟩, ?_⟩
    refine ⟨pre ++ [Event.read_u32 s.rp_cache, Event.read_u32 ((s.rp_cache + 4) % U32)] ++
      XMC_FLASH_lLoadPageCommand lo hi, ?_, ?_⟩
    · simp only [List.append_assoc]
      rfl
    · intro a ha
      have hn := hnr a
      simp [XMC_FLASH_lLoadPageCommand, hn] at ha
      tauto

/-- The pass completes whenever it does not fill the page: only the busy wait
after a write-page command can keep it from finishing. -/
theorem consume_unit_no_page (bus : Bus) (work_area fifo_start fifo_end fuel : Nat)
    (s : loader_state) (hp : (s.idx + 2) % U32 ≠ 64) :
    ∃ s', consume_unit bus work_area fifo_start fifo_end fuel s = some s' := by
  unfold consume_unit
  simp only []
  rw [if_neg (show ¬ (s.idx + 2) % U32 = XMC_FLASH_WORDS_PER_PAGE from hp)]
  exact ⟨_, rfl⟩

/-- C24: for a fifo with `fifo_start <= rp < fifo_end` (32-bit addresses),
`fifo_end - fifo_start` and `rp - fifo_start` multiples of 8, every pass of
the inner loop that completes leaves the read pointer at `rp + 8` if
`rp + 8 < fifo_end` and at `fifo_start` otherwise, ends with the store of that
value to `fifo.rp` (the word at `work_area + 104`), and keeps
`fifo_start <= rp < fifo_end` with `rp - fifo_start` a multiple of 8; a pass
that does not fill the page always completes. -/
theorem read_pointer_advance (bus : Bus) (work_area fifo_start fifo_end fuel : Nat)
    (s : loader_state)
    (hlo : fifo_start ≤ s.rp_cache) (hhi : s.rp_cache < fifo_end) (hend : fifo_end < 2 ^ 32)
    (hsize : (fifo_end - fifo_start) % 8 = 0) (halign : (s.rp_cache - fifo_start) % 8 = 0) :
    (∀ s', consume_unit bus work_area fifo_start fifo_end fuel s = some s' →
      s'.rp_cache = (if s.rp_cache + 8 < fifo_end then s.rp_cache + 8 else fifo_start) ∧
      s'.trace.getLast? = some (Event.write_u32 (work_area + 104) s'.rp_cache) ∧
      fifo_start ≤ s'.rp_cache ∧ s'.rp_cache < fifo_end ∧
      (s'.rp_cache - fifo_start) % 8 = 0) ∧
    ((s.idx + 2) % U32 ≠ 64 →
      ∃ s', consume_unit bus work_area fifo_start fifo_end fuel s = some s') := by
  refine ⟨?_, consume_unit_no_page bus work_area fifo_start fifo_end fuel s⟩
  intro s' h
  obtain ⟨hrp, -, -, -, added, htr, -⟩ :=
    consume_unit_some bus work_area fifo_start fifo_end fuel s s' h
  have hU : U32 = 4294967296 := by decide
  have hmod : (s.rp_cache + 8) % U32 = s.rp_cache + 8 := by
    rw [hU]
    omega
  rw [hmod] at hrp
  have hrp' : s'.rp_cache = if s.rp_cache + 8 < fifo_end then s.rp_cache + 8 else fifo_start := by
    rw [hrp]
    by_cases hc : s.rp_cache + 8 < fifo_end
    · rw [if_pos hc, if_neg (by omega)]
    · rw [if_neg hc, if_pos (by omega)]
  refine ⟨hrp', ?_, ?_⟩
  · rw [htr]
    simp
  · rw [hrp']
    by_cases hc : s.rp_cache + 8 < fifo_end
    · rw [if_pos hc]
      omega
    · rw [if_neg hc]
      omega

/-- Witness for C24: the last slot of a 64-byte fifo at 0x2000106C; the read
pointer 0x200010A4 wraps to the start. -/
theorem read_pointer_advance_witness :
    ∃ s', consume_unit (filled_fifo_bus 0x20001000 0x2000106C 8 (fun a => a)) 0x20001000
        0x2000106C 0x200010AC 10
        { rp_cache := 0x200010A4, target_address := 0x0C000000, idx := 14, count := 1,
          trace := [] } = some s' ∧
      s'.rp_cache = (if 0x200010A4 + 8 < 0x200010AC then 0x200010A4 + 8 else 0x2000106C) ∧
      s'.trace.getLast? = some (Event.write_u32 (0x20001000 + 104) s'.rp_cache) ∧
      0x2000106C ≤ s'.rp_cache ∧ s'.rp_cache < 0x200010AC ∧
      (s'.rp_cache - 0x2000106C) % 8 = 0 :=
  ⟨_, rfl,
   (read_pointer_advance (filled_fifo_bus 0x20001000 0x2000106C 8 (fun a => a)) 0x20001000
     0x2000106C 0x200010AC 10
     { rp_cache := 0x200010A4, target_address := 0x0C000000, idx := 14, count := 1,
       trace := [] }
     (by decide) (by decide) (by decide) (by decide) (by decide)).1 _ rfl⟩

/-! ## The routine on the target: one drain pass -/

/-- Reads of a drain pass: while the bytes still to take fit between the read
pointer and `hi`, every word the pass reads, other than the status register,
lies in `[lo, hi)`. -/
theorem write_inner_reads (bus : Bus) (work_area fifo_start fifo_end lo hi : Nat)
    (hhi : hi ≤ fifo_end) (hend : fifo_end < 2 ^ 32) :
    ∀ (fuel : Nat) (fifo_size : Int) (s s' : loader_state),
      write_inner bus work_area fifo_start fifo_end fuel fifo_size s = some s' →
      (fifo_size < 8 ∨ (lo ≤ s.rp_cache ∧ (s.rp_cache : Int) + fifo_size ≤ hi)) →
      ∃ added, s'.trace = s.trace ++ added ∧
        ∀ a, Event.read_u32 a ∈ added →
          a = FLASH_REG_FLASH0_FSR ∨ (lo ≤ a ∧ a + 4 ≤ hi) := by
  have hU : U32 = 4294967296 := by decide
  intro fuel
  induction fuel with
  | zero =>
    intro fifo_size s s' h
    simp [write_inner] at h
  | succ n ih =>
    intro fifo_size s s' h hinv
    rw [write_inner] at h
    by_cases hc : fifo_size ≥ (XMC4XXX_FLASH_WORD_SIZE : Int)
    · rw [if_pos hc] at h
      have hc8 : fifo_size ≥ 8 := hc
      cases hcu : consume_unit bus work_area fifo_start fifo_end n s with
      | none =>
        rw [hcu] at h
        exact Option.noConfusion h
      | some s1 =>
        rw [hcu] at h
        simp only [] at h
        obtain ⟨hrp, -, -, -, added1, htr1, hreads⟩ :=
          consume_unit_some bus work_area fifo_start fifo_end n s s1 hcu
        have hin : lo ≤ s.rp_cache ∧ (s.rp_cache : Int) + fifo_size ≤ hi := by
          rcases hinv with hinv | hinv
          · omega
          · exact hinv
        have h4 : (s.rp_cache + 4) % U32 = s.rp_cache + 4 := by
          rw [hU]
          omega
        have h8 : (s.rp_cache + 8) % U32 = s.rp_cache + 8 := by
          rw [hU]
          omega
        rw [h8] at hrp
        rw [h4] at hreads
        have hnext : fifo_size - (XMC4XXX_FLASH_WORD_SIZE : Int) < 8 ∨
            (lo ≤ s1.rp_cache ∧
              (s1.rp_cache : Int) + (fifo_size - (XMC4XXX_FLASH_WORD_SIZE : Int)) ≤ hi) := by
          have hw : (XMC4XXX_FLASH_WORD_SIZE : Int) = 8 := rfl
          rw [hw]
          by_cases hmore : fifo_size - 8 < 8
          · exact Or.inl hmore
          · right
            have hlt : ¬ (s.rp_cache + 8 ≥ fifo_end) := by omega
            rw [if_neg hlt] at hrp
            rw [hrp]
            constructor
            · omega
            · push_cast
              omega
        obtain ⟨added2, htr2, hreads2⟩ := ih _ s1 s' h hnext
        refine ⟨added1 ++ [Event.write_u32 (work_area + 104) s1.rp_cache] ++ added2, ?_, ?_⟩
        · rw [htr2, htr1]
          simp only [List.append_assoc]
        · intro a ha
          simp only [List.mem_append, List.mem_singleton, reduceCtorEq, or_false] at ha
          rcases ha with ha | ha
          · rcases hreads a ha with h1 | h1 | h1
            · right
              omega
            · right
              omega
            · exact Or.inl h1
          · exact hreads2 a ha
    · rw [if_neg hc] at h
      injection h with h
      subst h
      exact ⟨[], by simp, fun a ha => absurd ha (List.not_mem_nil _)⟩

/-- With the controller always seen idle and some fuel left, a pass of the
inner loop completes. -/
theorem consume_unit_completes (bus : Bus) (work_area fifo_start fifo_end fuel : Nat)
    (s : loader_state)
    (hidle : ∀ tr, bus.load tr FLASH_REG_FLASH0_FSR &&& FLASH_FSR_PBUSY_Msk = 0) :
    ∃ s', consume_unit bus work_area fifo_start fifo_end (fuel + 1) s = some s' := by
  unfold consume_unit
  simp only []
  by_cases hp : (s.idx + 2) % U32 = XMC_FLASH_WORDS_PER_PAGE
  · rw [if_pos hp, spin_busy_idle bus fuel _ (hidle _)]
    exact ⟨_, rfl⟩
  · rw [if_neg hp]
    exact ⟨_, rfl⟩

/-- With the controller always seen idle, a drain pass completes as soon as the
fuel exceeds the number of units to take. -/
theorem write_inner_completes (bus : Bus) (work_area fifo_start fifo_end : Nat)
    (hidle : ∀ tr, bus.load tr FLASH_REG_FLASH0_FSR &&& FLASH_FSR_PBUSY_Msk = 0) :
    ∀ (fuel : Nat) (fifo_size : Int) (s : loader_state),
      0 < fuel → fifo_size < 8 * (fuel : Int) →
      ∃ s', write_inner bus work_area fifo_start fifo_end fuel fifo_size s = some s' := by
  intro fuel
  induction fuel with
  | zero =>
    intro fifo_size s h0
    exact absurd h0 (by decide)
  | succ n ih =>
    intro fifo_size s _ hsize
    rw [write_inner]
    by_cases hc : fifo_size ≥ (XMC4XXX_FLASH_WORD_SIZE : Int)
    · rw [if_pos hc]
      have hc8 : fifo_size ≥ 8 := hc
      have hn : 0 < n := by
        push_cast at hsize
        omega
      obtain ⟨m, rfl⟩ : ∃ m, n = m + 1 := ⟨n - 1, by omega⟩
      obtain ⟨s1, hs1⟩ := consume_unit_completes bus work_area fifo_start fifo_end m s hidle
      rw [hs1]
      simp only []
      apply ih _ s1 hn
      have hw : (XMC4XXX_FLASH_WORD_SIZE : Int) = 8 := rfl
      rw [hw]
      push_cast at hsize ⊢
      omega
    · rw [if_neg hc]
      exact ⟨s, rfl⟩

/-- C25: for a fifo of 32-bit addresses shorter than 2^31 bytes, with
`fifo_start <= rp < fifo_end` and a write pointer `wp` in
`[fifo_start, fifo_end]`, every word a completed drain pass reads, other than
the flash status register, lies inside `[rp, wp)` when `wp >= rp` and inside
`[rp, fifo_end)` when `wp < rp`; the pass completes when the controller is
seen idle and the fuel exceeds the number of units.  The byte count of the
pass is computed from `wp` and `rp` as the routine does before entering its
inner loop. -/
theorem drain_pass_region (bus : Bus) (work_area fifo_start fifo_end fuel wp : Nat)
    (s : loader_state)
    (hlo : fifo_start ≤ s.rp_cache) (hhi : s.rp_cache < fifo_end) (hend : fifo_end < 2 ^ 32)
    (hlen : fifo_end - fifo_start < 2 ^ 31)
    (hwp : fifo_start ≤ wp ∧ wp ≤ fifo_end) :
    (∀ s', write_inner bus work_area fifo_start fifo_end fuel
        (if to_int32 (wp + U32 - s.rp_cache % U32) < 0 then
          to_int32 (fifo_end + U32 - s.rp_cache % U32)
         else to_int32 (wp + U32 - s.rp_cache % U32)) s = some s' →
      ∃ added, s'.trace = s.trace ++ added ∧
        ∀ a, Event.read_u32 a ∈ added →
          a = FLASH_REG_FLASH0_FSR ∨
          (s.rp_cache ≤ a ∧ a + 4 ≤ (if wp ≥ s.rp_cache then wp else fifo_end))) ∧
    ((∀ tr, bus.load tr FLASH_REG_FLASH0_FSR &&& FLASH_FSR_PBUSY_Msk = 0) →
      0 < fuel → fifo_end - fifo_start < 8 * fuel →
      ∃ s', write_inner bus work_area fifo_start fifo_end fuel
        (if to_int32 (wp + U32 - s.rp_cache % U32) < 0 then
          to_int32 (fifo_end + U32 - s.rp_cache % U32)
         else to_int32 (wp + U32 - s.rp_cache % U32)) s = some s') := by
  have hU : U32 = 4294967296 := by decide
  have hbound : (s.rp_cache : Int) +
      (if to_int32 (wp + U32 - s.rp_cache % U32) < 0 then
        to_int32 (fifo_end + U32 - s.rp_cache % U32)
       else to_int32 (wp + U32 - s.rp_cache % U32)) ≤
      ((if wp ≥ s.rp_cache then wp else fifo_end : Nat) : Int) := by
    unfold to_int32
    rw [hU]
    by_cases hge : wp ≥ s.rp_cache
    · rw [if_pos hge]
      split_ifs <;> omega
    · rw [if_neg hge]
      split_ifs <;> omega
  constructor
  · intro s' h
    exact write_inner_reads bus work_area fifo_start fifo_end s.rp_cache
      (if wp ≥ s.rp_cache then wp else fifo_end) (by split_ifs <;> omega) hend fuel _ s s' h
      (Or.inr ⟨le_refl _, hbound⟩)
  · intro hidle hfuel hsize
    apply write_inner_completes bus work_area fifo_start fifo_end hidle fuel _ s hfuel
    have hle : ((if wp ≥ s.rp_cache then wp else fifo_end : Nat) : Int) ≤ fifo_end := by
      split_ifs <;> omega
    omega

/-- Witness for C25: four units published in a 64-byte fifo at 0x2000106C,
read pointer at the start. -/
theorem drain_pass_region_witness :
    ∃ s', write_inner (filled_fifo_bus 0x20001000 0x2000106C 4 (fun a => a)) 0x20001000
        0x2000106C 0x200010AC 10
        (if to_int32 (0x2000108C + U32 - 0x2000106C % U32) < 0 then
          to_int32 (0x200010AC + U32 - 0x2000106C % U32)
         else to_int32 (0x2000108C + U32 - 0x2000106C % U32))
        { rp_cache := 0x2000106C, target_address := 0x0C000000, idx := 0, count := 4,
          trace := [] } = some s' ∧
      ∃ added, s'.trace = [] ++ added ∧
        ∀ a, Event.read_u32 a ∈ added →
          a = FLASH_REG_FLASH0_FSR ∨
          (0x2000106C ≤ a ∧ a + 4 ≤ (if 0x2000108C ≥ 0x2000106C then 0x2000108C else 0x200010AC)) :=
  ⟨_, rfl,
   (drain_pass_region (filled_fifo_bus 0x20001000 0x2000106C 4 (fun a => a)) 0x20001000
     0x2000106C 0x200010AC 10 0x2000108C
     { rp_cache := 0x2000106C, target_address := 0x0C000000, idx := 0, count := 4,
       trace := [] }
     (by decide) (by decide) (by decide) (by decide) ⟨by decide, by decide⟩).1 _ rfl⟩

/-! ## The routine on the target: page boundaries -/

set_option maxRecDepth 100000 in
/-- C23 (counterexample): the host supplies 32 flash-word units (256 bytes)
for a transfer of 32 units.  The routine issues the write-page command for the
page at 0x0C000000 after the 32nd unit, not after the 64th: its last accesses
are the two loads and two stores of unit 32, the four stores of the write-page
command, one poll of the status register and the store of the read pointer; it
ends with the page index reset to 0 and the destination advanced by 256
bytes. -/
theorem page_after_32_units :
    (loader_write (filled_fifo_bus 0x20001000 0x2000106C 32 (fun a => a)) 100
        0x20001000 (0x2000106C + 512) 0x0C000000 32).map
      (fun s => (s.idx, s.target_address, s.count, s.rp_cache, s.trace.length)) =
      some (0, 0x0C000100, 0, 0x2000116C, 169) ∧
    (loader_write (filled_fifo_bus 0x20001000 0x2000106C 32 (fun a => a)) 100
        0x20001000 (0x2000106C + 512) 0x0C000000 32).map (fun s => s.trace.drop 159) =
      some
        [Event.read_u32 0x20001164, Event.read_u32 0x20001168,
         Event.write_u32 0x0C0055F0 0x20001164, Event.write_u32 0x0C0055F4 0x20001168,
         Event.write_u32 0x0C005554 0xaa, Event.write_u32 0x0C00AAA8 0x55,
         Event.write_u32 0x0C005554 0xa0, Event.write_u32 0x0C000000 0xaa,
         Event.read_u32 FLASH_REG_FLASH0_FSR,
         Event.write_u32 0x20001068 0x2000116C] := by
  constructor
  · decide
  · decide

/-- C23 (amended): the page index counts 32-bit words, two per flash-word
unit, and a page is 64 words, that is 32 units.  With `m < 32` units loaded
since the start of the page (`idx = 2 * m`), a completed pass of the inner
loop issues no write-page command when `m < 31`: it adds the page-mode entry
(only when `m = 0`), the two loads, the load-page stores and the read-pointer
store, and leaves `idx = 2 * (m + 1)` with the destination unchanged.  When
`m = 31`, the 32nd unit, it adds after the load-page stores the write-page
command for the page start, polls the status register, resets the index to 0
and advances the destination by 256 bytes.  The pass completes whenever
`m < 31`, and for `m = 31` once the controller is seen idle. -/
theorem page_every_32_units (bus : Bus) (work_area fifo_start fifo_end fuel : Nat)
    (s : loader_state) (m : Nat) (hm : s.idx = 2 * m) (hlt : m < 32) :
    (∀ s', consume_unit bus work_area fifo_start fifo_end fuel s = some s' →
      (m < 31 →
        s'.idx = 2 * (m + 1) ∧ s'.target_address = s.target_address ∧
        s'.trace =
          (if s.idx = 0 then
            s.trace ++ XMC_FLASH_lClearStatusCommand ++ XMC_FLASH_lEnterPageModeCommand
           else s.trace) ++
          [Event.read_u32 s.rp_cache, Event.read_u32 ((s.rp_cache + 4) % U32)] ++
          XMC_FLASH_lLoadPageCommand
            (bus.load (if s.idx = 0 then
                s.trace ++ XMC_FLASH_lClearStatusCommand ++ XMC_FLASH_lEnterPageModeCommand
              else s.trace) s.rp_cache)
            (bus.load ((if s.idx = 0 then
                s.trace ++ XMC_FLASH_lClearStatusCommand ++ XMC_FLASH_lEnterPageModeCommand
              else s.trace) ++ [Event.read_u32 s.rp_cache]) ((s.rp_cache + 4) % U32)) ++
          [Event.write_u32 (work_area + 104) s'.rp_cache]) ∧
      (m = 31 →
        s'.idx = 0 ∧ s'.target_address = (s.target_address + 256) % U32 ∧
        ∃ k, s'.trace =
          s.trace ++
          [Event.read_u32 s.rp_cache, Event.read_u32 ((s.rp_cache + 4) % U32)] ++
          XMC_FLASH_lLoadPageCommand (bus.load s.trace s.rp_cache)
            (bus.load (s.trace ++ [Event.read_u32 s.rp_cache]) ((s.rp_cache + 4) % U32)) ++
          XMC_FLASH_lWritePageCommand s.target_address ++
          List.replicate (k + 1) (Event.read_u32 FLASH_REG_FLASH0_FSR) ++
          [Event.write_u32 (work_area + 104) s'.rp_cache])) ∧
    (m < 31 ∨ (0 < fuel ∧ ∀ tr, bus.load tr FLASH_REG_FLASH0_FSR &&& FLASH_FSR_PBUSY_Msk = 0) →
      ∃ s', consume_unit bus work_area fifo_start fifo_end fuel s = some s') := by
  have hU : U32 = 4294967296 := by decide
  have hidx : (s.idx + 2) % U32 = 2 * (m + 1) := by
    rw [hU, hm]
    omega
  constructor
  · intro s' h
    unfold consume_unit at h
    simp only [] at h
    constructor
    · intro h31
      have hp : ¬ (s.idx + 2) % U32 = XMC_FLASH_WORDS_PER_PAGE := by
        rw [hidx]
        show ¬ 2 * (m + 1) = 64
        omega
      rw [if_neg hp] at h
      simp only [Option.some.injEq] at h
      subst h
      exact ⟨hidx, rfl, rfl⟩
    · intro h31
      have hp : (s.idx + 2) % U32 = XMC_FLASH_WORDS_PER_PAGE := by
        rw [hidx, h31]
        rfl
      have h0 : ¬ s.idx = 0 := by omega
      rw [if_pos hp, if_neg h0] at h
      cases hsp : spin_busy bus fuel
        (s.trace ++ [Event.read_u32 s.rp_cache, Event.read_u32 ((s.rp_cache + 4) % U32)] ++
          XMC_FLASH_lLoadPageCommand (bus.load s.trace s.rp_cache)
            (bus.load (s.trace ++ [Event.read_u32 s.rp_cache]) ((s.rp_cache + 4) % U32)) ++
          XMC_FLASH_lWritePageCommand s.target_address) with
      | none =>
        rw [hsp] at h
        exact Option.noConfusion h
      | some tr3 =>
        rw [hsp] at h
        obtain ⟨k, hk⟩ := spin_busy_reads bus _ _ _ hsp
        simp only [Option.some.injEq] at h
        subst h
        refine ⟨rfl, ?_, k, ?_⟩
        · show (s.target_address + 4 * ((s.idx + 2) % U32)) % U32 = _
          rw [hidx, h31]
        · show tr3 ++ _ = _
          rw [hk]
          rfl
  · intro hc
    rcases hc with hc | ⟨hf, hidle⟩
    · apply consume_unit_no_page
      rw [hidx]
      omega
    · obtain ⟨n, rfl⟩ : ∃ n, fuel = n + 1 := ⟨fuel - 1, by omega⟩
      exact consume_unit_completes bus work_area fifo_start fifo_end n s hidle

/-- Witness for C23 (amended): the 32nd unit of a page, taken from a fifo at
0x2000106C with the controller idle. -/
theorem page_every_32_units_witness :
    ∃ s', consume_unit (filled_fifo_bus 0x20001000 0x2000106C 32 (fun a => a)) 0x20001000
        0x2000106C 0x2000126C 10
        { rp_cache := 0x20001164, target_address := 0x0C000000, idx := 62, count := 1,
          trace := [] } = some s' ∧
      s'.idx = 0 ∧ s'.target_address = (0x0C000000 + 256) % U32 ∧
      ∃ k, s'.trace =
        [] ++ [Event.read_u32 0x20001164, Event.read_u32 ((0x20001164 + 4) % U32)] ++
        XMC_FLASH_lLoadPageCommand
          ((filled_fifo_bus 0x20001000 0x2000106C 32 (fun a => a)).load [] 0x20001164)
          ((filled_fifo_bus 0x20001000 0x2000106C 32 (fun a => a)).load
            ([] ++ [Event.read_u32 0x20001164]) ((0x20001164 + 4) % U32)) ++
        XMC_FLASH_lWritePageCommand 0x0C000000 ++
        List.replicate (k + 1) (Event.read_u32 FLASH_REG_FLASH0_FSR) ++
        [Event.write_u32 (0x20001000 + 104) s'.rp_cache] :=
  ⟨_, rfl,
   ((page_every_32_units (filled_fifo_bus 0x20001000 0x2000106C 32 (fun a => a)) 0x20001000
     0x2000106C 0x2000126C 10
     { rp_cache := 0x20001164, target_address := 0x0C000000, idx := 62, count := 1,
       trace := [] } 31 rfl (by decide)).1 _ rfl).2 rfl⟩

/-! ## The routine on the target: the remaining count -/

/-- C29 (counterexample): remaining count 1 with two units between the read
and the write pointer (the host zeroes the write pointer before the routine
looks at it again).  The routine consumes both units in the same drain pass,
storing the read pointer twice, and reaches its breakpoint with the remaining
count wrapped to 2^32 - 1. -/
theorem count_wraps_below_zero :
    ∃ s, loader_write (abort_after_first_pass_bus 0x20001000 0x2000106C 2 (fun a => a)) 100
        0x20001000 (0x2000106C + 64) 0x0C000000 1 = some s ∧
      s.count = 2 ^ 32 - 1 ∧ s.rp_cache = 0x2000106C + 16 ∧ s.idx = 4 ∧
      s.trace =
        [Event.read_u32 0x20001068, Event.read_u32 0x20001064,
         Event.write_u32 0x0C005554 0xf5, Event.write_u32 0x0C005554 0x50,
         Event.read_u32 0x2000106C, Event.read_u32 0x20001070,
         Event.write_u32 0x0C0055F0 0x2000106C, Event.write_u32 0x0C0055F4 0x20001070,
         Event.write_u32 0x20001068 0x20001074,
         Event.read_u32 0x20001074, Event.read_u32 0x20001078,
         Event.write_u32 0x0C0055F0 0x20001074, Event.write_u32 0x0C0055F4 0x20001078,
         Event.write_u32 0x20001068 0x2000107C,
         Event.read_u32 0x20001064] :=
  ⟨{ rp_cache := 0x2000107C
     target_address := 0x0C000000
     idx := 4
     count := 4294967295
     trace :=
       [Event.read_u32 0x20001068, Event.read_u32 0x20001064,
        Event.write_u32 0x0C005554 0xf5, Event.write_u32 0x0C005554 0x50,
        Event.read_u32 0x2000106C, Event.read_u32 0x20001070,
        Event.write_u32 0x0C0055F0 0x2000106C, Event.write_u32 0x0C0055F4 0x20001070,
        Event.write_u32 0x20001068 0x20001074,
        Event.read_u32 0x20001074, Event.read_u32 0x20001078,
        Event.write_u32 0x0C0055F0 0x20001074, Event.write_u32 0x0C0055F4 0x20001078,
        Event.write_u32 0x20001068 0x2000107C,
        Event.read_u32 0x20001064] },
    by decide, rfl, rfl, rfl, rfl⟩

/-- Count after a drain pass that finds no more units than remain: the count
goes down by the number of units taken. -/
theorem write_inner_count (bus : Bus) (work_area fifo_start fifo_end : Nat) :
    ∀ (fuel : Nat) (fifo_size : Int) (s s' : loader_state),
      write_inner bus work_area fifo_start fifo_end fuel fifo_size s = some s' →
      s.count < 2 ^ 32 → fifo_size < 8 * ((s.count : Int) + 1) →
      (s'.count : Int) = s.count - max 0 (fifo_size / 8) := by
  have hU : U32 = 4294967296 := by decide
  intro fuel
  induction fuel with
  | zero =>
    intro fifo_size s s' h
    simp [write_inner] at h
  | succ n ih =>
    intro fifo_size s s' h h32 havail
    rw [write_inner] at h
    by_cases hc : fifo_size ≥ (XMC4XXX_FLASH_WORD_SIZE : Int)
    · rw [if_pos hc] at h
      have hc8 : fifo_size ≥ 8 := hc
      cases hcu : consume_unit bus work_area fifo_start fifo_end n s with
      | none =>
        rw [hcu] at h
        exact Option.noConfusion h
      | some s1 =>
        rw [hcu] at h
        simp only [] at h
        obtain ⟨-, hcount, -⟩ := consume_unit_some bus work_area fifo_start fifo_end n s s1 hcu
        have hpos : 1 ≤ s.count := by omega
        have hc1 : s1.count = s.count - 1 := by
          rw [hcount, hU]
          omega
        have hw : (XMC4XXX_FLASH_WORD_SIZE : Int) = 8 := rfl
        rw [hw] at h
        have h1 := ih (fifo_size - 8) s1 s' h (by omega) (by rw [hc1]; omega)
        rw [h1, hc1]
        omega
    · rw [if_neg hc] at h
      injection h with h
      subst h
      have hc8 : fifo_size < 8 := lt_of_not_ge hc
      omega

/-- C29 (amended): each completed pass of the inner loop replaces the 32-bit
remaining count `c` by `c - 1` modulo 2^32; in a drain pass that finds at most
`c` units available (fewer than `8 * (c + 1)` bytes) the count goes down by
exactly the number of units taken, `fifo_size / 8`, without wrapping; and with
the count at zero the outer loop stops at once, with no further access. -/
theorem count_per_pass (bus : Bus) (work_area fifo_start fifo_end fuel : Nat)
    (fifo_size : Int) (s : loader_state)
    (h32 : s.count < 2 ^ 32) (havail : fifo_size < 8 * ((s.count : Int) + 1)) :
    (∀ s', consume_unit bus work_area fifo_start fifo_end fuel s = some s' →
      s'.count = (s.count + 2 ^ 32 - 1) % 2 ^ 32) ∧
    (∀ s', write_inner bus work_area fifo_start fifo_end fuel fifo_size s = some s' →
      (s'.count : Int) = s.count - max 0 (fifo_size / 8)) ∧
    (s.count = 0 → write_outer bus work_area fifo_start fifo_end (fuel + 1) s = some s) := by
  refine ⟨?_, ?_, ?_⟩
  · intro s' h
    exact (consume_unit_some bus work_area fifo_start fifo_end fuel s s' h).2.1
  · intro s' h
    exact write_inner_count bus work_area fifo_start fifo_end fuel fifo_size s s' h h32 havail
  · intro h0
    rw [write_outer, if_pos h0]

/-- Witness for C29 (amended): remaining count 4 with two units (16 bytes)
available; the pass leaves the count at 2. -/
theorem count_per_pass_witness :
    ∃ s', write_inner (filled_fifo_bus 0x20001000 0x2000106C 2 (fun a => a)) 0x20001000
        0x2000106C 0x200010AC 10 16
        { rp_cache := 0x2000106C, target_address := 0x0C000000, idx := 0, count := 4,
          trace := [] } = some s' ∧
      (s'.count : Int) = ((4 : Nat) : Int) - max 0 (16 / 8) ∧ s'.count = 2 :=
  ⟨_, rfl,
   (count_per_pass (filled_fifo_bus 0x20001000 0x2000106C 2 (fun a => a)) 0x20001000
     0x2000106C 0x200010AC 10 16
     { rp_cache := 0x2000106C, target_address := 0x0C000000, idx := 0, count := 4,
       trace := [] } (by decide) (by decide)).2.1 _ rfl, rfl⟩

end XMC4xxx
